import Mathlib

/-! AF9033 demodulator driver: shallow embedding and verified properties.

Source: `drivers/media/dvb-frontends/af9033.c`.

Machine integers are natural numbers (or integers for `int`) with the
wrap-around of the C type written out as `% 2 ^ 32` and the like. -/

namespace AF9033

/-! ## Machine arithmetic -/

/-- Modulus of the C type `u32`. -/
def U32 : Nat := 2 ^ 32

/-- Unsigned 32-bit addition `a + b`. -/
def u32_add (a b : Nat) : Nat := (a + b) % U32

/-- Unsigned 32-bit subtraction `a - b` (wraps below zero). -/
def u32_sub (a b : Nat) : Nat := (a + U32 - b % U32) % U32

/-- Unsigned 32-bit multiplication `a * b`. -/
def u32_mul (a b : Nat) : Nat := (a * b) % U32

/-- Unsigned 32-bit left shift `a << k`. C defines it for `k < 32` only; for a
larger count this model keeps the bits that a 32-bit register would keep. -/
def u32_shl (a k : Nat) : Nat := (a * 2 ^ k) % U32

/-! ## `af9033_div` -/

/-- One pass of the body of the `for` loop of `af9033_div`, on the pair `(a, r)`:
`if (a >= b) { r += 1; a -= b; }  a <<= 1;  r <<= 1;`. -/
def af9033_div_step (b : Nat) (s : Nat × Nat) : Nat × Nat :=
  let s1 : Nat × Nat := if s.1 ≥ b then (u32_sub s.1 b, u32_add s.2 1) else s
  (u32_shl s1.1 1, u32_shl s1.2 1)

/-- The `for (i = 0; i < x; i++)` loop of `af9033_div`: `x` passes of the body. -/
def af9033_div_loop (b : Nat) : Nat → Nat × Nat → Nat × Nat
  | 0, s => s
  | x + 1, s => af9033_div_step b (af9033_div_loop b x s)

/-- The function `af9033_div(dev, a, b, x)` on `u32` operands. (For `b = 0` and
`a > 0` the C code divides by zero; the callers pass a non-zero `b`.) -/
def af9033_div (a b x : Nat) : Nat :=
  let c := if a > b then a / b else 0
  let a1 := if a > b then u32_sub a (u32_mul c b) else a
  let r := (af9033_div_loop b x (a1, 0)).2
  u32_add (u32_shl c x) r

/-! ## Error numbers and bus transactions -/

/-- Linux error number `EINVAL`. -/
def EINVAL : Int := 22

/-- Linux error number `ENODEV`. -/
def ENODEV : Int := 19

/-- Linux error number `ETIMEDOUT`. -/
def ETIMEDOUT : Int := 110

/-- Linux error number `EREMOTEIO`. -/
def EREMOTEIO : Int := 121

/-- The constant `MAX_XFER_SIZE`: size of the transfer buffer of `af9033_wr_regs`. -/
def MAX_XFER_SIZE : Nat := 64

/-- The constant `MAX_TAB_LEN` of `af9033_wr_reg_val_tab`. -/
def MAX_TAB_LEN : Nat := 212

/-- A transfer handed to `i2c_transfer`: the write message of `af9033_wr_regs`
(register address, payload) or the write-then-read pair of `af9033_rd_regs`
(register address, number of bytes asked for). -/
inductive Op where
  | wr (reg : Nat) (val : List Nat)
  | rd (reg : Nat) (len : Nat)
  deriving DecidableEq, Repr

/-- The I2C adapter and the chip behind it: what `i2c_transfer` answers to a
transfer, given every transfer issued before it. `xfer_wr` is the return value for
a write message; `xfer_rd` is the return value and the bytes put in the read buffer. -/
structure Bus where
  xfer_wr : List Op → Nat → List Nat → Int
  xfer_rd : List Op → Nat → Nat → Int × List Nat

/-- The three address bytes and the payload that `af9033_wr_regs` puts in its buffer. -/
def wr_msg (reg : Nat) (val : List Nat) : List Nat :=
  [(reg >>> 16) &&& 0xff, (reg >>> 8) &&& 0xff, (reg >>> 0) &&& 0xff] ++ val

/-- The function `af9033_wr_regs(dev, reg, val, len)`; `len` is the length of `val`.
Returns `ret` and the transfers issued so far. -/
def af9033_wr_regs (bus : Bus) (log : List Op) (reg : Nat) (val : List Nat) :
    Int × List Op :=
  if 3 + val.length > MAX_XFER_SIZE then (-EINVAL, log)
  else
    let ret := bus.xfer_wr log reg val
    (if ret = 1 then 0 else - EREMOTEIO, log ++ [Op.wr reg val])

/-- The `len` bytes (each a `u8`) found in the read buffer after a transfer. -/
def rd_buf (data : List Nat) (len : Nat) : List Nat :=
  (List.range len).map (fun i => data.getD i 0 % 256)

/-- The function `af9033_rd_regs(dev, reg, val, len)`: returns `ret`, the buffer
`val` and the transfers issued so far. -/
def af9033_rd_regs (bus : Bus) (log : List Op) (reg : Nat) (len : Nat) :
    Int × List Nat × List Op :=
  let r := bus.xfer_rd log reg len
  (if r.1 = 2 then 0 else - EREMOTEIO, rd_buf r.2 len, log ++ [Op.rd reg len])

/-- The function `af9033_wr_reg(dev, reg, val)`. -/
def af9033_wr_reg (bus : Bus) (log : List Op) (reg : Nat) (val : Nat) : Int × List Op :=
  af9033_wr_regs bus log reg [val]

/-- The function `af9033_rd_reg(dev, reg, val)`: returns `ret`, the byte and the log. -/
def af9033_rd_reg (bus : Bus) (log : List Op) (reg : Nat) : Int × Nat × List Op :=
  let r := af9033_rd_regs bus log reg 1
  (r.1, r.2.1.getD 0 0, r.2.2)

/-- The byte written by `af9033_wr_reg_mask` when the mask is not `0xff`:
`val &= mask; tmp &= ~mask; val |= tmp;` on `u8` operands. -/
def mask_merge (val mask tmp : Nat) : Nat :=
  (val &&& mask) ||| (tmp &&& (0xff ^^^ mask))

/-- The function `af9033_wr_reg_mask(dev, reg, val, mask)`. -/
def af9033_wr_reg_mask (bus : Bus) (log : List Op) (reg val mask : Nat) : Int × List Op :=
  if mask ≠ 0xff then
    let r := af9033_rd_regs bus log reg 1
    if r.1 ≠ 0 then (r.1, r.2.2)
    else af9033_wr_regs bus r.2.2 reg [mask_merge val mask (r.2.1.getD 0 0)]
  else af9033_wr_regs bus log reg [val]

/-- The loop `for (i = 0; i < 8; i++) if ((mask >> i) & 0x01) break;` of
`af9033_rd_reg_mask`, entered with `i = 8 - n`: the value of `i` when it ends. -/
def first_bit (mask : Nat) : Nat → Nat
  | 0 => 8
  | n + 1 => if (mask >>> (8 - (n + 1))) &&& 0x01 ≠ 0 then 8 - (n + 1) else first_bit mask n

/-- The function `af9033_rd_reg_mask(dev, reg, val, mask)`. -/
def af9033_rd_reg_mask (bus : Bus) (log : List Op) (reg mask : Nat) : Int × Nat × List Op :=
  let r := af9033_rd_regs bus log reg 1
  if r.1 ≠ 0 then (r.1, 0, r.2.2)
  else (0, ((r.2.1.getD 0 0) &&& mask) >>> first_bit mask 8, r.2.2)

/-! ## Register tables -/

/-- Modelled from the spec: `struct reg_val` is declared in `af9033_priv.h`, which is
not among the sources. A table entry is a register address and a value; addresses
lie in the 24-bit register space and are held in a `u32`, values are bytes. -/
structure reg_val where
  reg : Nat
  val : Nat
  deriving DecidableEq, Repr

/-- Modelled from the spec: `struct reg_val_mask` of `af9033_priv.h` (not among the
sources): a register address, a value and a bit mask. -/
structure reg_val_mask where
  reg : Nat
  val : Nat
  mask : Nat
  deriving DecidableEq, Repr

/-- The `for` loop of `af9033_wr_reg_val_tab` over the entries from index `i` on;
`acc` is `buf[0 .. j-1]`, so `j` is its length. -/
def af9033_wr_reg_val_tab_loop (bus : Bus) : List reg_val → List Nat → List Op → Int × List Op
  | [], _, log => (0, log)
  | e :: rest, acc, log =>
    let buf := acc ++ [e.val]
    let flush : Bool :=
      match rest with
      | [] => true
      | e1 :: _ => decide (e.reg ≠ u32_sub e1.reg 1)
    if flush then
      let r := af9033_wr_regs bus log (u32_sub e.reg acc.length) buf
      if r.1 < 0 then r
      else af9033_wr_reg_val_tab_loop bus rest [] r.2
    else af9033_wr_reg_val_tab_loop bus rest buf log

/-- The function `af9033_wr_reg_val_tab(dev, tab, tab_len)`; `tab_len` is the
length of `tab` and `sizeof(buf)` is `1 + MAX_TAB_LEN`. -/
def af9033_wr_reg_val_tab (bus : Bus) (log : List Op) (tab : List reg_val) : Int × List Op :=
  if tab.length > 1 + MAX_TAB_LEN then (-EINVAL, log)
  else af9033_wr_reg_val_tab_loop bus tab [] log

/-- Grouping of a register table as the specification words it: consecutive
entries whose address is exactly one greater than the previous one form one group,
given as its base address and its values in order. -/
def spec_bursts : List reg_val → List (Nat × List Nat)
  | [] => []
  | [e] => [(e.reg, [e.val])]
  | e :: e1 :: rest =>
    if e1.reg = e.reg + 1 then
      match spec_bursts (e1 :: rest) with
      | [] => [(e.reg, [e.val])]
      | g :: groups => (e.reg, e.val :: g.2) :: groups
    else (e.reg, [e.val]) :: spec_bursts (e1 :: rest)

/-- A bus on which every transfer completes: `i2c_transfer` reports one message
for a write and two for a read. -/
def Bus.always_ok (bus : Bus) : Prop :=
  (∀ log reg val, bus.xfer_wr log reg val = 1) ∧ (∀ log reg len, (bus.xfer_rd log reg len).1 = 2)

/-- A bus that completes every transfer and reads every register as `0`. -/
def bus_zero : Bus where
  xfer_wr := fun _ _ _ => 1
  xfer_rd := fun _ _ len => (2, List.replicate len 0)

/-! ## Configuration, header data and driver state -/

/-- Modelled from the spec: `struct af9033_config` is declared in `af9033.h`, which is
not among the sources. The fields the driver reads: clock frequency (`u32`), ADC
multiplier mode, tuner identifier and transport-stream mode (`u8` each), the
spectral-inversion flag and the clock-output flag. -/
structure af9033_config where
  clock : Nat
  adc_multiplier : Nat
  tuner : Nat
  ts_mode : Nat
  spec_inv : Bool
  dyn0_clk : Bool
  deriving DecidableEq, Repr

/-- A row of `clock_adc_lut` (declared in `af9033_priv.h`). -/
structure clock_adc where
  clock : Nat
  adc : Nat
  deriving DecidableEq, Repr

/-- A row of `coeff_lut` (declared in `af9033_priv.h`); `val` is the byte array. -/
structure coeff where
  clock : Nat
  bandwidth_hz : Nat
  val : List Nat
  deriving DecidableEq, Repr

/-- The constants and tables of `af9033.h` and `af9033_priv.h`, which are not among
the sources and are therefore parameters of the model. `clock_adc_past` and
`coeff_past` stand for what lies in memory right behind `clock_adc_lut` and
`coeff_lut`: the row the C code reads when a lookup loop ends without a match and
leaves its index one past the last row. -/
structure Header where
  AF9033_TUNER_TUA9001 : Nat
  AF9033_TUNER_FC0011 : Nat
  AF9033_TUNER_MXL5007T : Nat
  AF9033_TUNER_TDA18218 : Nat
  AF9033_TUNER_FC2580 : Nat
  AF9033_TUNER_FC0012 : Nat
  AF9033_TUNER_IT9135_38 : Nat
  AF9033_TUNER_IT9135_51 : Nat
  AF9033_TUNER_IT9135_52 : Nat
  AF9033_TUNER_IT9135_60 : Nat
  AF9033_TUNER_IT9135_61 : Nat
  AF9033_TUNER_IT9135_62 : Nat
  AF9033_TS_MODE_USB : Nat
  AF9033_TS_MODE_PARALLEL : Nat
  AF9033_TS_MODE_SERIAL : Nat
  AF9033_ADC_MULTIPLIER_2X : Nat
  clock_adc_lut : List clock_adc
  clock_adc_past : clock_adc
  coeff_lut : List coeff
  coeff_past : coeff
  ofsm_init : List reg_val
  ofsm_init_it9135_v1 : List reg_val
  ofsm_init_it9135_v2 : List reg_val
  tuner_init_tua9001 : List reg_val
  tuner_init_fc0011 : List reg_val
  tuner_init_mxl5007t : List reg_val
  tuner_init_tda18218 : List reg_val
  tuner_init_fc2580 : List reg_val
  tuner_init_fc0012 : List reg_val
  tuner_init_it9135_38 : List reg_val
  tuner_init_it9135_51 : List reg_val
  tuner_init_it9135_52 : List reg_val
  tuner_init_it9135_60 : List reg_val
  tuner_init_it9135_61 : List reg_val
  tuner_init_it9135_62 : List reg_val

/-- The twelve tuner identifiers with a `case` in the tuner switch of `af9033_init`. -/
def Header.tuners (H : Header) : List Nat :=
  [H.AF9033_TUNER_TUA9001, H.AF9033_TUNER_FC0011, H.AF9033_TUNER_MXL5007T,
   H.AF9033_TUNER_TDA18218, H.AF9033_TUNER_FC2580, H.AF9033_TUNER_FC0012,
   H.AF9033_TUNER_IT9135_38, H.AF9033_TUNER_IT9135_51, H.AF9033_TUNER_IT9135_52,
   H.AF9033_TUNER_IT9135_60, H.AF9033_TUNER_IT9135_61, H.AF9033_TUNER_IT9135_62]

/-- The mutable fields of `struct af9033_dev`, with the configuration. -/
structure af9033_dev where
  cfg : af9033_config
  bandwidth_hz : Nat
  ts_mode_parallel : Bool
  ts_mode_serial : Bool
  ber : Nat
  ucb : Nat
  last_stat_check : Nat
  deriving DecidableEq, Repr

/-- The statement pair `ret = ...; if (ret < 0) goto err;` followed by the rest `k`
of the function: the rest runs on the log the call left, unless `ret` is negative. -/
def chk (r : Int × List Op) (k : List Op → Int × List Op) : Int × List Op :=
  if r.1 < 0 then r else k r.2

/-- The lookup loop `for (i = 0; i < ARRAY_SIZE(clock_adc_lut); i++)
if (clock_adc_lut[i].clock == clock) break;`: the value of `i` after it. -/
def clock_adc_idx : List clock_adc → Nat → Nat
  | [], _ => 0
  | row :: rest, clock => if row.clock = clock then 0 else clock_adc_idx rest clock + 1

/-- The row `clock_adc_lut[i]`. -/
def Header.clock_adc_row (H : Header) (i : Nat) : clock_adc :=
  H.clock_adc_lut.getD i H.clock_adc_past

/-- The lookup loop over `coeff_lut` in `af9033_set_frontend`: the value of `i` after it. -/
def coeff_idx : List coeff → Nat → Nat → Nat
  | [], _, _ => 0
  | row :: rest, clock, bw =>
    if row.clock = clock ∧ row.bandwidth_hz = bw then 0 else coeff_idx rest clock bw + 1

/-- The row `coeff_lut[i]`. -/
def Header.coeff_row (H : Header) (i : Nat) : coeff :=
  H.coeff_lut.getD i H.coeff_past

/-! ## `af9033_init` -/

/-- The local table `tab[]` of `af9033_init`. -/
def init_tab (dev : af9033_dev) : List reg_val_mask :=
  [ ⟨0x80fb24, 0x00, 0x08⟩,
    ⟨0x80004c, 0x00, 0xff⟩,
    ⟨0x00f641, dev.cfg.tuner, 0xff⟩,
    ⟨0x80f5ca, 0x01, 0x01⟩,
    ⟨0x80f715, 0x01, 0x01⟩,
    ⟨0x00f41f, 0x04, 0x04⟩,
    ⟨0x00f41a, 0x01, 0x01⟩,
    ⟨0x80f731, 0x00, 0x01⟩,
    ⟨0x00d91e, 0x00, 0x01⟩,
    ⟨0x00d919, 0x00, 0x01⟩,
    ⟨0x80f732, 0x00, 0x01⟩,
    ⟨0x00d91f, 0x00, 0x01⟩,
    ⟨0x00d91a, 0x00, 0x01⟩,
    ⟨0x80f730, 0x00, 0x01⟩,
    ⟨0x80f778, 0x00, 0xff⟩,
    ⟨0x80f73c, 0x01, 0x01⟩,
    ⟨0x80f776, 0x00, 0x01⟩,
    ⟨0x00d8fd, 0x01, 0xff⟩,
    ⟨0x00d830, 0x01, 0xff⟩,
    ⟨0x00d831, 0x00, 0xff⟩,
    ⟨0x00d832, 0x00, 0xff⟩,
    ⟨0x80f985, dev.ts_mode_serial.toNat, 0x01⟩,
    ⟨0x80f986, dev.ts_mode_parallel.toNat, 0x01⟩,
    ⟨0x00d827, 0x00, 0xff⟩,
    ⟨0x00d829, 0x00, 0xff⟩,
    ⟨0x800045, dev.cfg.adc_multiplier, 0xff⟩ ]

/-- The loop `for (i = 0; i < ARRAY_SIZE(tab); i++)` of `af9033_init`: one masked
write per entry, left at the first negative `ret`. -/
def wr_reg_mask_tab (bus : Bus) : List reg_val_mask → List Op → Int × List Op
  | [], log => (0, log)
  | e :: rest, log => chk (af9033_wr_reg_mask bus log e.reg e.val e.mask) (wr_reg_mask_tab bus rest)

/-- The first `switch (dev->cfg.tuner)` of `af9033_init`: the OFSM table. -/
def ofsm_table (H : Header) (tuner : Nat) : List reg_val :=
  if tuner = H.AF9033_TUNER_IT9135_38 ∨ tuner = H.AF9033_TUNER_IT9135_51
      ∨ tuner = H.AF9033_TUNER_IT9135_52 then H.ofsm_init_it9135_v1
  else if tuner = H.AF9033_TUNER_IT9135_60 ∨ tuner = H.AF9033_TUNER_IT9135_61
      ∨ tuner = H.AF9033_TUNER_IT9135_62 then H.ofsm_init_it9135_v2
  else H.ofsm_init

/-- The second `switch (dev->cfg.tuner)` of `af9033_init`: the tuner table, or
`none` for the `default:` label. -/
def tuner_table (H : Header) (tuner : Nat) : Option (List reg_val) :=
  if tuner = H.AF9033_TUNER_TUA9001 then some H.tuner_init_tua9001
  else if tuner = H.AF9033_TUNER_FC0011 then some H.tuner_init_fc0011
  else if tuner = H.AF9033_TUNER_MXL5007T then some H.tuner_init_mxl5007t
  else if tuner = H.AF9033_TUNER_TDA18218 then some H.tuner_init_tda18218
  else if tuner = H.AF9033_TUNER_FC2580 then some H.tuner_init_fc2580
  else if tuner = H.AF9033_TUNER_FC0012 then some H.tuner_init_fc0012
  else if tuner = H.AF9033_TUNER_IT9135_38 then some H.tuner_init_it9135_38
  else if tuner = H.AF9033_TUNER_IT9135_51 then some H.tuner_init_it9135_51
  else if tuner = H.AF9033_TUNER_IT9135_52 then some H.tuner_init_it9135_52
  else if tuner = H.AF9033_TUNER_IT9135_60 then some H.tuner_init_it9135_60
  else if tuner = H.AF9033_TUNER_IT9135_61 then some H.tuner_init_it9135_61
  else if tuner = H.AF9033_TUNER_IT9135_62 then some H.tuner_init_it9135_62
  else none

/-- The bytes `buf[0..3]` of the clock control word in `af9033_init`. -/
def clock_cw_buf (dev : af9033_dev) : List Nat :=
  let clock_cw := af9033_div dev.cfg.clock 1000000 19
  [(clock_cw >>> 0) &&& 0xff, (clock_cw >>> 8) &&& 0xff, (clock_cw >>> 16) &&& 0xff,
   (clock_cw >>> 24) &&& 0xff]

/-- The bytes `buf[0..2]` of the ADC control word in `af9033_init`. -/
def adc_cw_buf (H : Header) (dev : af9033_dev) : List Nat :=
  let i := clock_adc_idx H.clock_adc_lut dev.cfg.clock
  let adc_cw := af9033_div (H.clock_adc_row i).adc 1000000 19
  [(adc_cw >>> 0) &&& 0xff, (adc_cw >>> 8) &&& 0xff, (adc_cw >>> 16) &&& 0xff]

/-- The part of `af9033_init` after the tuner table is loaded: the serial
transport-stream writes and the extra write for the IT9135 v2 tuners. -/
def init_finish (H : Header) (bus : Bus) (dev : af9033_dev) (log : List Op) : Int × List Op :=
  chk (if dev.cfg.ts_mode = H.AF9033_TS_MODE_SERIAL then
        chk (af9033_wr_reg_mask bus log 0x00d91c 0x01 0x01) fun log =>
        chk (af9033_wr_reg_mask bus log 0x00d917 0x00 0x01) fun log =>
        af9033_wr_reg_mask bus log 0x00d916 0x00 0x01
      else (0, log)) fun log =>
  if dev.cfg.tuner = H.AF9033_TUNER_IT9135_60 ∨ dev.cfg.tuner = H.AF9033_TUNER_IT9135_61
      ∨ dev.cfg.tuner = H.AF9033_TUNER_IT9135_62 then
    af9033_wr_reg bus log 0x800000 0x01
  else (0, log)

/-- The register operations of `af9033_init`, up to its `return 0` or its `err:` label. -/
def init_ops (H : Header) (bus : Bus) (dev : af9033_dev) (log : List Op) : Int × List Op :=
  chk (af9033_wr_regs bus log 0x800025 (clock_cw_buf dev)) fun log =>
  chk (af9033_wr_regs bus log 0x80f1cd (adc_cw_buf H dev)) fun log =>
  chk (wr_reg_mask_tab bus (init_tab dev) log) fun log =>
  chk (if dev.cfg.dyn0_clk then af9033_wr_reg bus log 0x80fba8 0x00 else (0, log)) fun log =>
  chk (if dev.cfg.ts_mode = H.AF9033_TS_MODE_USB then
        chk (af9033_wr_reg_mask bus log 0x80f9a5 0x00 0x01) fun log =>
        af9033_wr_reg_mask bus log 0x80f9b5 0x01 0x01
      else
        chk (af9033_wr_reg_mask bus log 0x80f990 0x00 0x01) fun log =>
        af9033_wr_reg_mask bus log 0x80f9b5 0x00 0x01) fun log =>
  chk (af9033_wr_reg_val_tab bus log (ofsm_table H dev.cfg.tuner)) fun log =>
  match tuner_table H dev.cfg.tuner with
  | none => (-ENODEV, log)
  | some init =>
    chk (af9033_wr_reg_val_tab bus log init) fun log =>
    init_finish H bus dev log

/-- The function `af9033_init(fe)`: returns `ret`, the device state and the log.
`dev->bandwidth_hz = 0` is reached only on the path to `return 0`. -/
def af9033_init (H : Header) (bus : Bus) (dev : af9033_dev) (log : List Op) :
    Int × af9033_dev × List Op :=
  let r := init_ops H bus dev log
  if r.1 < 0 then (r.1, dev, r.2)
  else (0, { dev with bandwidth_hz := 0 }, r.2)

/-! ## `af9033_sleep` -/

/-- The loop `for (i = 100, tmp = 1; i && tmp; i--)` of `af9033_sleep`, entered with
the given `i` and `tmp`: returns `ret`, the value of `i` when the loop is left, and
the log. (`usleep_range` has no effect on the state.) -/
def sleep_poll (bus : Bus) : Nat → Nat → List Op → Int × Nat × List Op
  | 0, _, log => (0, 0, log)
  | i + 1, tmp, log =>
    if tmp = 0 then (0, i + 1, log)
    else
      let r := af9033_rd_reg bus log 0x80004c
      if r.1 < 0 then (r.1, i + 1, r.2.2)
      else sleep_poll bus i r.2.1 r.2.2

/-- The function `af9033_sleep(fe)`. -/
def af9033_sleep (H : Header) (bus : Bus) (dev : af9033_dev) (log : List Op) : Int × List Op :=
  chk (af9033_wr_reg bus log 0x80004c 1) fun log =>
  chk (af9033_wr_reg bus log 0x800000 0) fun log =>
  let p := sleep_poll bus 100 1 log
  if p.1 < 0 then (p.1, p.2.2)
  else if p.2.1 = 0 then (-ETIMEDOUT, p.2.2)
  else
    chk (af9033_wr_reg_mask bus p.2.2 0x80fb24 0x08 0x08) fun log =>
    if dev.cfg.ts_mode = H.AF9033_TS_MODE_SERIAL then
      chk (af9033_wr_reg_mask bus log 0x00d917 0x00 0x01) fun log =>
      chk (af9033_wr_reg_mask bus log 0x00d916 0x01 0x01) fun log =>
      (0, log)
    else (0, log)

/-! ## `af9033_set_frontend` -/

/-- Modelled from the spec: the tuner collaborator behind `fe->ops.tuner_ops` (its
driver is not among the sources). `set_params` tells whether that callback is
present; it programs the tuner and touches neither the demodulator state nor the
property cache. `get_if_frequency` is `none` when the callback is absent and
otherwise the `u32` it stores in `if_frequency`. -/
structure tuner_ops where
  set_params : Bool
  get_if_frequency : Option Nat
  deriving DecidableEq, Repr

/-- Modelled from the spec: transmission mode of the property cache (the enum is
declared in the DVB core headers, not among the sources). -/
inductive fe_transmit_mode where
  | TRANSMISSION_MODE_2K
  | TRANSMISSION_MODE_8K
  | TRANSMISSION_MODE_AUTO
  deriving DecidableEq, Repr

/-- Modelled from the spec: guard interval of the property cache. -/
inductive fe_guard_interval where
  | GUARD_INTERVAL_1_32
  | GUARD_INTERVAL_1_16
  | GUARD_INTERVAL_1_8
  | GUARD_INTERVAL_1_4
  | GUARD_INTERVAL_AUTO
  deriving DecidableEq, Repr

/-- Modelled from the spec: hierarchy of the property cache. -/
inductive fe_hierarchy where
  | HIERARCHY_NONE
  | HIERARCHY_1
  | HIERARCHY_2
  | HIERARCHY_4
  | HIERARCHY_AUTO
  deriving DecidableEq, Repr

/-- Modelled from the spec: modulation of the property cache. -/
inductive fe_modulation where
  | QPSK
  | QAM_16
  | QAM_64
  | QAM_AUTO
  deriving DecidableEq, Repr

/-- Modelled from the spec: code rate of the property cache. -/
inductive fe_code_rate where
  | FEC_NONE
  | FEC_1_2
  | FEC_2_3
  | FEC_3_4
  | FEC_5_6
  | FEC_7_8
  | FEC_AUTO
  deriving DecidableEq, Repr

/-- Modelled from the spec: the fields of `struct dtv_frontend_properties`
(`fe->dtv_property_cache`, declared in the DVB core headers) that the driver uses. -/
structure dtv_frontend_properties where
  frequency : Nat
  bandwidth_hz : Nat
  transmission_mode : fe_transmit_mode
  guard_interval : fe_guard_interval
  hierarchy : fe_hierarchy
  modulation : fe_modulation
  code_rate_HP : fe_code_rate
  code_rate_LP : fe_code_rate
  deriving DecidableEq, Repr

/-- The `switch (c->bandwidth_hz)` of `af9033_set_frontend`: `bandwidth_reg_val`, or
`none` for the `default:` label. -/
def bandwidth_reg_val (bandwidth_hz : Nat) : Option Nat :=
  if bandwidth_hz = 6000000 then some 0x00
  else if bandwidth_hz = 7000000 then some 0x01
  else if bandwidth_hz = 8000000 then some 0x02
  else none

/-- Conversion of an `int` to `u32` (the bit pattern). -/
def to_u32 (i : Int) : Nat := (i % 4294967296).toNat

/-- Conversion of a `u32` to `int` (twos complement). -/
def to_s32 (n : Nat) : Int :=
  if n % 4294967296 < 2147483648 then (n % 4294967296 : Nat)
  else ((n % 4294967296 : Nat) : Int) - 4294967296

/-- The loop `while (sampling_freq > (adc_freq / 2)) sampling_freq -= adc_freq;`
with `int sampling_freq` and `u32 adc_freq`: both the comparison and the
subtraction are carried out on `u32`. `none` when `fuel` passes do not end it. -/
def fold_loop (adc_freq : Nat) : Nat → Int → Option Int
  | 0, _ => none
  | fuel + 1, sampling_freq =>
    if to_u32 sampling_freq > adc_freq / 2 then
      fold_loop adc_freq fuel (to_s32 (u32_sub (to_u32 sampling_freq) adc_freq))
    else some sampling_freq

/-- The bytes `buf[0..2]` of the frequency control word in `af9033_set_frontend`,
from the folded `sampling_freq`. -/
def freq_cw_buf (H : Header) (cfg : af9033_config) (adc_freq if_frequency : Nat)
    (sampling_freq : Int) : List Nat :=
  let spec_inv : Int := if cfg.spec_inv then -1 else 1
  let spec_inv : Int := if sampling_freq ≥ 0 then spec_inv * -1 else spec_inv
  let sampling_freq : Int :=
    if sampling_freq ≥ 0 then sampling_freq else to_s32 (to_u32 (sampling_freq * -1))
  let freq_cw := af9033_div (to_u32 sampling_freq) adc_freq 23
  let freq_cw := if spec_inv = -1 then u32_sub 0x800000 freq_cw else freq_cw
  let freq_cw := if cfg.adc_multiplier = H.AF9033_ADC_MULTIPLIER_2X then freq_cw / 2 else freq_cw
  let buf2 := (freq_cw >>> 16) &&& 0x7f
  [(freq_cw >>> 0) &&& 0xff, (freq_cw >>> 8) &&& 0xff, if if_frequency = 0 then 0 else buf2]

/-- The end of `af9033_set_frontend`, from the write of `bandwidth_reg_val` on:
the register operations that do not depend on a change of bandwidth. -/
def set_frontend_common (bus : Bus) (bandwidth_reg_val frequency : Nat) (log : List Op) :
    Int × List Op :=
  chk (af9033_wr_reg_mask bus log 0x80f904 bandwidth_reg_val 0x03) fun log =>
  chk (af9033_wr_reg bus log 0x800040 0x00) fun log =>
  chk (af9033_wr_reg bus log 0x800047 0x00) fun log =>
  chk (af9033_wr_reg_mask bus log 0x80f999 0x00 0x01) fun log =>
  chk (af9033_wr_reg bus log 0x80004b (if frequency ≤ 230000000 then 0x00 else 0x01)) fun log =>
  chk (af9033_wr_reg bus log 0x800000 0x00) fun log =>
  (0, log)

/-- The function `af9033_set_frontend(fe)`: returns `ret`, the device state and
the log, or `none` when the folding loop does not end within `fuel` passes. -/
def af9033_set_frontend (H : Header) (bus : Bus) (tuner : tuner_ops)
    (c : dtv_frontend_properties) (fuel : Nat) (dev : af9033_dev) (log : List Op) :
    Option (Int × af9033_dev × List Op) :=
  match bandwidth_reg_val c.bandwidth_hz with
  | none => some (-EINVAL, dev, log)
  | some bw =>
    -- program CFOE coefficients: `ret` is assigned and not tested
    let log1 :=
      if c.bandwidth_hz ≠ dev.bandwidth_hz then
        let i := coeff_idx H.coeff_lut dev.cfg.clock c.bandwidth_hz
        (af9033_wr_regs bus log 0x800001 (H.coeff_row i).val).2
      else log
    -- program frequency control
    if c.bandwidth_hz ≠ dev.bandwidth_hz then
      let adc_freq := (H.clock_adc_row (clock_adc_idx H.clock_adc_lut dev.cfg.clock)).adc
      let if_frequency := tuner.get_if_frequency.getD 0
      match fold_loop adc_freq fuel (to_s32 if_frequency) with
      | none => none
      | some sampling_freq =>
        let r := af9033_wr_regs bus log1 0x800029
          (freq_cw_buf H dev.cfg adc_freq if_frequency sampling_freq)
        if r.1 < 0 then some (r.1, dev, r.2)
        else
          let dev1 := { dev with bandwidth_hz := c.bandwidth_hz }
          let t := set_frontend_common bus bw c.frequency r.2
          some (t.1, dev1, t.2)
    else
      let t := set_frontend_common bus bw c.frequency log1
      some (t.1, dev, t.2)

/-! ## `af9033_get_frontend` -/

/-- The `switch ((buf[0] >> 0) & 3)` of `af9033_get_frontend`: the value of
`c->transmission_mode` after it, `prev` being its value before. -/
def sw_transmission_mode (b : Nat) (prev : fe_transmit_mode) : fe_transmit_mode :=
  match (b >>> 0) &&& 3 with
  | 0 => .TRANSMISSION_MODE_2K
  | 1 => .TRANSMISSION_MODE_8K
  | _ => prev

/-- The `switch ((buf[1] >> 0) & 3)`: `c->guard_interval` after it. -/
def sw_guard_interval (b : Nat) (prev : fe_guard_interval) : fe_guard_interval :=
  match (b >>> 0) &&& 3 with
  | 0 => .GUARD_INTERVAL_1_32
  | 1 => .GUARD_INTERVAL_1_16
  | 2 => .GUARD_INTERVAL_1_8
  | 3 => .GUARD_INTERVAL_1_4
  | _ => prev

/-- The `switch ((buf[2] >> 0) & 7)`: `c->hierarchy` after it. -/
def sw_hierarchy (b : Nat) (prev : fe_hierarchy) : fe_hierarchy :=
  match (b >>> 0) &&& 7 with
  | 0 => .HIERARCHY_NONE
  | 1 => .HIERARCHY_1
  | 2 => .HIERARCHY_2
  | 3 => .HIERARCHY_4
  | _ => prev

/-- The `switch ((buf[3] >> 0) & 3)`: `c->modulation` after it. -/
def sw_modulation (b : Nat) (prev : fe_modulation) : fe_modulation :=
  match (b >>> 0) &&& 3 with
  | 0 => .QPSK
  | 1 => .QAM_16
  | 2 => .QAM_64
  | _ => prev

/-- The `switch ((buf[4] >> 0) & 3)`: `c->bandwidth_hz` after it. -/
def sw_bandwidth_hz (b : Nat) (prev : Nat) : Nat :=
  match (b >>> 0) &&& 3 with
  | 0 => 6000000
  | 1 => 7000000
  | 2 => 8000000
  | _ => prev

/-- The `switch ((buf[6] >> 0) & 7)` and the `switch ((buf[7] >> 0) & 7)`:
`c->code_rate_HP`, respectively `c->code_rate_LP`, after it. -/
def sw_code_rate (b : Nat) (prev : fe_code_rate) : fe_code_rate :=
  match (b >>> 0) &&& 7 with
  | 0 => .FEC_1_2
  | 1 => .FEC_2_3
  | 2 => .FEC_3_4
  | 3 => .FEC_5_6
  | 4 => .FEC_7_8
  | 5 => .FEC_NONE
  | _ => prev

/-- The seven `switch` statements of `af9033_get_frontend` on the buffer `buf`:
each assigns its own field of the property cache or leaves it. -/
def decode_status (buf : List Nat) (c : dtv_frontend_properties) : dtv_frontend_properties :=
  { c with
    transmission_mode := sw_transmission_mode (buf.getD 0 0) c.transmission_mode
    guard_interval := sw_guard_interval (buf.getD 1 0) c.guard_interval
    hierarchy := sw_hierarchy (buf.getD 2 0) c.hierarchy
    modulation := sw_modulation (buf.getD 3 0) c.modulation
    bandwidth_hz := sw_bandwidth_hz (buf.getD 4 0) c.bandwidth_hz
    code_rate_HP := sw_code_rate (buf.getD 6 0) c.code_rate_HP
    code_rate_LP := sw_code_rate (buf.getD 7 0) c.code_rate_LP }

/-- The function `af9033_get_frontend(fe)`: returns `ret`, the property cache and the log. -/
def af9033_get_frontend (bus : Bus) (c : dtv_frontend_properties) (log : List Op) :
    Int × dtv_frontend_properties × List Op :=
  let r := af9033_rd_regs bus log 0x80f900 8
  if r.1 < 0 then (r.1, c, r.2.2)
  else (0, decode_status r.2.1 c, r.2.2)

/-! ## `af9033_update_ch_stat` -/

/-- The kernel time base, a parameter of the model: the counter `jiffies`, the
macro `time_after`, `msecs_to_jiffies` and the modulus of `unsigned long`. -/
structure Kernel where
  jiffies : Nat
  time_after : Nat → Nat → Bool
  msecs_to_jiffies : Nat → Nat
  ULONG : Nat

/-- The computation of `af9033_update_ch_stat` on the counters read from the chip:
`abort_cnt` (`u16`), `err_cnt` and `bit_cnt` (`u32`); returns the new `dev->ber`
and the value of `abort_cnt` that is added to `dev->ucb`. -/
def ch_stat (abort_cnt err_cnt bit_cnt : Nat) : Nat × Nat :=
  if bit_cnt < abort_cnt then (0xffffffff, 1000)
  else
    let bit_cnt := u32_sub bit_cnt abort_cnt
    if bit_cnt = 0 then (0xffffffff, abort_cnt)
    else
      let err_cnt := u32_sub err_cnt (u32_mul (u32_mul abort_cnt 8) 8)
      let bit_cnt := u32_mul bit_cnt (8 * 8)
      (u32_mul err_cnt (0xffffffff / bit_cnt), abort_cnt)

/-- The function `af9033_update_ch_stat(dev)`. -/
def af9033_update_ch_stat (K : Kernel) (bus : Bus) (dev : af9033_dev) (log : List Op) :
    Int × af9033_dev × List Op :=
  if K.time_after K.jiffies ((dev.last_stat_check + K.msecs_to_jiffies 500) % K.ULONG) then
    let r := af9033_rd_regs bus log 0x800032 7
    if r.1 < 0 then (r.1, dev, r.2.2)
    else
      let buf (i : Nat) : Nat := r.2.1.getD i 0
      let abort_cnt := ((buf 1 <<< 8) + buf 0) % 65536
      let err_cnt := u32_add (u32_add (buf 4 <<< 16) (buf 3 <<< 8)) (buf 2)
      let bit_cnt := u32_add (buf 6 <<< 8) (buf 5)
      let s := ch_stat abort_cnt err_cnt bit_cnt
      (0, { dev with ber := s.1, ucb := u32_add dev.ucb s.2, last_stat_check := K.jiffies }, r.2.2)
  else (0, dev, log)

/-- The function `af9033_read_ber(fe, ber)`: returns `ret`, `*ber` (only written
when `ret` is not negative), the device state and the log. -/
def af9033_read_ber (K : Kernel) (bus : Bus) (dev : af9033_dev) (log : List Op) :
    Int × Option Nat × af9033_dev × List Op :=
  let r := af9033_update_ch_stat K bus dev log
  if r.1 < 0 then (r.1, none, r.2.1, r.2.2)
  else (0, some r.2.1.ber, r.2.1, r.2.2)

/-- The function `af9033_read_ucblocks(fe, ucblocks)`. -/
def af9033_read_ucblocks (K : Kernel) (bus : Bus) (dev : af9033_dev) (log : List Op) :
    Int × Option Nat × af9033_dev × List Op :=
  let r := af9033_update_ch_stat K bus dev log
  if r.1 < 0 then (r.1, none, r.2.1, r.2.2)
  else (0, some r.2.1.ucb, r.2.1, r.2.2)

/-! ## Sample data for evaluating the model -/

/-- A header instance with three-entry sample tables, used to run the model. -/
def hdr_sample : Header where
  AF9033_TUNER_TUA9001 := 0x27
  AF9033_TUNER_FC0011 := 0x28
  AF9033_TUNER_MXL5007T := 0xa0
  AF9033_TUNER_TDA18218 := 0xa1
  AF9033_TUNER_FC2580 := 0x32
  AF9033_TUNER_FC0012 := 0x2e
  AF9033_TUNER_IT9135_38 := 0x38
  AF9033_TUNER_IT9135_51 := 0x51
  AF9033_TUNER_IT9135_52 := 0x52
  AF9033_TUNER_IT9135_60 := 0x60
  AF9033_TUNER_IT9135_61 := 0x61
  AF9033_TUNER_IT9135_62 := 0x62
  AF9033_TS_MODE_USB := 0
  AF9033_TS_MODE_PARALLEL := 1
  AF9033_TS_MODE_SERIAL := 2
  AF9033_ADC_MULTIPLIER_2X := 1
  clock_adc_lut := [⟨16384000, 20480000⟩, ⟨20480000, 20480000⟩, ⟨12000000, 20250000⟩]
  clock_adc_past := ⟨0, 0⟩
  coeff_lut := [⟨12000000, 8000000, [0x01, 0xce, 0x55, 0xc9]⟩,
                ⟨12000000, 7000000, [0x01, 0x94, 0x8b, 0x10]⟩,
                ⟨12000000, 6000000, [0x01, 0x5a, 0xc0, 0x56]⟩]
  coeff_past := ⟨0, 0, []⟩
  ofsm_init := [⟨0x800051, 0x01⟩, ⟨0x800070, 0x0a⟩, ⟨0x800071, 0x05⟩]
  ofsm_init_it9135_v1 := [⟨0x800051, 0x01⟩, ⟨0x800070, 0x0a⟩, ⟨0x80007e, 0x04⟩]
  ofsm_init_it9135_v2 := [⟨0x800051, 0x01⟩, ⟨0x800070, 0x0a⟩, ⟨0x80007e, 0x04⟩]
  tuner_init_tua9001 := [⟨0x800046, 0x27⟩, ⟨0x800057, 0x00⟩, ⟨0x800058, 0x01⟩]
  tuner_init_fc0011 := [⟨0x800046, 0x28⟩, ⟨0x800057, 0x00⟩, ⟨0x800058, 0x01⟩]
  tuner_init_mxl5007t := [⟨0x800046, 0x1b⟩, ⟨0x800057, 0x01⟩, ⟨0x800058, 0x01⟩]
  tuner_init_tda18218 := [⟨0x800046, 0xa1⟩, ⟨0x800057, 0x01⟩, ⟨0x800058, 0x01⟩]
  tuner_init_fc2580 := [⟨0x800046, 0x32⟩, ⟨0x800057, 0x01⟩, ⟨0x800058, 0x00⟩]
  tuner_init_fc0012 := [⟨0x800046, 0x2e⟩, ⟨0x800057, 0x00⟩, ⟨0x800058, 0x01⟩]
  tuner_init_it9135_38 := [⟨0x800043, 0x00⟩, ⟨0x800046, 0x38⟩, ⟨0x800051, 0x01⟩]
  tuner_init_it9135_51 := [⟨0x800043, 0x00⟩, ⟨0x800046, 0x51⟩, ⟨0x800051, 0x01⟩]
  tuner_init_it9135_52 := [⟨0x800043, 0x00⟩, ⟨0x800046, 0x52⟩, ⟨0x800051, 0x01⟩]
  tuner_init_it9135_60 := [⟨0x800043, 0x00⟩, ⟨0x800046, 0x60⟩, ⟨0x800051, 0x01⟩]
  tuner_init_it9135_61 := [⟨0x800043, 0x00⟩, ⟨0x800046, 0x61⟩, ⟨0x800051, 0x01⟩]
  tuner_init_it9135_62 := [⟨0x800043, 0x00⟩, ⟨0x800046, 0x62⟩, ⟨0x800051, 0x01⟩]

/-- A configuration for the sample header: 12 MHz clock, TUA9001 tuner, USB mode. -/
def cfg_sample : af9033_config where
  clock := 12000000
  adc_multiplier := 0
  tuner := 0x27
  ts_mode := 0
  spec_inv := false
  dyn0_clk := false

/-- The device state after a first `af9033_init` with the sample configuration. -/
def dev_sample : af9033_dev where
  cfg := cfg_sample
  bandwidth_hz := 0
  ts_mode_parallel := false
  ts_mode_serial := false
  ber := 0
  ucb := 0
  last_stat_check := 0

/-- A property cache asking for 8 MHz at 506 MHz. -/
def props_sample : dtv_frontend_properties where
  frequency := 506000000
  bandwidth_hz := 8000000
  transmission_mode := .TRANSMISSION_MODE_AUTO
  guard_interval := .GUARD_INTERVAL_AUTO
  hierarchy := .HIERARCHY_AUTO
  modulation := .QAM_AUTO
  code_rate_HP := .FEC_AUTO
  code_rate_LP := .FEC_AUTO

/-- A tuner with both callbacks, reporting an IF frequency of 4.57 MHz. -/
def tuner_sample : tuner_ops where
  set_params := true
  get_if_frequency := some 4570000

/-! ## Reference semantics and inputs used in the statements -/

/-- The groups of a table when `acc` holds the values already gathered for the
first group. -/
def with_pending (acc : List Nat) : List (Nat × List Nat) → List (Nat × List Nat)
  | [] => []
  | g :: gs => (g.1 - acc.length, acc ++ g.2) :: gs

/-- The burst writes of a list of groups: one write per group, at its base address. -/
def burst_ops (gs : List (Nat × List Nat)) : List Op :=
  gs.map (fun g => Op.wr g.1 g.2)

/-- A register table that `af9033_wr_reg_val_tab` can load: 24-bit addresses, at
most 213 entries, every contiguous run at most 61 entries. -/
def tab_ok (tab : List reg_val) : Prop :=
  (∀ e ∈ tab, e.reg < 2 ^ 24) ∧ tab.length ≤ 213 ∧ ∀ g ∈ spec_bursts tab, g.2.length ≤ 61

/-- The byte a one-byte read of `reg` delivers after the transfers `log`. -/
def bus_byte (bus : Bus) (log : List Op) (reg : Nat) : Nat :=
  (rd_buf (bus.xfer_rd log reg 1).2 1).getD 0 0

/-- A register operation as the specification names them: a write, a masked
write, or the load of a register table. -/
inductive Cmd where
  | write (reg : Nat) (val : List Nat)
  | write_masked (reg val mask : Nat)
  | write_table (tab : List reg_val)

/-- The transfers one register operation issues when none fails, as the
specification words them: a write is one write transfer; a masked write with a
mask other than `0xff` reads the current byte and writes the merged byte, and with
mask `0xff` writes the value directly; a table is one burst per group. -/
def Cmd.ops (bus : Bus) (log : List Op) : Cmd → List Op
  | .write reg val => [Op.wr reg val]
  | .write_masked reg val mask =>
    if mask ≠ 0xff then [Op.rd reg 1, Op.wr reg [mask_merge val mask (bus_byte bus log reg)]]
    else [Op.wr reg [val]]
  | .write_table tab => burst_ops (spec_bursts tab)

/-- The log after a sequence of register operations none of which fails. -/
def spec_trace (bus : Bus) : List Cmd → List Op → List Op
  | [], log => log
  | c :: cs, log => spec_trace bus cs (log ++ c.ops bus log)

/-- One register operation carried out by the register access functions. -/
def Cmd.run (bus : Bus) (log : List Op) : Cmd → Int × List Op
  | .write reg val => af9033_wr_regs bus log reg val
  | .write_masked reg val mask => af9033_wr_reg_mask bus log reg val mask
  | .write_table tab => af9033_wr_reg_val_tab bus log tab

/-- A sequence of register operations carried out in order and left at the first
one that fails. -/
def run_cmds (bus : Bus) : List Cmd → List Op → Int × List Op
  | [], log => (0, log)
  | c :: cs, log => chk (c.run bus log) (run_cmds bus cs)

/-- The status byte `buf[i]` of `af9033_get_frontend` when the bus delivers `data`. -/
def status_byte (data : List Nat) (i : Nat) : Nat :=
  (rd_buf data 8).getD i 0

/-- The register address of a transfer. -/
def Op.reg : Op → Nat
  | .wr reg _ => reg
  | .rd reg _ => reg

/-- The log `log1` is `log` followed by transfers that all satisfy `P`. -/
def Extends (P : Op → Prop) (log log1 : List Op) : Prop :=
  ∃ ops, log1 = log ++ ops ∧ ∀ o ∈ ops, P o

/-- A register operation that fits the transfer buffer: a write of at most 61
bytes, any masked write, a table that can be loaded. -/
def Cmd.fits : Cmd → Prop
  | .write _ val => val.length ≤ 61
  | .write_masked _ _ _ => True
  | .write_table tab => tab_ok tab

/-- The register operations of `af9033_init` that precede the tuner table, in the
order the specification lists them. -/
def init_cmds (H : Header) (dev : af9033_dev) : List Cmd :=
  [Cmd.write 0x800025 (clock_cw_buf dev), Cmd.write 0x80f1cd (adc_cw_buf H dev)]
  ++ (init_tab dev).map (fun e => Cmd.write_masked e.reg e.val e.mask)
  ++ (if dev.cfg.dyn0_clk then [Cmd.write 0x80fba8 [0x00]] else [])
  ++ (if dev.cfg.ts_mode = H.AF9033_TS_MODE_USB then
        [Cmd.write_masked 0x80f9a5 0x00 0x01, Cmd.write_masked 0x80f9b5 0x01 0x01]
      else [Cmd.write_masked 0x80f990 0x00 0x01, Cmd.write_masked 0x80f9b5 0x00 0x01])
  ++ [Cmd.write_table H.ofsm_init]

/-- The register operations of a tune call that do not depend on the bandwidth
having changed, as the specification lists them. -/
def common_cmds (bandwidth_reg_val frequency : Nat) : List Cmd :=
  [Cmd.write_masked 0x80f904 bandwidth_reg_val 0x03,
   Cmd.write 0x800040 [0x00],
   Cmd.write 0x800047 [0x00],
   Cmd.write_masked 0x80f999 0x00 0x01,
   Cmd.write 0x80004b [if frequency ≤ 230000000 then 0x00 else 0x01],
   Cmd.write 0x800000 [0x00]]

/-- The seven bytes at `0x800032` for given raw counters: abort count (16 bit),
error-bit count (24 bit) and total count (16 bit), least significant byte first. -/
def stat_bytes (abort err total : Nat) : List Nat :=
  [abort % 256, abort / 256 % 256, err % 256, err / 256 % 256, err / 65536 % 256,
   total % 256, total / 256 % 256]

/-- A bus that completes every transfer and answers every read with `data`. -/
def bus_const (data : List Nat) : Bus where
  xfer_wr := fun _ _ _ => 1
  xfer_rd := fun _ _ _ => (2, data)

/-- A bus on which the write of the CFOE coefficients (register `0x800001`) fails
and every other transfer completes, reading `0`. -/
def bus_cfoe_fail : Bus where
  xfer_wr := fun _ reg _ => if reg = 0x800001 then - EREMOTEIO else 1
  xfer_rd := fun _ _ len => (2, List.replicate len 0)

/-- A bus that completes every transfer; register `0x80004c` reads `1` until its
`n`-th read, which reads `0` as do the later ones; other registers read `0`. -/
def bus_ack_at (n : Nat) : Bus where
  xfer_wr := fun _ _ _ => 1
  xfer_rd := fun log reg len =>
    if reg = 0x80004c then
      (2, [if n ≤ log.count (Op.rd 0x80004c 1) + 1 then 0 else 1])
    else (2, List.replicate len 0)

/-- A kernel time base at which a statistics refresh is due. -/
def kernel_due : Kernel where
  jiffies := 1000
  time_after := fun a b => decide (b < a)
  msecs_to_jiffies := fun m => m / 10
  ULONG := 2 ^ 32

/-! ## `af9033_read_status` -/

/-- Modelled from the spec: the flag `FE_HAS_SIGNAL` of `enum fe_status` (declared in
the DVB core headers, not among the sources); every flag is one bit. -/
def FE_HAS_SIGNAL : Nat := 0x01

/-- Modelled from the spec: the flag `FE_HAS_CARRIER` of `enum fe_status`. -/
def FE_HAS_CARRIER : Nat := 0x02

/-- Modelled from the spec: the flag `FE_HAS_VITERBI` of `enum fe_status`. -/
def FE_HAS_VITERBI : Nat := 0x04

/-- Modelled from the spec: the flag `FE_HAS_SYNC` of `enum fe_status`. -/
def FE_HAS_SYNC : Nat := 0x08

/-- Modelled from the spec: the flag `FE_HAS_LOCK` of `enum fe_status`. -/
def FE_HAS_LOCK : Nat := 0x10

/-- The function `af9033_read_status(fe, status)`: returns `ret`, `*status` and the log. -/
def af9033_read_status (bus : Bus) (log : List Op) : Int × Nat × List Op :=
  let status : Nat := 0
  let r := af9033_rd_reg bus log 0x800047
  if r.1 < 0 then (r.1, status, r.2.2)
  else
    let status := if r.2.1 = 0x01 then status ||| FE_HAS_SIGNAL else status
    if r.2.1 ≠ 0x02 then
      let t := af9033_rd_reg_mask bus r.2.2 0x80f5a9 0x01
      if t.1 < 0 then (t.1, status, t.2.2)
      else
        let status :=
          if t.2.1 ≠ 0 then status ||| (FE_HAS_SIGNAL ||| FE_HAS_CARRIER ||| FE_HAS_VITERBI)
          else status
        let l := af9033_rd_reg_mask bus t.2.2 0x80f999 0x01
        if l.1 < 0 then (l.1, status, l.2.2)
        else
          let status :=
            if l.2.1 ≠ 0 then
              status ||| (FE_HAS_SIGNAL ||| FE_HAS_CARRIER ||| FE_HAS_VITERBI ||| FE_HAS_SYNC
                ||| FE_HAS_LOCK)
            else status
          (0, status, l.2.2)
    else (0, status, r.2.2)

/-! ## Further reference semantics and inputs -/

/-- The bytes of the message that carries a transfer on the wire: for a write the
buffer `af9033_wr_regs` fills, for a read the three address bytes of its first
message. -/
def Op.msg : Op → List Nat
  | .wr reg val => wr_msg reg val
  | .rd reg _ => [(reg >>> 16) &&& 0xff, (reg >>> 8) &&& 0xff, (reg >>> 0) &&& 0xff]

/-- Modelled from the spec: the kernel macro `time_after(a, b)` (kernel headers are
not among the sources), the wrap-safe monotonic comparison of two `unsigned long`
time stamps: true when `a` is after `b`, computed as `(long)(b - a) < 0`. `ULONG` is
the modulus of `unsigned long`. -/
def jiffies_time_after (ULONG a b : Nat) : Bool :=
  decide (ULONG / 2 ≤ (b % ULONG + ULONG - a % ULONG) % ULONG)

/-- The jiffies elapsed since the last statistics refresh, as an `unsigned long`. -/
def elapsed_jiffies (K : Kernel) (dev : af9033_dev) : Nat :=
  (K.jiffies % K.ULONG + K.ULONG - dev.last_stat_check % K.ULONG) % K.ULONG

/-- A kernel time base with `HZ = 100` and a 32-bit `unsigned long`, at time `now`. -/
def kernel_at (now : Nat) : Kernel where
  jiffies := now
  time_after := jiffies_time_after (2 ^ 32)
  msecs_to_jiffies := fun m => (m + 9) / 10
  ULONG := 2 ^ 32

/-- The frequency control word as the specification words it, from the quotient
`W`: complemented to `0x800000 - W` (in `u32`) unless the spectral-inversion flag of
the configuration is set, then halved when the ADC multiplier is 2x. -/
def spec_freq_cw (spec_inv : Bool) (adc_2x : Bool) (W : Nat) : Nat :=
  let V1 := if spec_inv then W else u32_sub 0x800000 W
  if adc_2x then V1 / 2 else V1

/-- The ADC frequency `af9033_set_frontend` uses for a device. -/
def Header.adc_freq (H : Header) (dev : af9033_dev) : Nat :=
  (H.clock_adc_row (clock_adc_idx H.clock_adc_lut dev.cfg.clock)).adc

/-- A bus that completes every transfer and reads register `reg` as `regs reg`. -/
def bus_regs (regs : Nat → Nat) : Bus where
  xfer_wr := fun _ _ _ => 1
  xfer_rd := fun _ reg len => (2, List.replicate len (regs reg))

/-! ## `af9033_read_snr` -/

/-- Modelled from the spec: a row of an SNR table, `struct val_snr` of `af9033_priv.h`
(not among the sources): a raw value threshold (`u32`) and the SNR in dB (`u8`). -/
structure val_snr where
  val : Nat
  snr : Nat
  deriving DecidableEq, Repr

/-- The SNR tables `qpsk_snr_lut`, `qam16_snr_lut` and `qam64_snr_lut` of
`af9033_priv.h`, which is not among the sources: parameters of the model. -/
structure snr_luts where
  qpsk_snr_lut : List val_snr
  qam16_snr_lut : List val_snr
  qam64_snr_lut : List val_snr

/-- The `switch ((tmp >> 0) & 3)` of `af9033_read_snr`: the table chosen, or `none`
for the `default:` label. -/
def snr_table (T : snr_luts) (tmp : Nat) : Option (List val_snr) :=
  match (tmp >>> 0) &&& 3 with
  | 0 => some T.qpsk_snr_lut
  | 1 => some T.qam16_snr_lut
  | 2 => some T.qam64_snr_lut
  | _ => none

/-- The loop `for (i = 0; i < len; i++) { tmp = snr_lut[i].snr; if (snr_val <
snr_lut[i].val) break; }` over the rows from index `i` on: the value of `tmp` after
it. -/
def snr_loop : List val_snr → Nat → Nat → Nat
  | [], _, tmp => tmp
  | row :: rest, snr_val, _ =>
    if snr_val < row.val then row.snr else snr_loop rest snr_val row.snr

/-- The function `af9033_read_snr(fe, snr)`: returns `ret`, `*snr` (`none` when the
function does not write it) and the log. The `default:` label jumps to `err:` with
`ret` as the last read left it. -/
def af9033_read_snr (T : snr_luts) (bus : Bus) (log : List Op) :
    Int × Option Nat × List Op :=
  let r := af9033_rd_regs bus log 0x80002c 3
  if r.1 < 0 then (r.1, none, r.2.2)
  else
    let snr_val := (r.2.1.getD 2 0 <<< 16) ||| (r.2.1.getD 1 0 <<< 8) ||| r.2.1.getD 0 0
    let m := af9033_rd_reg bus r.2.2 0x80f903
    if m.1 < 0 then (m.1, none, m.2.2)
    else
      match snr_table T m.2.1 with
      | none => (m.1, none, m.2.2)
      | some snr_lut => (0, some ((snr_loop snr_lut snr_val m.2.1 * 10) % 65536), m.2.2)

/-! ## Reference semantics and inputs for the lookups and the divider -/

/-- One pass of the loop of `af9033_div` in unbounded arithmetic: what the pass
computes when nothing wraps. -/
def div_step_exact (b : Nat) (s : Nat × Nat) : Nat × Nat :=
  let s1 : Nat × Nat := if s.1 ≥ b then (s.1 - b, s.2 + 1) else s
  (s1.1 * 2, s1.2 * 2)

/-- The loop of `af9033_div` in unbounded arithmetic: `x` passes. -/
def div_loop_exact (b : Nat) : Nat → Nat × Nat → Nat × Nat
  | 0, s => s
  | x + 1, s => div_step_exact b (div_loop_exact b x s)

/-- The value of `a` with which `af9033_div` enters its loop: the remainder when
`a > b`, else `a`. -/
def div_start (a b : Nat) : Nat :=
  if a > b then u32_sub a (u32_mul (a / b) b) else a

/-- A clock/ADC table of two rows, without a row for the 12 MHz clock. -/
def lut_no_row : List clock_adc :=
  [⟨16384000, 20480000⟩, ⟨20480000, 20480000⟩]

/-- Sample SNR tables of three rows each. -/
def snr_sample : snr_luts where
  qpsk_snr_lut := [⟨0x000b4771, 0⟩, ⟨0x000c1aed, 1⟩, ⟨0x000d0d27, 2⟩]
  qam16_snr_lut := [⟨0x0005295f, 0⟩, ⟨0x0005a44b, 1⟩, ⟨0x00060dc7, 2⟩]
  qam64_snr_lut := [⟨0x00031cd1, 0⟩, ⟨0x00036509, 1⟩, ⟨0x0003a3dd, 2⟩]


/-! # Theorems -/

/-! ## Machine arithmetic without wrap-around -/

theorem u32_add_small {a b : Nat} (h : a + b < 2 ^ 32) : u32_add a b = a + b := by
  unfold u32_add U32; exact Nat.mod_eq_of_lt h

theorem u32_sub_small {a b : Nat} (hba : b ≤ a) (ha : a < 2 ^ 32) : u32_sub a b = a - b := by
  unfold u32_sub U32
  have hb : b % 2 ^ 32 = b := Nat.mod_eq_of_lt (by omega)
  rw [hb]
  have : a + 2 ^ 32 - b = (a - b) + 2 ^ 32 := by omega
  rw [this, Nat.add_mod_right]
  exact Nat.mod_eq_of_lt (by omega)

theorem u32_mul_small {a b : Nat} (h : a * b < 2 ^ 32) : u32_mul a b = a * b := by
  unfold u32_mul U32; exact Nat.mod_eq_of_lt h

theorem u32_shl_small {a k : Nat} (h : a * 2 ^ k < 2 ^ 32) : u32_shl a k = a * 2 ^ k := by
  unfold u32_shl U32; exact Nat.mod_eq_of_lt h

/-! ## The divider -/

/-- Doubling a dividend: quotient and remainder of `2 * m` by `b` from those of `m`. -/
theorem double_div_mod (m b : Nat) (hb : 0 < b) :
    (2 * m) / b = 2 * (m / b) + (if b ≤ 2 * (m % b) then 1 else 0) ∧
    (2 * m) % b = 2 * (m % b) - (if b ≤ 2 * (m % b) then b else 0) := by
  have hdm := Nat.div_add_mod m b
  have hlt := Nat.mod_lt m hb
  generalize m / b = q at hdm ⊢
  generalize m % b = t at hdm hlt ⊢
  subst hdm
  by_cases hc : b ≤ 2 * t
  · simp only [hc, if_true]
    have h3 : 2 * (b * q + t) = (2 * t - b) + b * (2 * q + 1) := by
      have : 2 * t = (2 * t - b) + b := by omega
      calc 2 * (b * q + t) = b * (2 * q) + 2 * t := by ring
        _ = b * (2 * q) + ((2 * t - b) + b) := by rw [← this]
        _ = (2 * t - b) + b * (2 * q + 1) := by ring
    have h4 : 2 * t - b < b := by omega
    constructor
    · rw [h3, Nat.add_mul_div_left _ _ hb, Nat.div_eq_of_lt h4]; omega
    · rw [h3, Nat.add_mul_mod_self_left, Nat.mod_eq_of_lt h4]
  · simp only [hc, if_false]
    have h3 : 2 * (b * q + t) = 2 * t + b * (2 * q) := by ring
    have h4 : 2 * t < b := by omega
    constructor
    · rw [h3, Nat.add_mul_div_left _ _ hb, Nat.div_eq_of_lt h4]; omega
    · rw [h3, Nat.add_mul_mod_self_left, Nat.mod_eq_of_lt h4]; omega

theorem quot_mono (a b k : Nat) : a * 2 ^ k / b ≤ a * 2 ^ (k + 1) / b := by
  apply Nat.div_le_div_right
  rw [pow_succ]; nlinarith [Nat.zero_le (a * 2 ^ k)]

/-- The full quotient lies between twice the half quotient and one more. -/
theorem quot_double_bounds (a b k : Nat) (hb : 0 < b) :
    2 * (a * 2 ^ k / b) ≤ a * 2 ^ (k + 1) / b ∧ a * 2 ^ (k + 1) / b ≤ 2 * (a * 2 ^ k / b) + 1 := by
  have h2 : a * 2 ^ (k + 1) = 2 * (a * 2 ^ k) := by rw [pow_succ]; ring
  obtain ⟨hq, -⟩ := double_div_mod (a * 2 ^ k) b hb
  rw [h2, hq]
  split_ifs <;> omega

/-- Loop invariant of `af9033_div`: the state after `k + 1` passes started from
`(a, 0)` with `a ≤ b`. -/
theorem af9033_div_loop_inv (a b : Nat) (hb : 0 < b) (hb31 : b < 2 ^ 31) (hab : a ≤ b) :
    ∀ k, 2 * (a * 2 ^ k / b) < 2 ^ 32 →
      af9033_div_loop b (k + 1) (a, 0) = (2 * (a * 2 ^ k % b), 2 * (a * 2 ^ k / b)) := by
  intro k
  induction k with
  | zero =>
    intro _
    simp only [af9033_div_loop, af9033_div_step, pow_zero, mul_one]
    by_cases h : a ≥ b
    · have : a = b := le_antisymm hab h
      subst this
      simp only [ge_iff_le, le_refl, if_true]
      rw [u32_sub_small (le_refl a) (by omega), u32_add_small (by norm_num),
        Nat.sub_self, Nat.mod_self, Nat.div_self hb, u32_shl_small (by norm_num),
        u32_shl_small (by norm_num)]
      norm_num
    · have hlt : a < b := by omega
      simp only [h, if_false, Nat.div_eq_of_lt hlt, Nat.mod_eq_of_lt hlt]
      rw [u32_shl_small (by omega), u32_shl_small (by norm_num)]
      simp [Nat.mul_comm]
  | succ k ih =>
    intro hk
    have hmono := quot_mono a b k
    have ih1 := ih (by omega)
    rw [af9033_div_loop, ih1]
    have h2 : a * 2 ^ (k + 1) = 2 * (a * 2 ^ k) := by rw [pow_succ]; ring
    obtain ⟨hq, hr⟩ := double_div_mod (a * 2 ^ k) b hb
    rw [← h2] at hq hr
    have hlt := Nat.mod_lt (a * 2 ^ k) hb
    simp only [af9033_div_step]
    rw [hq, hr]
    rw [hq] at hk
    by_cases hc : b ≤ 2 * (a * 2 ^ k % b)
    · simp only [hc, if_true, ge_iff_le] at hk ⊢
      rw [u32_sub_small hc (by omega), u32_add_small (by omega),
        u32_shl_small (by omega), u32_shl_small (by omega)]
      simp [Nat.mul_comm]
    · simp only [hc, if_false, ge_iff_le] at hk ⊢
      rw [u32_shl_small (by omega), u32_shl_small (by omega)]
      simp [Nat.mul_comm]

/-- Value of `af9033_div` for at least one fractional bit. -/
theorem af9033_div_value (a b x : Nat) (hb : 0 < b) (hb31 : b < 2 ^ 31) (ha : a < 2 ^ 32)
    (hx : 1 ≤ x) (hfit : 2 * (a * 2 ^ (x - 1) / b) < 2 ^ 32) :
    af9033_div a b x = 2 * (a * 2 ^ (x - 1) / b) := by
  obtain ⟨k, rfl⟩ : ∃ k, x = k + 1 := ⟨x - 1, by omega⟩
  simp only [Nat.add_sub_cancel] at hfit ⊢
  unfold af9033_div
  by_cases hgt : a > b
  · simp only [hgt, if_true]
    have hdm := Nat.div_add_mod a b
    have hcb : a / b * b ≤ a := Nat.div_mul_le_self a b
    have hrem : u32_sub a (u32_mul (a / b) b) = a % b := by
      have hm : a / b * b < 2 ^ 32 := by omega
      rw [u32_mul_small hm, u32_sub_small hcb ha]
      have := Nat.mul_comm b (a / b)
      omega
    rw [hrem]
    have hlt := Nat.mod_lt a hb
    have hsplit : a * 2 ^ k / b = (a / b) * 2 ^ k + (a % b) * 2 ^ k / b := by
      have : a * 2 ^ k = (a % b) * 2 ^ k + b * ((a / b) * 2 ^ k) := by
        conv_lhs => rw [← hdm]
        ring
      rw [this, Nat.add_mul_div_left _ _ hb]; ring
    rw [hsplit] at hfit
    have hshift : a / b * 2 ^ (k + 1) = 2 * (a / b * 2 ^ k) := by rw [pow_succ]; ring
    have hfit2 : 2 * (a % b * 2 ^ k / b) < 2 ^ 32 := by omega
    have hfit3 : a / b * 2 ^ (k + 1) < 2 ^ 32 := by omega
    rw [hsplit, af9033_div_loop_inv (a % b) b hb hb31 (le_of_lt hlt) k hfit2,
      u32_shl_small hfit3, hshift, u32_add_small (by omega)]
    omega
  · simp only [hgt, if_false]
    rw [af9033_div_loop_inv a b hb hb31 (by omega) k hfit]
    simp only [u32_shl, Nat.zero_mul, Nat.zero_mod]
    rw [u32_add_small (by omega)]
    omega

/-- Value of `af9033_div` without fractional bits: the integer part when `a > b`,
else zero. -/
theorem af9033_div_zero_bits (a b : Nat) (ha : a < 2 ^ 32) :
    af9033_div a b 0 = if a > b then a / b else 0 := by
  unfold af9033_div
  have hq : a / b < 2 ^ 32 := lt_of_le_of_lt (Nat.div_le_self a b) ha
  by_cases hgt : a > b
  · simp only [hgt, if_true, af9033_div_loop]
    rw [u32_shl_small (by omega), u32_add_small (by omega)]
    simp
  · simp only [hgt, if_false, af9033_div_loop]
    decide

/-- C1 (as amended): for `a < 2^31`, `0 < b < 2^31` and `n ≤ 31` fractional bits with
`floor(a * 2^n / b)` fitting in 32 bits, `af9033_div a b n` is
`2 * floor(a * 2^(n-1) / b)` when `n ≥ 1` (the last fractional bit is always zero),
and for `n = 0` it is `floor(a / b)` except that `a = b` gives `0`. It never exceeds
`floor(a * 2^n / b)` and for `n ≥ 1` is at most one below it. -/
theorem af9033_div_truncates (a b n : Nat) (ha : a < 2 ^ 31) (hb : 0 < b) (hb31 : b < 2 ^ 31)
    (hn : n ≤ 31) (hfit : a * 2 ^ n / b < 2 ^ 32) :
    af9033_div a b n
        = (if n = 0 then (if a = b then 0 else a / b) else 2 * (a * 2 ^ (n - 1) / b))
      ∧ af9033_div a b n ≤ a * 2 ^ n / b
      ∧ (n ≠ 0 → a * 2 ^ n / b ≤ af9033_div a b n + 1) := by
  rcases Nat.eq_zero_or_pos n with h0 | hpos
  · subst h0
    have hval : af9033_div a b 0 = if a = b then 0 else a / b := by
      rw [af9033_div_zero_bits a b (by omega)]
      by_cases hgt : a > b
      · have : a ≠ b := by omega
        simp [hgt, this]
      · by_cases heq : a = b
        · simp [heq]
        · have hlt : a < b := by omega
          simp [hgt, heq, Nat.div_eq_of_lt hlt]
    refine ⟨by simpa using hval, ?_, fun h => absurd rfl h⟩
    rw [hval]
    split_ifs <;> simp
  · obtain ⟨k, rfl⟩ : ∃ k, n = k + 1 := ⟨n - 1, by omega⟩
    obtain ⟨hlo, hhi⟩ := quot_double_bounds a b k hb
    have hval := af9033_div_value a b (k + 1) hb hb31 (by omega) (by omega)
      (by simp only [Nat.add_sub_cancel]; omega)
    simp only [Nat.add_sub_cancel] at hval
    refine ⟨by simp [hval], by omega, fun _ => by omega⟩

/-- Witness for `af9033_div_truncates`: the clock control word of a 12 MHz clock. -/
theorem af9033_div_truncates_witness :
    af9033_div 12000000 1000000 19
        = (if 19 = 0 then (if 12000000 = 1000000 then 0 else 12000000 / 1000000)
            else 2 * (12000000 * 2 ^ (19 - 1) / 1000000))
      ∧ af9033_div 12000000 1000000 19 ≤ 12000000 * 2 ^ 19 / 1000000
      ∧ (19 ≠ 0 → 12000000 * 2 ^ 19 / 1000000 ≤ af9033_div 12000000 1000000 19 + 1) :=
  af9033_div_truncates 12000000 1000000 19 (by decide) (by decide) (by decide)
    (by decide) (by decide)

/-- C1 (counterexample): at `a = 1`, `b = 2`, `n = 1`, inside the stated ranges, the
reference value `floor(1 * 2^1 / 2)` is `1` and `af9033_div` returns `0`. -/
theorem af9033_div_not_floor :
    (1 < 2 ^ 31 ∧ 0 < 2 ∧ 2 < 2 ^ 31 ∧ 1 * 2 ^ 1 / 2 < 2 ^ 32)
      ∧ 1 * 2 ^ 1 / 2 = 1 ∧ af9033_div 1 2 1 = 0 ∧ af9033_div 1 2 1 ≠ 1 * 2 ^ 1 / 2 := by
  decide


/-! ## Register tables -/

/-- A write of at most 61 bytes on a bus that completes every write. -/
theorem wr_regs_ok (bus : Bus) (hbus : ∀ log reg val, bus.xfer_wr log reg val = 1)
    (log : List Op) (reg : Nat) (val : List Nat) (hlen : val.length ≤ 61) :
    af9033_wr_regs bus log reg val = (0, log ++ [Op.wr reg val]) := by
  unfold af9033_wr_regs MAX_XFER_SIZE
  have : ¬ (3 + val.length > 64) := by omega
  simp [this, hbus]

/-- The first group of a non-empty table starts at the address of its first entry. -/
theorem spec_bursts_cons_ne_nil (e : reg_val) (rest : List reg_val) :
    ∃ vs gs, spec_bursts (e :: rest) = (e.reg, vs) :: gs := by
  cases rest with
  | nil => exact ⟨[e.val], [], by simp [spec_bursts]⟩
  | cons e1 rest1 =>
    rw [spec_bursts]
    by_cases hc : e1.reg = e.reg + 1
    · simp only [hc, if_true]
      cases spec_bursts (e1 :: rest1) with
      | nil => exact ⟨_, _, rfl⟩
      | cons g gs => exact ⟨_, _, rfl⟩
    · simp only [hc, if_false]
      exact ⟨_, _, rfl⟩

/-- The loop of `af9033_wr_reg_val_tab` entered with pending values `acc`. -/
theorem wr_reg_val_tab_loop_ok (bus : Bus) (hbus : ∀ log reg val, bus.xfer_wr log reg val = 1) :
    ∀ (tab : List reg_val) (acc : List Nat) (log : List Op),
      (∀ e ∈ tab, e.reg < 2 ^ 24) →
      (∀ e ∈ tab.head?, acc.length ≤ e.reg) →
      (∀ g ∈ with_pending acc (spec_bursts tab), g.2.length ≤ 61) →
      af9033_wr_reg_val_tab_loop bus tab acc log
        = (0, log ++ burst_ops (with_pending acc (spec_bursts tab))) := by
  intro tab
  induction tab with
  | nil => intro acc log _ _ _; simp [af9033_wr_reg_val_tab_loop, spec_bursts, with_pending, burst_ops]
  | cons e rest ih =>
    intro acc log hreg hhead hrun
    have he : e.reg < 2 ^ 24 := hreg e (List.mem_cons_self _ _)
    have hacc : acc.length ≤ e.reg := hhead e (by simp)
    have hrest : ∀ x ∈ rest, x.reg < 2 ^ 24 := fun x hx => hreg x (List.mem_cons_of_mem _ hx)
    cases rest with
    | nil =>
      simp only [spec_bursts, with_pending, List.mem_singleton, forall_eq] at hrun
      simp only [af9033_wr_reg_val_tab_loop, if_true]
      rw [wr_regs_ok bus hbus _ _ _ hrun, u32_sub_small hacc (by omega)]
      simp [spec_bursts, with_pending, burst_ops]
    | cons e1 rest1 =>
      have he1 : e1.reg < 2 ^ 24 := hrest e1 (List.mem_cons_self _ _)
      obtain ⟨vs, gs, hsb⟩ := spec_bursts_cons_ne_nil e1 rest1
      rw [af9033_wr_reg_val_tab_loop]
      by_cases hc : e1.reg = e.reg + 1
      · have hsb2 : spec_bursts (e :: e1 :: rest1) = (e.reg, e.val :: vs) :: gs := by
          rw [spec_bursts, hsb]; simp [hc]
        have hfl : u32_sub e1.reg 1 = e.reg := by
          rw [u32_sub_small (by omega) (by omega)]; omega
        simp only [hfl, ne_eq, not_true_eq_false, decide_False, Bool.false_eq_true, if_false]
        rw [hsb2] at hrun ⊢
        have hwp : with_pending (acc ++ [e.val]) (spec_bursts (e1 :: rest1))
            = with_pending acc ((e.reg, e.val :: vs) :: gs) := by
          have hsub : e.reg + 1 - (acc.length + 1) = e.reg - acc.length := by omega
          rw [hsb]
          simp only [with_pending, List.length_append, List.length_singleton, List.append_assoc,
            List.singleton_append, hc, hsub]
        rw [ih (acc ++ [e.val]) log hrest (by simp; omega) (by rw [hwp]; exact hrun), hwp]
      · have hsb2 : spec_bursts (e :: e1 :: rest1) = (e.reg, [e.val]) :: (e1.reg, vs) :: gs := by
          rw [spec_bursts, hsb]; simp [hc]
        have hfl : e.reg ≠ u32_sub e1.reg 1 := by
          by_cases h0 : e1.reg = 0
          · have h1 : u32_sub 0 1 = 4294967295 := by decide
            rw [h0, h1]; omega
          · rw [u32_sub_small (by omega) (by omega)]; omega
        simp only [hfl, ne_eq, not_false_eq_true, decide_True, if_true]
        rw [hsb2] at hrun ⊢
        simp only [with_pending, List.mem_cons, forall_eq_or_imp] at hrun
        rw [wr_regs_ok bus hbus _ _ _ hrun.1, u32_sub_small hacc (by omega)]
        simp only [Int.lt_irrefl, if_false]
        have hwp0 : with_pending [] (spec_bursts (e1 :: rest1)) = (e1.reg, vs) :: gs := by
          rw [hsb]; simp [with_pending]
        rw [ih [] _ hrest (by simp) (by
          rw [hwp0]; intro g hg
          rcases List.mem_cons.mp hg with h | h
          · rw [h]; exact hrun.2.1
          · exact hrun.2.2 g h), hwp0]
        simp [with_pending, burst_ops]

/-- Loading a well-formed table over a bus that completes every write. -/
theorem wr_reg_val_tab_ok (bus : Bus) (hbus : ∀ log reg val, bus.xfer_wr log reg val = 1)
    (tab : List reg_val) (htab : tab_ok tab) (log : List Op) :
    af9033_wr_reg_val_tab bus log tab = (0, log ++ burst_ops (spec_bursts tab)) := by
  obtain ⟨hreg, hlen, hrun⟩ := htab
  have hwp : with_pending [] (spec_bursts tab) = spec_bursts tab := by
    cases spec_bursts tab with
    | nil => rfl
    | cons g gs => simp [with_pending]
  unfold af9033_wr_reg_val_tab MAX_TAB_LEN
  have : ¬ (tab.length > 1 + 212) := by omega
  simp only [this, if_false]
  rw [wr_reg_val_tab_loop_ok bus hbus tab [] log hreg (by simp) (by rw [hwp]; exact hrun), hwp]

/-- C2: over a bus on which every write completes, for every register table with
24-bit addresses, at most 213 entries and every maximal contiguous run at most 61
entries, `af9033_wr_reg_val_tab` succeeds and issues exactly one burst write per
maximal run of entries whose addresses each exceed the previous by one, in table
order, each starting at the first address of the run and carrying its values in
order; and `[(0x10,v0),(0x11,v1),(0x13,v2)]` gives exactly the two bursts
`(0x10,[v0,v1])` and `(0x13,[v2])`. -/
theorem wr_reg_val_tab_bursts (bus : Bus) (hbus : ∀ log reg val, bus.xfer_wr log reg val = 1)
    (tab : List reg_val) (hreg : ∀ e ∈ tab, e.reg < 2 ^ 24) (hlen : tab.length ≤ 213)
    (hrun : ∀ g ∈ spec_bursts tab, g.2.length ≤ 61) (log : List Op) :
    af9033_wr_reg_val_tab bus log tab
        = (0, log ++ (spec_bursts tab).map (fun g => Op.wr g.1 g.2))
      ∧ ∀ v0 v1 v2 : Nat,
          af9033_wr_reg_val_tab bus log [⟨0x10, v0⟩, ⟨0x11, v1⟩, ⟨0x13, v2⟩]
            = (0, log ++ [Op.wr 0x10 [v0, v1], Op.wr 0x13 [v2]]) := by
  refine ⟨wr_reg_val_tab_ok bus hbus tab ⟨hreg, hlen, hrun⟩ log, fun v0 v1 v2 => ?_⟩
  have h := wr_reg_val_tab_ok bus hbus [⟨0x10, v0⟩, ⟨0x11, v1⟩, ⟨0x13, v2⟩]
    ⟨by simp, by simp, by simp [spec_bursts]⟩ log
  simpa [spec_bursts, burst_ops] using h

/-- Witness for `wr_reg_val_tab_bursts`: the sample OFSM table on the all-zero bus. -/
theorem wr_reg_val_tab_bursts_witness :
    af9033_wr_reg_val_tab bus_zero [] hdr_sample.ofsm_init
        = (0, [] ++ (spec_bursts hdr_sample.ofsm_init).map (fun g => Op.wr g.1 g.2))
      ∧ ∀ v0 v1 v2 : Nat,
          af9033_wr_reg_val_tab bus_zero [] [⟨0x10, v0⟩, ⟨0x11, v1⟩, ⟨0x13, v2⟩]
            = (0, [] ++ [Op.wr 0x10 [v0, v1], Op.wr 0x13 [v2]]) :=
  wr_reg_val_tab_bursts bus_zero (fun _ _ _ => rfl) hdr_sample.ofsm_init
    (by decide) (by decide) (by decide) []

/-! ## Statistics -/

/-- The read buffer holds the seven bytes of the counters unchanged. -/
theorem rd_buf_stat_bytes (abort err total : Nat) :
    rd_buf (stat_bytes abort err total) 7 = stat_bytes abort err total := by
  simp [rd_buf, stat_bytes, List.range_succ]

/-- A statistics refresh that is due and whose read completes: the state it leaves. -/
theorem update_ch_stat_refresh (K : Kernel) (bus : Bus) (dev : af9033_dev) (log : List Op)
    (abort err total : Nat) (ha : abort < 2 ^ 16) (he : err < 2 ^ 24) (ht : total < 2 ^ 16)
    (hdue : K.time_after K.jiffies ((dev.last_stat_check + K.msecs_to_jiffies 500) % K.ULONG)
      = true)
    (hrd : bus.xfer_rd log 0x800032 7 = (2, stat_bytes abort err total)) :
    af9033_update_ch_stat K bus dev log
      = (0, { dev with
                ber := (ch_stat abort err total).1
                ucb := u32_add dev.ucb (ch_stat abort err total).2
                last_stat_check := K.jiffies },
          log ++ [Op.rd 0x800032 7]) := by
  have h1 : ((abort / 256 % 256) <<< 8 + abort % 256) % 65536 = abort := by
    rw [Nat.shiftLeft_eq]; omega
  have h2 : u32_add (u32_add ((err / 65536 % 256) <<< 16) ((err / 256 % 256) <<< 8)) (err % 256)
      = err := by
    simp only [Nat.shiftLeft_eq, u32_add, U32]; omega
  have h3 : u32_add ((total / 256 % 256) <<< 8) (total % 256) = total := by
    simp only [Nat.shiftLeft_eq, u32_add, U32]; omega
  unfold af9033_update_ch_stat af9033_rd_regs
  simp only [hdue, if_true, hrd, rd_buf_stat_bytes]
  simp only [stat_bytes, List.getD_cons_zero, List.getD_cons_succ, h1, h2, h3]
  simp

/-- The value `ch_stat` computes, in plain arithmetic modulo `2^32`. -/
theorem ch_stat_value (abort err total : Nat) (ha : abort < 2 ^ 16) (ht : total < 2 ^ 16) :
    ch_stat abort err total
      = (if total < abort then (0xffffffff, 1000)
         else if total - abort = 0 then (0xffffffff, abort)
         else (((err + 2 ^ 32 - abort * 64) % 2 ^ 32 * (0xffffffff / ((total - abort) * 64)))
                 % 2 ^ 32, abort)) := by
  unfold ch_stat
  by_cases h : total < abort
  · simp [h]
  · have hs : u32_sub total abort = total - abort := u32_sub_small (by omega) (by omega)
    have hm : u32_mul (u32_mul abort 8) 8 = abort * 64 := by
      have h8 : u32_mul abort 8 = abort * 8 := u32_mul_small (by omega)
      rw [h8, u32_mul_small (by omega)]; omega
    have hb : u32_mul (total - abort) (8 * 8) = (total - abort) * 64 := by
      rw [u32_mul_small (by omega)]
    have hmod : (abort * 64) % 2 ^ 32 = abort * 64 := Nat.mod_eq_of_lt (by omega)
    simp only [h, if_false, hs, hm, hb]
    by_cases hz : total - abort = 0
    · simp [hz]
    · simp only [hz, if_false]
      simp only [u32_sub, u32_mul, U32, hmod]

/-- C3: in a statistics refresh (the refresh is due and the read of the seven
counter bytes completes) with raw counters `abort` (16 bit), `err` (24 bit) and
`total` (16 bit): if `total < abort`, BER becomes `0xFFFFFFFF` and 1000 is added to
UCB; else if `total - abort = 0`, BER becomes `0xFFFFFFFF` and `abort` is added to
UCB; else BER becomes `(err - abort*64) * floor(0xFFFFFFFF / ((total - abort)*64))`
in 32-bit unsigned arithmetic and `abort` is added to UCB. -/
theorem update_ch_stat_policy (K : Kernel) (bus : Bus) (dev : af9033_dev) (log : List Op)
    (abort err total : Nat) (ha : abort < 2 ^ 16) (he : err < 2 ^ 24) (ht : total < 2 ^ 16)
    (hdue : K.time_after K.jiffies ((dev.last_stat_check + K.msecs_to_jiffies 500) % K.ULONG)
      = true)
    (hrd : bus.xfer_rd log 0x800032 7 = (2, stat_bytes abort err total)) :
    (af9033_update_ch_stat K bus dev log).1 = 0
      ∧ (af9033_update_ch_stat K bus dev log).2.1.ber
          = (if total < abort then 0xffffffff
             else if total - abort = 0 then 0xffffffff
             else ((err + 2 ^ 32 - abort * 64) % 2 ^ 32
                    * (0xffffffff / ((total - abort) * 64))) % 2 ^ 32)
      ∧ (af9033_update_ch_stat K bus dev log).2.1.ucb
          = (dev.ucb + (if total < abort then 1000 else abort)) % 2 ^ 32 := by
  rw [update_ch_stat_refresh K bus dev log abort err total ha he ht hdue hrd,
    ch_stat_value abort err total ha ht]
  refine ⟨rfl, ?_, ?_⟩
  · simp only
    split_ifs <;> rfl
  · simp only [u32_add, U32]
    split_ifs <;> rfl

/-- Witness for `update_ch_stat_policy`: the sample `total = 20000`, `abort = 10`,
`err = 500`. -/
theorem update_ch_stat_policy_witness :
    (af9033_update_ch_stat kernel_due (bus_const (stat_bytes 10 500 20000)) dev_sample []).1 = 0
      ∧ (af9033_update_ch_stat kernel_due (bus_const (stat_bytes 10 500 20000)) dev_sample
            []).2.1.ber
          = (if 20000 < 10 then 0xffffffff
             else if 20000 - 10 = 0 then 0xffffffff
             else ((500 + 2 ^ 32 - 10 * 64) % 2 ^ 32
                    * (0xffffffff / ((20000 - 10) * 64))) % 2 ^ 32)
      ∧ (af9033_update_ch_stat kernel_due (bus_const (stat_bytes 10 500 20000)) dev_sample
            []).2.1.ucb
          = (dev_sample.ucb + (if 20000 < 10 then 1000 else 10)) % 2 ^ 32 :=
  update_ch_stat_policy kernel_due (bus_const (stat_bytes 10 500 20000)) dev_sample []
    10 500 20000 (by decide) (by decide) (by decide) (by decide) rfl

/-- The three samples of C3 evaluated: `(total, abort) = (0, 0)` saturates BER and
adds 0 to UCB, `(100, 150)` saturates and adds 1000, and `(20000, 10)` with
`err = 500` stores `4294497316` and adds 10. -/
theorem update_ch_stat_samples :
    (af9033_update_ch_stat kernel_due (bus_const (stat_bytes 0 0 0)) dev_sample []).2.1.ber
        = 0xffffffff
      ∧ (af9033_update_ch_stat kernel_due (bus_const (stat_bytes 0 0 0)) dev_sample []).2.1.ucb
        = 0
      ∧ (af9033_update_ch_stat kernel_due (bus_const (stat_bytes 150 0 100)) dev_sample
          []).2.1.ber = 0xffffffff
      ∧ (af9033_update_ch_stat kernel_due (bus_const (stat_bytes 150 0 100)) dev_sample
          []).2.1.ucb = 1000
      ∧ (af9033_update_ch_stat kernel_due (bus_const (stat_bytes 10 500 20000)) dev_sample
          []).2.1.ber = 4294497316
      ∧ (af9033_update_ch_stat kernel_due (bus_const (stat_bytes 10 500 20000)) dev_sample
          []).2.1.ucb = 10 := by
  decide

/-- C4 (as amended): for a raw sample in the non-saturating branch (`total > abort`)
whose error count covers the aborted packets (`abort * 64 ≤ err`), the subtraction
does not wrap, and whenever the product
`(err - abort*64) * floor(0xFFFFFFFF / ((total - abort)*64))` is below `2^32` the
stored BER is exactly that product; the product is below `2^32` in particular when
`err ≤ total * 64`. -/
theorem update_ch_stat_exact (K : Kernel) (bus : Bus) (dev : af9033_dev) (log : List Op)
    (abort err total : Nat) (ha : abort < 2 ^ 16) (he : err < 2 ^ 24) (ht : total < 2 ^ 16)
    (hdue : K.time_after K.jiffies ((dev.last_stat_check + K.msecs_to_jiffies 500) % K.ULONG)
      = true)
    (hrd : bus.xfer_rd log 0x800032 7 = (2, stat_bytes abort err total))
    (hbranch : abort < total) (hcover : abort * 64 ≤ err) :
    ((err - abort * 64) * (0xffffffff / ((total - abort) * 64)) < 2 ^ 32 →
        (af9033_update_ch_stat K bus dev log).2.1.ber
          = (err - abort * 64) * (0xffffffff / ((total - abort) * 64)))
      ∧ (err ≤ total * 64 →
          (err - abort * 64) * (0xffffffff / ((total - abort) * 64)) < 2 ^ 32) := by
  have hsub : (err + 2 ^ 32 - abort * 64) % 2 ^ 32 = err - abort * 64 := by omega
  constructor
  · intro hfit
    rw [update_ch_stat_refresh K bus dev log abort err total ha he ht hdue hrd,
      ch_stat_value abort err total ha ht]
    have h1 : ¬ total < abort := by omega
    have h2 : ¬ total - abort = 0 := by omega
    simp only [h1, h2, if_false, hsub]
    exact Nat.mod_eq_of_lt hfit
  · intro hle
    have hB : 0 < (total - abort) * 64 := by omega
    have h1 : err - abort * 64 ≤ (total - abort) * 64 := by omega
    calc (err - abort * 64) * (0xffffffff / ((total - abort) * 64))
        ≤ ((total - abort) * 64) * (0xffffffff / ((total - abort) * 64)) :=
          Nat.mul_le_mul_right _ h1
      _ ≤ 0xffffffff := Nat.mul_div_le _ _
      _ < 2 ^ 32 := by norm_num

/-- Witness for `update_ch_stat_exact`: `total = 20000`, `abort = 10`, `err = 1000`. -/
theorem update_ch_stat_exact_witness :
    ((1000 - 10 * 64) * (0xffffffff / ((20000 - 10) * 64)) < 2 ^ 32 →
        (af9033_update_ch_stat kernel_due (bus_const (stat_bytes 10 1000 20000)) dev_sample
            []).2.1.ber
          = (1000 - 10 * 64) * (0xffffffff / ((20000 - 10) * 64)))
      ∧ (1000 ≤ 20000 * 64 →
          (1000 - 10 * 64) * (0xffffffff / ((20000 - 10) * 64)) < 2 ^ 32) :=
  update_ch_stat_exact kernel_due (bus_const (stat_bytes 10 1000 20000)) dev_sample []
    10 1000 20000 (by decide) (by decide) (by decide) (by decide) rfl (by decide) (by decide)

/-- C4 (counterexample): the sample `total = 20000`, `abort = 10`, `err = 500` reaches
the non-saturating branch, the subtraction `err - abort*64` is negative, and the
stored BER `4294497316` is not the integer value `-469980` of the formula. -/
theorem update_ch_stat_wraps :
    (10 : Int) < 20000
      ∧ (500 : Int) - 10 * 64 < 0
      ∧ (500 - 10 * 64) * (0xffffffff / ((20000 - 10) * 64)) = (-469980 : Int)
      ∧ (af9033_update_ch_stat kernel_due (bus_const (stat_bytes 10 500 20000)) dev_sample
            []).2.1.ber = 4294497316
      ∧ (((af9033_update_ch_stat kernel_due (bus_const (stat_bytes 10 500 20000)) dev_sample
            []).2.1.ber : Nat) : Int)
          ≠ (500 - 10 * 64) * (0xffffffff / ((20000 - 10) * 64)) := by
  decide

/-! ## Sequences of register operations -/

theorem chk_neg {r : Int × List Op} {k : List Op → Int × List Op} (h : r.1 < 0) :
    chk r k = r := by
  simp [chk, h]

theorem chk_nonneg {r : Int × List Op} {k : List Op → Int × List Op} (h : ¬ r.1 < 0) :
    chk r k = k r.2 := by
  simp [chk, h]

theorem chk_ok (log : List Op) (k : List Op → Int × List Op) : chk (0, log) k = k log := by
  simp [chk]

theorem chk_assoc (r : Int × List Op) (k1 k2 : List Op → Int × List Op) :
    chk (chk r k1) k2 = chk r (fun log => chk (k1 log) k2) := by
  by_cases h : r.1 < 0
  · simp [chk, h]
  · simp [chk, h]

/-- A result of `chk` that is not negative comes from a first part that is not. -/
theorem chk_result_nonneg {r : Int × List Op} {k : List Op → Int × List Op}
    (h : ¬ (chk r k).1 < 0) : ¬ r.1 < 0 := by
  intro hr
  rw [chk_neg hr] at h
  exact h hr

/-- A write that does not return a negative value has issued its transfer. -/
theorem wr_regs_nonneg (bus : Bus) (log : List Op) (reg : Nat) (val : List Nat)
    (h : ¬ (af9033_wr_regs bus log reg val).1 < 0) :
    af9033_wr_regs bus log reg val = (0, log ++ [Op.wr reg val]) := by
  unfold af9033_wr_regs at h ⊢
  by_cases hl : 3 + val.length > MAX_XFER_SIZE
  · simp [hl, EINVAL] at h
  · simp only [hl, if_false] at h ⊢
    by_cases hr : bus.xfer_wr log reg val = 1
    · simp [hr]
    · simp [hr, EREMOTEIO] at h

/-- The return value of a read is `0` or negative. -/
theorem rd_regs_ret (bus : Bus) (log : List Op) (reg len : Nat) :
    (af9033_rd_regs bus log reg len).1 = 0 ∨ (af9033_rd_regs bus log reg len).1 < 0 := by
  unfold af9033_rd_regs
  by_cases hr : (bus.xfer_rd log reg len).1 = 2
  · left; simp [hr]
  · right; simp [hr, EREMOTEIO]

theorem rd_regs_log (bus : Bus) (log : List Op) (reg len : Nat) :
    (af9033_rd_regs bus log reg len).2.2 = log ++ [Op.rd reg len] := rfl

/-- The body of `af9033_wr_reg_mask` with its local variable written out. -/
theorem wr_reg_mask_unfold (bus : Bus) (log : List Op) (reg val mask : Nat) :
    af9033_wr_reg_mask bus log reg val mask
      = if mask = 0xff then af9033_wr_regs bus log reg [val]
        else if (af9033_rd_regs bus log reg 1).1 = 0 then
          af9033_wr_regs bus (log ++ [Op.rd reg 1]) reg
            [mask_merge val mask (bus_byte bus log reg)]
        else ((af9033_rd_regs bus log reg 1).1, log ++ [Op.rd reg 1]) := by
  simp only [af9033_wr_reg_mask, ne_eq, ite_not]
  rfl

theorem cmd_ops_masked (bus : Bus) (log : List Op) (reg val mask : Nat) :
    Cmd.ops bus log (.write_masked reg val mask)
      = if mask = 0xff then [Op.wr reg [val]]
        else [Op.rd reg 1, Op.wr reg [mask_merge val mask (bus_byte bus log reg)]] := by
  by_cases hm : mask = 0xff <;> simp [Cmd.ops, hm]

/-- A masked write that does not return a negative value has issued the transfers
the specification names. -/
theorem wr_reg_mask_nonneg (bus : Bus) (log : List Op) (reg val mask : Nat)
    (h : ¬ (af9033_wr_reg_mask bus log reg val mask).1 < 0) :
    af9033_wr_reg_mask bus log reg val mask
      = (0, log ++ Cmd.ops bus log (.write_masked reg val mask)) := by
  rw [wr_reg_mask_unfold] at h ⊢
  rw [cmd_ops_masked]
  by_cases hm : mask = 0xff
  · simp only [if_pos hm] at h ⊢
    exact wr_regs_nonneg _ _ _ _ h
  · simp only [if_neg hm] at h ⊢
    rcases rd_regs_ret bus log reg 1 with h0 | hneg
    · simp only [if_pos h0] at h ⊢
      rw [wr_regs_nonneg _ _ _ _ h]
      simp
    · have hne : ¬ (af9033_rd_regs bus log reg 1).1 = 0 := by omega
      simp only [if_neg hne] at h
      exact absurd hneg h

/-- The masked-write loop of `af9033_init` is the sequence of its masked writes. -/
theorem wr_reg_mask_tab_eq (bus : Bus) (tab : List reg_val_mask) (log : List Op) :
    wr_reg_mask_tab bus tab log
      = run_cmds bus (tab.map (fun e => Cmd.write_masked e.reg e.val e.mask)) log := by
  induction tab generalizing log with
  | nil => rfl
  | cons e rest ih =>
    simp only [wr_reg_mask_tab, List.map_cons, run_cmds, Cmd.run]
    congr 1
    funext l
    exact ih l

theorem run_cmds_append (bus : Bus) (a b : List Cmd) (log : List Op) :
    run_cmds bus (a ++ b) log = chk (run_cmds bus a log) (run_cmds bus b) := by
  induction a generalizing log with
  | nil => simp [run_cmds, chk_ok]
  | cons c cs ih =>
    simp only [List.cons_append, run_cmds]
    rw [chk_assoc]
    congr 1
    funext l
    exact ih l

theorem spec_trace_append (bus : Bus) (a b : List Cmd) (log : List Op) :
    spec_trace bus (a ++ b) log = spec_trace bus b (spec_trace bus a log) := by
  induction a generalizing log with
  | nil => rfl
  | cons c cs ih => simp only [List.cons_append, spec_trace]; exact ih _

/-- The trace of a sequence of operations starts with the log it was given. -/
theorem spec_trace_extends (bus : Bus) (cmds : List Cmd) (log : List Op) :
    ∃ ops, spec_trace bus cmds log = log ++ ops := by
  induction cmds generalizing log with
  | nil => exact ⟨[], by simp [spec_trace]⟩
  | cons c cs ih =>
    obtain ⟨ops, h⟩ := ih (log ++ c.ops bus log)
    exact ⟨c.ops bus log ++ ops, by simp [spec_trace, h]⟩

/-- A sequence without table loads that does not return a negative value has
issued exactly the transfers of its operations. -/
theorem run_cmds_nonneg (bus : Bus) (cmds : List Cmd)
    (hnt : ∀ c ∈ cmds, ∀ tab, c ≠ Cmd.write_table tab) (log : List Op)
    (h : ¬ (run_cmds bus cmds log).1 < 0) :
    run_cmds bus cmds log = (0, spec_trace bus cmds log) := by
  induction cmds generalizing log with
  | nil => rfl
  | cons c cs ih =>
    have hc : ¬ (c.run bus log).1 < 0 := by
      rw [run_cmds] at h; exact chk_result_nonneg h
    have hrun : c.run bus log = (0, log ++ c.ops bus log) := by
      cases c with
      | write reg val => exact wr_regs_nonneg _ _ _ _ hc
      | write_masked reg val mask => exact wr_reg_mask_nonneg _ _ _ _ _ hc
      | write_table tab => exact absurd rfl (hnt _ (List.mem_cons_self _ _) tab)
    rw [run_cmds, hrun, chk_ok] at h ⊢
    rw [spec_trace]
    exact ih (fun c hc => hnt c (List.mem_cons_of_mem _ hc)) _ h

/-- Over a bus that completes every transfer, a sequence of operations that fit
the transfer buffer succeeds and issues exactly the transfers of its operations. -/
theorem run_cmds_ok (bus : Bus) (hbus : bus.always_ok) (cmds : List Cmd)
    (hfit : ∀ c ∈ cmds, c.fits) (log : List Op) :
    run_cmds bus cmds log = (0, spec_trace bus cmds log) := by
  induction cmds generalizing log with
  | nil => rfl
  | cons c cs ih =>
    have hrun : c.run bus log = (0, log ++ c.ops bus log) := by
      have hc := hfit c (List.mem_cons_self _ _)
      cases c with
      | write reg val => exact wr_regs_ok bus hbus.1 _ _ _ hc
      | write_masked reg val mask =>
        apply wr_reg_mask_nonneg
        rw [wr_reg_mask_unfold]
        have hr : (af9033_rd_regs bus log reg 1).1 = 0 := by
          simp [af9033_rd_regs, hbus.2]
        by_cases hm : mask = 0xff
        · rw [if_pos hm, wr_regs_ok bus hbus.1 _ _ _ (by simp)]
          simp
        · rw [if_neg hm, if_pos hr, wr_regs_ok bus hbus.1 _ _ _ (by simp)]
          simp
      | write_table tab => exact wr_reg_val_tab_ok bus hbus.1 tab hc log
    rw [run_cmds, hrun, chk_ok, spec_trace]
    exact ih (fun c hc => hfit c (List.mem_cons_of_mem _ hc)) _

/-! ## Transfers a call adds to the log -/

theorem Extends.refl (P : Op → Prop) (log : List Op) : Extends P log log :=
  ⟨[], by simp, by simp⟩

theorem Extends.trans {P : Op → Prop} {a b c : List Op} (h1 : Extends P a b)
    (h2 : Extends P b c) : Extends P a c := by
  obtain ⟨o1, rfl, p1⟩ := h1
  obtain ⟨o2, rfl, p2⟩ := h2
  refine ⟨o1 ++ o2, by simp, fun o ho => ?_⟩
  rcases List.mem_append.mp ho with h | h
  · exact p1 o h
  · exact p2 o h

theorem extends_wr_regs (P : Op → Prop) (bus : Bus) (log : List Op) (reg : Nat)
    (val : List Nat) (hP : P (Op.wr reg val)) :
    Extends P log (af9033_wr_regs bus log reg val).2 := by
  unfold af9033_wr_regs
  split_ifs
  · exact Extends.refl P log
  · exact ⟨[Op.wr reg val], rfl, by simpa using hP⟩

theorem extends_wr_reg_mask (P : Op → Prop) (bus : Bus) (log : List Op) (reg val mask : Nat)
    (hrd : P (Op.rd reg 1)) (hwr : ∀ v, P (Op.wr reg v)) :
    Extends P log (af9033_wr_reg_mask bus log reg val mask).2 := by
  have hread : Extends P log (af9033_rd_regs bus log reg 1).2.2 :=
    ⟨[Op.rd reg 1], rfl, by simpa using hrd⟩
  rw [wr_reg_mask_unfold]
  split_ifs
  · exact extends_wr_regs P bus log reg _ (hwr _)
  · exact hread.trans (extends_wr_regs P bus _ reg _ (hwr _))
  · exact hread

theorem extends_chk (P : Op → Prop) (log : List Op) (r : Int × List Op)
    (k : List Op → Int × List Op) (h1 : Extends P log r.2)
    (h2 : ∀ l, Extends P l (k l).2) : Extends P log (chk r k).2 := by
  unfold chk
  split_ifs
  · exact h1
  · exact h1.trans (h2 _)

/-- Every transfer of the bandwidth-independent end of a tune call addresses one
of its six registers. -/
theorem set_frontend_common_extends (bus : Bus) (bw frequency : Nat) (log : List Op) :
    Extends (fun o => o.reg ∈ [0x80f904, 0x800040, 0x800047, 0x80f999, 0x80004b, 0x800000])
      log (set_frontend_common bus bw frequency log).2 := by
  unfold set_frontend_common af9033_wr_reg
  refine extends_chk _ _ _ _ (extends_wr_reg_mask _ _ _ _ _ _ (by simp [Op.reg])
    (fun v => by simp [Op.reg])) fun l => ?_
  refine extends_chk _ _ _ _ (extends_wr_regs _ _ _ _ _ (by simp [Op.reg])) fun l => ?_
  refine extends_chk _ _ _ _ (extends_wr_regs _ _ _ _ _ (by simp [Op.reg])) fun l => ?_
  refine extends_chk _ _ _ _ (extends_wr_reg_mask _ _ _ _ _ _ (by simp [Op.reg])
    (fun v => by simp [Op.reg])) fun l => ?_
  refine extends_chk _ _ _ _ (extends_wr_regs _ _ _ _ _ (by simp [Op.reg])) fun l => ?_
  refine extends_chk _ _ _ _ (extends_wr_regs _ _ _ _ _ (by simp [Op.reg])) fun l => ?_
  exact Extends.refl _ _

/-- The end of `af9033_set_frontend` is the sequence of the six bandwidth-independent
register operations. -/
theorem set_frontend_common_eq (bus : Bus) (bw frequency : Nat) (log : List Op) :
    set_frontend_common bus bw frequency log = run_cmds bus (common_cmds bw frequency) log := by
  rfl

/-! ## Tuning -/

/-- A tune call with the cached bandwidth skips the bandwidth-dependent part. -/
theorem set_frontend_cached (H : Header) (bus : Bus) (tuner : tuner_ops)
    (c : dtv_frontend_properties) (fuel : Nat) (dev : af9033_dev) (log : List Op) (bw : Nat)
    (hbw : bandwidth_reg_val c.bandwidth_hz = some bw)
    (hsame : c.bandwidth_hz = dev.bandwidth_hz) :
    af9033_set_frontend H bus tuner c fuel dev log
      = some ((set_frontend_common bus bw c.frequency log).1, dev,
          (set_frontend_common bus bw c.frequency log).2) := by
  simp only [af9033_set_frontend, hbw]
  simp [hsame]

/-- A tune call that returns success leaves the requested bandwidth in the cache. -/
theorem set_frontend_success_cache (H : Header) (bus : Bus) (tuner : tuner_ops)
    (c : dtv_frontend_properties) (fuel : Nat) (dev dev1 : af9033_dev) (log log1 : List Op)
    (bw : Nat) (hbw : bandwidth_reg_val c.bandwidth_hz = some bw)
    (h : af9033_set_frontend H bus tuner c fuel dev log = some (0, dev1, log1)) :
    dev1.bandwidth_hz = c.bandwidth_hz := by
  by_cases hsame : c.bandwidth_hz = dev.bandwidth_hz
  · rw [set_frontend_cached H bus tuner c fuel dev log bw hbw hsame] at h
    simp only [Option.some.injEq, Prod.mk.injEq] at h
    rw [← h.2.1]; exact hsame.symm
  · simp only [af9033_set_frontend, hbw, ne_eq, hsame, not_false_eq_true, if_true] at h
    split at h
    · exact absurd h (by simp)
    · split at h
      · rename_i hneg
        simp only [Option.some.injEq, Prod.mk.injEq] at h
        rw [h.1] at hneg
        exact absurd hneg (by decide)
      · simp only [Option.some.injEq, Prod.mk.injEq] at h
        rw [← h.2.1]

/-- C5: if a first `af9033_set_frontend` call with a supported bandwidth returns
success, a second call with the same bandwidth (any centre frequency, any tuner
answer, no init in between) carries out exactly the six bandwidth-independent
register operations, in order and left at the first one that fails: masked write of
the bandwidth code to `0x80f904`, `0` to `0x800040` and `0x800047`, masked clear of
bit 0 of `0x80f999`, the VHF/UHF byte to `0x80004b`, `0` to `0x800000`. None of its
transfers addresses the CFOE coefficient registers `0x800001` or the frequency
control word registers `0x800029`, and when the call succeeds its transfers are
exactly the eight listed. -/
theorem set_frontend_same_bandwidth (H : Header) (bus : Bus) (tuner1 tuner2 : tuner_ops)
    (c1 c2 : dtv_frontend_properties) (fuel1 fuel2 : Nat) (dev dev1 : af9033_dev)
    (log log1 : List Op) (bw : Nat)
    (hbw : bandwidth_reg_val c1.bandwidth_hz = some bw)
    (hfirst : af9033_set_frontend H bus tuner1 c1 fuel1 dev log = some (0, dev1, log1))
    (hsame : c2.bandwidth_hz = c1.bandwidth_hz) :
    af9033_set_frontend H bus tuner2 c2 fuel2 dev1 log1
        = some ((run_cmds bus (common_cmds bw c2.frequency) log1).1, dev1,
            (run_cmds bus (common_cmds bw c2.frequency) log1).2)
      ∧ (∃ ops, (run_cmds bus (common_cmds bw c2.frequency) log1).2 = log1 ++ ops
          ∧ ∀ o ∈ ops, o.reg ≠ 0x800001 ∧ o.reg ≠ 0x800029)
      ∧ ((run_cmds bus (common_cmds bw c2.frequency) log1).1 = 0 →
          ∃ cur1 cur2, (run_cmds bus (common_cmds bw c2.frequency) log1).2
            = log1 ++ [Op.rd 0x80f904 1, Op.wr 0x80f904 [mask_merge bw 0x03 cur1],
                Op.wr 0x800040 [0x00], Op.wr 0x800047 [0x00],
                Op.rd 0x80f999 1, Op.wr 0x80f999 [mask_merge 0x00 0x01 cur2],
                Op.wr 0x80004b [if c2.frequency ≤ 230000000 then 0x00 else 0x01],
                Op.wr 0x800000 [0x00]]) := by
  have hcache := set_frontend_success_cache H bus tuner1 c1 fuel1 dev dev1 log log1 bw hbw hfirst
  have hbw2 : bandwidth_reg_val c2.bandwidth_hz = some bw := by rw [hsame]; exact hbw
  refine ⟨?_, ?_, ?_⟩
  · rw [set_frontend_cached H bus tuner2 c2 fuel2 dev1 log1 bw hbw2 (by rw [hsame, hcache]),
      set_frontend_common_eq]
  · obtain ⟨ops, hops, hP⟩ := set_frontend_common_extends bus bw c2.frequency log1
    rw [set_frontend_common_eq] at hops
    refine ⟨ops, hops, fun o ho => ?_⟩
    have := hP o ho
    simp only [List.mem_cons, List.mem_singleton, List.not_mem_nil, or_false] at this
    omega
  · intro hz
    have hnn : ¬ (run_cmds bus (common_cmds bw c2.frequency) log1).1 < 0 := by omega
    rw [run_cmds_nonneg bus _ (by simp [common_cmds]) log1 hnn]
    exact ⟨bus_byte bus log1 0x80f904,
      bus_byte bus (log1 ++ [Op.rd 0x80f904 1,
        Op.wr 0x80f904 [mask_merge bw 0x03 (bus_byte bus log1 0x80f904)],
        Op.wr 0x800040 [0x00], Op.wr 0x800047 [0x00]]) 0x80f999,
      by simp [common_cmds, spec_trace, Cmd.ops]⟩

set_option maxRecDepth 100000 in
/-- Witness for `set_frontend_same_bandwidth`: two 8 MHz tune calls on the sample
device, the second at another frequency. -/
theorem set_frontend_same_bandwidth_witness :
    af9033_set_frontend hdr_sample bus_zero tuner_sample
          { props_sample with frequency := 177500000 } 5
          { dev_sample with bandwidth_hz := 8000000 }
          [Op.wr 0x800001 [0x01, 0xce, 0x55, 0xc9], Op.wr 0x800029 [244, 28, 99],
           Op.rd 0x80f904 1, Op.wr 0x80f904 [2], Op.wr 0x800040 [0], Op.wr 0x800047 [0],
           Op.rd 0x80f999 1, Op.wr 0x80f999 [0], Op.wr 0x80004b [1], Op.wr 0x800000 [0]]
        = some ((run_cmds bus_zero (common_cmds 2 177500000)
            [Op.wr 0x800001 [0x01, 0xce, 0x55, 0xc9], Op.wr 0x800029 [244, 28, 99],
             Op.rd 0x80f904 1, Op.wr 0x80f904 [2], Op.wr 0x800040 [0], Op.wr 0x800047 [0],
             Op.rd 0x80f999 1, Op.wr 0x80f999 [0], Op.wr 0x80004b [1],
             Op.wr 0x800000 [0]]).1,
            { dev_sample with bandwidth_hz := 8000000 },
            (run_cmds bus_zero (common_cmds 2 177500000)
            [Op.wr 0x800001 [0x01, 0xce, 0x55, 0xc9], Op.wr 0x800029 [244, 28, 99],
             Op.rd 0x80f904 1, Op.wr 0x80f904 [2], Op.wr 0x800040 [0], Op.wr 0x800047 [0],
             Op.rd 0x80f999 1, Op.wr 0x80f999 [0], Op.wr 0x80004b [1],
             Op.wr 0x800000 [0]]).2) :=
  (set_frontend_same_bandwidth hdr_sample bus_zero tuner_sample tuner_sample props_sample
    { props_sample with frequency := 177500000 } 5 5 dev_sample
    { dev_sample with bandwidth_hz := 8000000 } []
    [Op.wr 0x800001 [0x01, 0xce, 0x55, 0xc9], Op.wr 0x800029 [244, 28, 99],
     Op.rd 0x80f904 1, Op.wr 0x80f904 [2], Op.wr 0x800040 [0], Op.wr 0x800047 [0],
     Op.rd 0x80f999 1, Op.wr 0x80f999 [0], Op.wr 0x80004b [1], Op.wr 0x800000 [0]]
    2 rfl rfl rfl).1

set_option maxRecDepth 100000 in
/-- C6 (the code at the failing input): on a bus where only the write of the CFOE
coefficients to `0x800001` fails, a tune call of the freshly initialised sample
device to 8 MHz returns `0`, not an error, and goes on to issue the frequency
control word write and the eight bandwidth-independent transfers after the failure. -/
theorem set_frontend_ignores_cfoe_failure :
    (af9033_wr_regs bus_cfoe_fail [] 0x800001 [0x01, 0xce, 0x55, 0xc9]).1 = - EREMOTEIO
      ∧ af9033_set_frontend hdr_sample bus_cfoe_fail tuner_sample props_sample 5 dev_sample []
        = some (0, { dev_sample with bandwidth_hz := 8000000 },
            [Op.wr 0x800001 [0x01, 0xce, 0x55, 0xc9], Op.wr 0x800029 [244, 28, 99],
             Op.rd 0x80f904 1, Op.wr 0x80f904 [2], Op.wr 0x800040 [0], Op.wr 0x800047 [0],
             Op.rd 0x80f999 1, Op.wr 0x80f999 [0], Op.wr 0x80004b [1],
             Op.wr 0x800000 [0]]) := by
  constructor <;> rfl

/-- C10: for every requested bandwidth other than 6000000, 7000000 or 8000000 Hz,
`af9033_set_frontend` returns `-EINVAL`, issues no transfer and leaves the device
state, the cached bandwidth included, unchanged. -/
theorem set_frontend_invalid_bandwidth (H : Header) (bus : Bus) (tuner : tuner_ops)
    (c : dtv_frontend_properties) (fuel : Nat) (dev : af9033_dev) (log : List Op)
    (h6 : c.bandwidth_hz ≠ 6000000) (h7 : c.bandwidth_hz ≠ 7000000)
    (h8 : c.bandwidth_hz ≠ 8000000) :
    af9033_set_frontend H bus tuner c fuel dev log = some (-EINVAL, dev, log) := by
  have hnone : bandwidth_reg_val c.bandwidth_hz = none := by
    simp [bandwidth_reg_val, h6, h7, h8]
  simp only [af9033_set_frontend, hnone]

/-- Witness for `set_frontend_invalid_bandwidth`: a request for 5 MHz. -/
theorem set_frontend_invalid_bandwidth_witness :
    af9033_set_frontend hdr_sample bus_zero tuner_sample
        { props_sample with bandwidth_hz := 5000000 } 5 dev_sample []
      = some (-EINVAL, dev_sample, []) :=
  set_frontend_invalid_bandwidth hdr_sample bus_zero tuner_sample
    { props_sample with bandwidth_hz := 5000000 } 5 dev_sample []
    (by decide) (by decide) (by decide)

/-! ## Sleep -/

set_option maxRecDepth 100000 in
/-- C7 (the code at the failing input): when the status register `0x80004c` reads
non-zero on the first 99 polls and `0` on the 100th, `af9033_sleep` returns
`-ETIMEDOUT` after exactly 100 polls and never writes the power-gating bit at
`0x80fb24`; when the `0` comes on the 99th poll it returns `0` and sets the bit. -/
theorem sleep_times_out_on_last_poll :
    bus_byte (bus_ack_at 100)
        ([Op.wr 0x80004c [1], Op.wr 0x800000 [0]] ++ List.replicate 99 (Op.rd 0x80004c 1))
        0x80004c = 0
      ∧ af9033_sleep hdr_sample (bus_ack_at 100) dev_sample []
        = (-ETIMEDOUT,
            [Op.wr 0x80004c [1], Op.wr 0x800000 [0]] ++ List.replicate 100 (Op.rd 0x80004c 1))
      ∧ af9033_sleep hdr_sample (bus_ack_at 99) dev_sample []
        = (0, [Op.wr 0x80004c [1], Op.wr 0x800000 [0]] ++ List.replicate 99 (Op.rd 0x80004c 1)
                ++ [Op.rd 0x80fb24 1, Op.wr 0x80fb24 [8]]) := by
  decide

/-! ## Status decode -/

theorem sw_transmission_mode_in (b : Nat) (p q : fe_transmit_mode) (h : b &&& 3 ≤ 1) :
    sw_transmission_mode b p = sw_transmission_mode b q := by
  unfold sw_transmission_mode
  simp only [Nat.shiftRight_zero]
  generalize b &&& 3 = x at h
  interval_cases x <;> rfl

theorem sw_transmission_mode_out (b : Nat) (p : fe_transmit_mode) (h : ¬ b &&& 3 ≤ 1) :
    sw_transmission_mode b p = p := by
  unfold sw_transmission_mode
  simp only [Nat.shiftRight_zero]
  generalize b &&& 3 = x at h
  match x, h with
  | 0, h => omega
  | 1, h => omega
  | _ + 2, _ => rfl

theorem sw_guard_interval_in (b : Nat) (p q : fe_guard_interval) :
    sw_guard_interval b p = sw_guard_interval b q := by
  unfold sw_guard_interval
  simp only [Nat.shiftRight_zero]
  have h : b &&& 3 ≤ 3 := Nat.and_le_right
  generalize b &&& 3 = x at h
  interval_cases x <;> rfl

theorem sw_hierarchy_in (b : Nat) (p q : fe_hierarchy) (h : b &&& 7 ≤ 3) :
    sw_hierarchy b p = sw_hierarchy b q := by
  unfold sw_hierarchy
  simp only [Nat.shiftRight_zero]
  generalize b &&& 7 = x at h
  interval_cases x <;> rfl

theorem sw_hierarchy_out (b : Nat) (p : fe_hierarchy) (h : ¬ b &&& 7 ≤ 3) :
    sw_hierarchy b p = p := by
  unfold sw_hierarchy
  simp only [Nat.shiftRight_zero]
  generalize b &&& 7 = x at h
  match x, h with
  | 0, h => omega
  | 1, h => omega
  | 2, h => omega
  | 3, h => omega
  | _ + 4, _ => rfl

theorem sw_modulation_in (b : Nat) (p q : fe_modulation) (h : b &&& 3 ≤ 2) :
    sw_modulation b p = sw_modulation b q := by
  unfold sw_modulation
  simp only [Nat.shiftRight_zero]
  generalize b &&& 3 = x at h
  interval_cases x <;> rfl

theorem sw_modulation_out (b : Nat) (p : fe_modulation) (h : ¬ b &&& 3 ≤ 2) :
    sw_modulation b p = p := by
  unfold sw_modulation
  simp only [Nat.shiftRight_zero]
  generalize b &&& 3 = x at h
  match x, h with
  | 0, h => omega
  | 1, h => omega
  | 2, h => omega
  | _ + 3, _ => rfl

theorem sw_bandwidth_hz_in (b : Nat) (p q : Nat) (h : b &&& 3 ≤ 2) :
    sw_bandwidth_hz b p = sw_bandwidth_hz b q := by
  unfold sw_bandwidth_hz
  simp only [Nat.shiftRight_zero]
  generalize b &&& 3 = x at h
  interval_cases x <;> rfl

theorem sw_bandwidth_hz_out (b : Nat) (p : Nat) (h : ¬ b &&& 3 ≤ 2) :
    sw_bandwidth_hz b p = p := by
  unfold sw_bandwidth_hz
  simp only [Nat.shiftRight_zero]
  generalize b &&& 3 = x at h
  match x, h with
  | 0, h => omega
  | 1, h => omega
  | 2, h => omega
  | _ + 3, _ => rfl

theorem sw_code_rate_in (b : Nat) (p q : fe_code_rate) (h : b &&& 7 ≤ 5) :
    sw_code_rate b p = sw_code_rate b q := by
  unfold sw_code_rate
  simp only [Nat.shiftRight_zero]
  generalize b &&& 7 = x at h
  interval_cases x <;> rfl

theorem sw_code_rate_out (b : Nat) (p : fe_code_rate) (h : ¬ b &&& 7 ≤ 5) :
    sw_code_rate b p = p := by
  unfold sw_code_rate
  simp only [Nat.shiftRight_zero]
  generalize b &&& 7 = x at h
  match x, h with
  | 0, h => omega
  | 1, h => omega
  | 2, h => omega
  | 3, h => omega
  | 4, h => omega
  | 5, h => omega
  | _ + 6, _ => rfl

/-- Decoding a buffer again, on the cache the first decode left, changes nothing. -/
theorem decode_status_idem (buf : List Nat) (c : dtv_frontend_properties) :
    decode_status buf (decode_status buf c) = decode_status buf c := by
  have h0 : ∀ b p, sw_transmission_mode b (sw_transmission_mode b p) = sw_transmission_mode b p := by
    intro b p
    by_cases h : b &&& 3 ≤ 1
    · exact sw_transmission_mode_in b _ _ h
    · rw [sw_transmission_mode_out b p h, sw_transmission_mode_out b p h]
  have h1 : ∀ b p, sw_guard_interval b (sw_guard_interval b p) = sw_guard_interval b p :=
    fun b p => sw_guard_interval_in b _ _
  have h2 : ∀ b p, sw_hierarchy b (sw_hierarchy b p) = sw_hierarchy b p := by
    intro b p
    by_cases h : b &&& 7 ≤ 3
    · exact sw_hierarchy_in b _ _ h
    · rw [sw_hierarchy_out b p h, sw_hierarchy_out b p h]
  have h3 : ∀ b p, sw_modulation b (sw_modulation b p) = sw_modulation b p := by
    intro b p
    by_cases h : b &&& 3 ≤ 2
    · exact sw_modulation_in b _ _ h
    · rw [sw_modulation_out b p h, sw_modulation_out b p h]
  have h4 : ∀ b p, sw_bandwidth_hz b (sw_bandwidth_hz b p) = sw_bandwidth_hz b p := by
    intro b p
    by_cases h : b &&& 3 ≤ 2
    · exact sw_bandwidth_hz_in b _ _ h
    · rw [sw_bandwidth_hz_out b p h, sw_bandwidth_hz_out b p h]
  have h5 : ∀ b p, sw_code_rate b (sw_code_rate b p) = sw_code_rate b p := by
    intro b p
    by_cases h : b &&& 7 ≤ 5
    · exact sw_code_rate_in b _ _ h
    · rw [sw_code_rate_out b p h, sw_code_rate_out b p h]
  simp only [decode_status, h0, h1, h2, h3, h4, h5]

/-- A status read that completes: the cache is the decode of the buffer. -/
theorem get_frontend_read (bus : Bus) (c : dtv_frontend_properties) (log : List Op)
    (data : List Nat) (h : bus.xfer_rd log 0x80f900 8 = (2, data)) :
    af9033_get_frontend bus c log = (0, decode_status (rd_buf data 8) c, log ++ [Op.rd 0x80f900 8]) := by
  simp [af9033_get_frontend, af9033_rd_regs, h]

/-- C8 (as amended): for every 8-byte buffer read from `0x80f900` and every two
prior contents of the property cache, each decoded field whose bit pattern the
decoder maps (transmission mode 0..1, guard interval always, hierarchy 0..3,
modulation 0..2, bandwidth 0..2, code rates 0..5) is identical after the call; a
field whose bit pattern is not mapped keeps its prior value; and decoding the same
buffer a second time changes nothing. -/
theorem get_frontend_decode (bus : Bus) (c1 c2 : dtv_frontend_properties)
    (log1 log2 log3 : List Op) (data : List Nat)
    (h1 : bus.xfer_rd log1 0x80f900 8 = (2, data))
    (h2 : bus.xfer_rd log2 0x80f900 8 = (2, data))
    (h3 : bus.xfer_rd log3 0x80f900 8 = (2, data)) :
    ((af9033_get_frontend bus c1 log1).1 = 0 ∧ (af9033_get_frontend bus c2 log2).1 = 0)
      ∧ (status_byte data 0 &&& 3 ≤ 1 →
          (af9033_get_frontend bus c1 log1).2.1.transmission_mode
            = (af9033_get_frontend bus c2 log2).2.1.transmission_mode)
      ∧ (¬ status_byte data 0 &&& 3 ≤ 1 →
          (af9033_get_frontend bus c1 log1).2.1.transmission_mode = c1.transmission_mode)
      ∧ (af9033_get_frontend bus c1 log1).2.1.guard_interval
            = (af9033_get_frontend bus c2 log2).2.1.guard_interval
      ∧ (status_byte data 2 &&& 7 ≤ 3 →
          (af9033_get_frontend bus c1 log1).2.1.hierarchy
            = (af9033_get_frontend bus c2 log2).2.1.hierarchy)
      ∧ (¬ status_byte data 2 &&& 7 ≤ 3 →
          (af9033_get_frontend bus c1 log1).2.1.hierarchy = c1.hierarchy)
      ∧ (status_byte data 3 &&& 3 ≤ 2 →
          (af9033_get_frontend bus c1 log1).2.1.modulation
            = (af9033_get_frontend bus c2 log2).2.1.modulation)
      ∧ (¬ status_byte data 3 &&& 3 ≤ 2 →
          (af9033_get_frontend bus c1 log1).2.1.modulation = c1.modulation)
      ∧ (status_byte data 4 &&& 3 ≤ 2 →
          (af9033_get_frontend bus c1 log1).2.1.bandwidth_hz
            = (af9033_get_frontend bus c2 log2).2.1.bandwidth_hz)
      ∧ (¬ status_byte data 4 &&& 3 ≤ 2 →
          (af9033_get_frontend bus c1 log1).2.1.bandwidth_hz = c1.bandwidth_hz)
      ∧ (status_byte data 6 &&& 7 ≤ 5 →
          (af9033_get_frontend bus c1 log1).2.1.code_rate_HP
            = (af9033_get_frontend bus c2 log2).2.1.code_rate_HP)
      ∧ (¬ status_byte data 6 &&& 7 ≤ 5 →
          (af9033_get_frontend bus c1 log1).2.1.code_rate_HP = c1.code_rate_HP)
      ∧ (status_byte data 7 &&& 7 ≤ 5 →
          (af9033_get_frontend bus c1 log1).2.1.code_rate_LP
            = (af9033_get_frontend bus c2 log2).2.1.code_rate_LP)
      ∧ (¬ status_byte data 7 &&& 7 ≤ 5 →
          (af9033_get_frontend bus c1 log1).2.1.code_rate_LP = c1.code_rate_LP)
      ∧ (af9033_get_frontend bus (af9033_get_frontend bus c1 log1).2.1 log3).2.1
          = (af9033_get_frontend bus c1 log1).2.1 := by
  rw [get_frontend_read bus c1 log1 data h1, get_frontend_read bus c2 log2 data h2,
    get_frontend_read bus _ log3 data h3]
  refine ⟨⟨rfl, rfl⟩, ?_, ?_, ?_, ?_, ?_, ?_, ?_, ?_, ?_, ?_, ?_, ?_, ?_,
    decode_status_idem _ _⟩
  · exact fun h => sw_transmission_mode_in _ _ _ h
  · exact fun h => sw_transmission_mode_out _ _ h
  · exact sw_guard_interval_in _ _ _
  · exact fun h => sw_hierarchy_in _ _ _ h
  · exact fun h => sw_hierarchy_out _ _ h
  · exact fun h => sw_modulation_in _ _ _ h
  · exact fun h => sw_modulation_out _ _ h
  · exact fun h => sw_bandwidth_hz_in _ _ _ h
  · exact fun h => sw_bandwidth_hz_out _ _ h
  · exact fun h => sw_code_rate_in _ _ _ h
  · exact fun h => sw_code_rate_out _ _ h
  · exact fun h => sw_code_rate_in _ _ _ h
  · exact fun h => sw_code_rate_out _ _ h

/-- Witness for `get_frontend_decode`: the buffer `[1, 2, 3, 2, 1, 0, 5, 4]` decoded
into two different caches. -/
theorem get_frontend_decode_witness :
    (af9033_get_frontend (bus_const [1, 2, 3, 2, 1, 0, 5, 4]) props_sample []).2.1.guard_interval
      = (af9033_get_frontend (bus_const [1, 2, 3, 2, 1, 0, 5, 4])
          { props_sample with guard_interval := .GUARD_INTERVAL_1_4 } []).2.1.guard_interval :=
  (get_frontend_decode (bus_const [1, 2, 3, 2, 1, 0, 5, 4]) props_sample
    { props_sample with guard_interval := .GUARD_INTERVAL_1_4 } [] [] []
    [1, 2, 3, 2, 1, 0, 5, 4] rfl rfl rfl).2.2.2.1

/-- C8 (counterexample): the same 8-byte buffer, with `buf[0] & 3 = 2`, read into two
caches that differ in the transmission mode: both calls return `0` and the decoded
transmission modes differ. -/
theorem get_frontend_depends_on_cache :
    (af9033_get_frontend (bus_const [2, 0, 0, 0, 0, 0, 0, 0]) props_sample []).1 = 0
      ∧ (af9033_get_frontend (bus_const [2, 0, 0, 0, 0, 0, 0, 0])
          { props_sample with transmission_mode := .TRANSMISSION_MODE_8K } []).1 = 0
      ∧ (af9033_get_frontend (bus_const [2, 0, 0, 0, 0, 0, 0, 0]) props_sample
          []).2.1.transmission_mode = .TRANSMISSION_MODE_AUTO
      ∧ (af9033_get_frontend (bus_const [2, 0, 0, 0, 0, 0, 0, 0])
          { props_sample with transmission_mode := .TRANSMISSION_MODE_8K }
          []).2.1.transmission_mode = .TRANSMISSION_MODE_8K
      ∧ (af9033_get_frontend (bus_const [2, 0, 0, 0, 0, 0, 0, 0]) props_sample
          []).2.1.transmission_mode
        ≠ (af9033_get_frontend (bus_const [2, 0, 0, 0, 0, 0, 0, 0])
          { props_sample with transmission_mode := .TRANSMISSION_MODE_8K }
          []).2.1.transmission_mode := by
  decide

/-! ## Initialisation -/

/-- For a tuner identifier that is none of the twelve, both switches of
`af9033_init` take their `default:` label. -/
theorem unknown_tuner_tables (H : Header) (tuner : Nat) (h : tuner ∉ H.tuners) :
    ofsm_table H tuner = H.ofsm_init ∧ tuner_table H tuner = none := by
  simp only [Header.tuners, List.mem_cons, List.mem_singleton, List.not_mem_nil, or_false,
    not_or] at h
  obtain ⟨h1, h2, h3, h4, h5, h6, h7, h8, h9, h10, h11, h12⟩ := h
  constructor
  · simp [ofsm_table, h7, h8, h9, h10, h11, h12]
  · simp [tuner_table, h1, h2, h3, h4, h5, h6, h7, h8, h9, h10, h11, h12]

theorem run_cmds_cons (bus : Bus) (c : Cmd) (cs : List Cmd) (log : List Op) :
    run_cmds bus (c :: cs) log = chk (c.run bus log) (run_cmds bus cs) := rfl

/-- Only the sign of the return value of a single operation reaches what follows. -/
theorem chk_run_single (bus : Bus) (c : Cmd) (log : List Op) (k : List Op → Int × List Op) :
    chk (run_cmds bus [c] log) k = chk (c.run bus log) k := by
  rw [run_cmds_cons]
  by_cases h : (c.run bus log).1 < 0
  · rw [chk_neg h]
  · rw [chk_nonneg h, chk_nonneg h]
    rfl

/-- A chain of checked register operations shaped like the start of `af9033_init`
is the sequence of those operations. -/
theorem init_chain_eq (bus : Bus) (b1 b2 : List Nat) (tab : List reg_val_mask) (d : Bool)
    (u : Prop) [Decidable u] (ofsm : List reg_val) (k : List Op → Int × List Op)
    (log : List Op) :
    (chk (af9033_wr_regs bus log 0x800025 b1) fun log =>
      chk (af9033_wr_regs bus log 0x80f1cd b2) fun log =>
      chk (wr_reg_mask_tab bus tab log) fun log =>
      chk (if d then af9033_wr_reg bus log 0x80fba8 0x00 else (0, log)) fun log =>
      chk (if u then
            chk (af9033_wr_reg_mask bus log 0x80f9a5 0x00 0x01) fun log =>
            af9033_wr_reg_mask bus log 0x80f9b5 0x01 0x01
          else
            chk (af9033_wr_reg_mask bus log 0x80f990 0x00 0x01) fun log =>
            af9033_wr_reg_mask bus log 0x80f9b5 0x00 0x01) fun log =>
      chk (af9033_wr_reg_val_tab bus log ofsm) k)
      = chk (run_cmds bus
          ([Cmd.write 0x800025 b1, Cmd.write 0x80f1cd b2]
            ++ tab.map (fun e => Cmd.write_masked e.reg e.val e.mask)
            ++ (if d then [Cmd.write 0x80fba8 [0x00]] else [])
            ++ (if u then
                  [Cmd.write_masked 0x80f9a5 0x00 0x01, Cmd.write_masked 0x80f9b5 0x01 0x01]
                else [Cmd.write_masked 0x80f990 0x00 0x01, Cmd.write_masked 0x80f9b5 0x00 0x01])
            ++ [Cmd.write_table ofsm]) log) k := by
  have hl : ∀ (M D U : List Cmd),
      [Cmd.write 0x800025 b1, Cmd.write 0x80f1cd b2] ++ M ++ D ++ U ++ [Cmd.write_table ofsm]
        = Cmd.write 0x800025 b1 :: Cmd.write 0x80f1cd b2
            :: (M ++ (D ++ (U ++ [Cmd.write_table ofsm]))) := by
    intro M D U; simp
  rw [hl, run_cmds_cons, chk_assoc]
  congr 1; funext l1
  rw [run_cmds_cons, chk_assoc]
  congr 1; funext l2
  rw [run_cmds_append, chk_assoc, wr_reg_mask_tab_eq]
  congr 1; funext l3
  rw [run_cmds_append, chk_assoc]
  have hD : ∀ K : List Op → Int × List Op,
      chk (if d then af9033_wr_reg bus l3 0x80fba8 0x00 else (0, l3)) K
        = chk (run_cmds bus (if d then [Cmd.write 0x80fba8 [0x00]] else []) l3) K := by
    intro K
    cases d
    · rfl
    · simp only [if_true]
      rw [chk_run_single]
      rfl
  rw [hD]
  congr 1; funext l4
  rw [run_cmds_append, chk_assoc]
  have hU : ∀ K : List Op → Int × List Op,
      chk (if u then
            chk (af9033_wr_reg_mask bus l4 0x80f9a5 0x00 0x01) fun log =>
            af9033_wr_reg_mask bus log 0x80f9b5 0x01 0x01
          else
            chk (af9033_wr_reg_mask bus l4 0x80f990 0x00 0x01) fun log =>
            af9033_wr_reg_mask bus log 0x80f9b5 0x00 0x01) K
        = chk (run_cmds bus (if u then
                  [Cmd.write_masked 0x80f9a5 0x00 0x01, Cmd.write_masked 0x80f9b5 0x01 0x01]
                else [Cmd.write_masked 0x80f990 0x00 0x01, Cmd.write_masked 0x80f9b5 0x00 0x01])
              l4) K := by
    intro K
    by_cases hu : u
    · simp only [if_pos hu]
      rw [run_cmds_cons, chk_assoc, chk_assoc]
      congr 1; funext l5
      rw [chk_run_single]
      rfl
    · simp only [if_neg hu]
      rw [run_cmds_cons, chk_assoc, chk_assoc]
      congr 1; funext l5
      rw [chk_run_single]
      rfl
  rw [hU]
  congr 1; funext l6
  rw [chk_run_single]
  rfl

/-- The part of `af9033_init` before the tuner switch, for a tuner that takes the
default OFSM table, is the sequence `init_cmds`. -/
theorem init_ops_eq (H : Header) (bus : Bus) (dev : af9033_dev) (log : List Op)
    (hofsm : ofsm_table H dev.cfg.tuner = H.ofsm_init) :
    init_ops H bus dev log
      = chk (run_cmds bus (init_cmds H dev) log) fun log =>
          match tuner_table H dev.cfg.tuner with
          | none => (-ENODEV, log)
          | some init =>
            chk (af9033_wr_reg_val_tab bus log init) fun log => init_finish H bus dev log := by
  unfold init_ops init_cmds
  rw [hofsm]
  exact init_chain_eq bus _ _ _ _ _ _ _ log

/-- The operations of `init_cmds` fit the transfer buffer when the OFSM table can be
loaded. -/
theorem init_cmds_fit (H : Header) (dev : af9033_dev) (hofsm : tab_ok H.ofsm_init) :
    ∀ c ∈ init_cmds H dev, c.fits := by
  intro c hc
  simp only [init_cmds, List.mem_append, List.mem_cons, List.mem_singleton, List.not_mem_nil,
    or_false, List.mem_map] at hc
  rcases hc with (((((rfl | rfl) | ⟨e, -, rfl⟩) | hd) | hu) | rfl)
  · simp [Cmd.fits, clock_cw_buf]
  · simp [Cmd.fits, adc_cw_buf]
  · trivial
  · split_ifs at hd
    · rcases List.mem_singleton.mp hd with rfl
      simp [Cmd.fits]
    · simp at hd
  · split_ifs at hu
    · simp only [List.mem_cons, List.mem_singleton, List.not_mem_nil, or_false] at hu
      rcases hu with rfl | rfl <;> trivial
    · simp only [List.mem_cons, List.mem_singleton, List.not_mem_nil, or_false] at hu
      rcases hu with rfl | rfl <;> trivial
  · exact hofsm

/-- C9: for every configuration whose tuner identifier is none of the twelve
recognised ones, over a bus that completes every transfer (the default OFSM table
being one that can be loaded), `af9033_init` returns `-ENODEV` and leaves the device
state, the cached bandwidth included, unchanged. Its transfers are exactly those of
`init_cmds`, in order: the clock control word write to `0x800025`, the ADC control
word write to `0x80f1cd`, the 26 baseline masked writes, the optional clock-output
write, the two transport-stream masked writes and the bursts of the default OFSM
table, after which nothing is issued. -/
theorem init_unknown_tuner (H : Header) (bus : Bus) (dev : af9033_dev) (log : List Op)
    (hbus : bus.always_ok) (htuner : dev.cfg.tuner ∉ H.tuners) (hofsm : tab_ok H.ofsm_init) :
    af9033_init H bus dev log = (-ENODEV, dev, spec_trace bus (init_cmds H dev) log)
      ∧ (init_tab dev).length = 26
      ∧ (∃ mid, spec_trace bus (init_cmds H dev) log
          = log ++ [Op.wr 0x800025 (clock_cw_buf dev), Op.wr 0x80f1cd (adc_cw_buf H dev)]
              ++ mid ++ burst_ops (spec_bursts H.ofsm_init)) := by
  obtain ⟨ht1, ht2⟩ := unknown_tuner_tables H dev.cfg.tuner htuner
  refine ⟨?_, rfl, ?_⟩
  · unfold af9033_init
    rw [init_ops_eq H bus dev log ht1,
      run_cmds_ok bus hbus _ (init_cmds_fit H dev hofsm) log, chk_ok, ht2]
    simp [ENODEV]
  · have hsplit : init_cmds H dev
        = [Cmd.write 0x800025 (clock_cw_buf dev), Cmd.write 0x80f1cd (adc_cw_buf H dev)]
          ++ ((init_tab dev).map (fun e => Cmd.write_masked e.reg e.val e.mask)
          ++ (if dev.cfg.dyn0_clk then [Cmd.write 0x80fba8 [0x00]] else [])
          ++ (if dev.cfg.ts_mode = H.AF9033_TS_MODE_USB then
                [Cmd.write_masked 0x80f9a5 0x00 0x01, Cmd.write_masked 0x80f9b5 0x01 0x01]
              else [Cmd.write_masked 0x80f990 0x00 0x01, Cmd.write_masked 0x80f9b5 0x00 0x01]))
          ++ [Cmd.write_table H.ofsm_init] := by
      simp [init_cmds]
    rw [hsplit, spec_trace_append, spec_trace_append]
    obtain ⟨mid, hmid⟩ := spec_trace_extends bus
      ((init_tab dev).map (fun e => Cmd.write_masked e.reg e.val e.mask)
          ++ (if dev.cfg.dyn0_clk then [Cmd.write 0x80fba8 [0x00]] else [])
          ++ (if dev.cfg.ts_mode = H.AF9033_TS_MODE_USB then
                [Cmd.write_masked 0x80f9a5 0x00 0x01, Cmd.write_masked 0x80f9b5 0x01 0x01]
              else [Cmd.write_masked 0x80f990 0x00 0x01, Cmd.write_masked 0x80f9b5 0x00 0x01]))
      (spec_trace bus
        [Cmd.write 0x800025 (clock_cw_buf dev), Cmd.write 0x80f1cd (adc_cw_buf H dev)] log)
    refine ⟨mid, ?_⟩
    rw [hmid]
    simp [spec_trace, Cmd.ops]

set_option maxRecDepth 100000 in
/-- Witness for `init_unknown_tuner`: the sample device with tuner identifier `0x99`
and a non-zero cached bandwidth, on the all-zero bus. -/
theorem init_unknown_tuner_witness :
    af9033_init hdr_sample bus_zero
        { dev_sample with cfg := { cfg_sample with tuner := 0x99 }, bandwidth_hz := 7000000 } []
      = (-ENODEV,
          { dev_sample with cfg := { cfg_sample with tuner := 0x99 }, bandwidth_hz := 7000000 },
          spec_trace bus_zero (init_cmds hdr_sample
            { dev_sample with cfg := { cfg_sample with tuner := 0x99 },
                              bandwidth_hz := 7000000 }) []) :=
  (init_unknown_tuner hdr_sample bus_zero
    { dev_sample with cfg := { cfg_sample with tuner := 0x99 }, bandwidth_hz := 7000000 } []
    ⟨fun _ _ _ => rfl, fun _ _ _ => rfl⟩ (by decide) ⟨by decide, by decide, by decide⟩).1

/-! ## Register access -/

/-- Bit `i < 8` of the merged byte: the bit of `val` inside the mask, the bit of the
byte read outside it. -/
theorem mask_merge_testBit (val mask cur i : Nat) (hi : i < 8) :
    (mask_merge val mask cur).testBit i
      = if mask.testBit i then val.testBit i else cur.testBit i := by
  have hff : (0xff : Nat).testBit i = true := by
    interval_cases i <;> decide
  unfold mask_merge
  simp only [Nat.testBit_or, Nat.testBit_and, Nat.testBit_xor, hff]
  cases mask.testBit i <;> cases val.testBit i <;> cases cur.testBit i <;> rfl

/-- The merged byte is a byte when the value and the byte read are. -/
theorem mask_merge_lt (val mask cur : Nat) (hval : val < 256) (hcur : cur < 256) :
    mask_merge val mask cur < 256 := by
  unfold mask_merge
  have h1 : val &&& mask < 2 ^ 8 := lt_of_le_of_lt Nat.and_le_left hval
  have h2 : cur &&& (0xff ^^^ mask) < 2 ^ 8 := lt_of_le_of_lt Nat.and_le_left hcur
  exact Nat.or_lt_two_pow h1 h2

/-- The byte a one-byte read delivers is a byte. -/
theorem bus_byte_lt (bus : Bus) (log : List Op) (reg : Nat) : bus_byte bus log reg < 256 := by
  have h : bus_byte bus log reg = (bus.xfer_rd log reg 1).2.getD 0 0 % 256 := rfl
  rw [h]
  exact Nat.mod_lt _ (by norm_num)

/-- C11: for every register address, value and mask (bytes): when `mask != 0xff` and
the read completes, `af9033_wr_reg_mask` reads the current byte `cur` once and then
writes exactly `(value & mask) | (cur & ~mask)`, so that every bit inside the mask
takes the bit of `value` and every bit outside keeps the bit of `cur`; when
`mask == 0xff` it issues no read and writes `value` unchanged; and when the read
fails no write is issued and the error of the read is returned. -/
theorem wr_reg_mask_merges (bus : Bus) (log : List Op) (reg val mask : Nat)
    (hval : val < 256) :
    (mask ≠ 0xff → (bus.xfer_rd log reg 1).1 = 2 →
        af9033_wr_reg_mask bus log reg val mask
            = af9033_wr_regs bus (log ++ [Op.rd reg 1]) reg
                [mask_merge val mask (bus_byte bus log reg)]
          ∧ (af9033_wr_reg_mask bus log reg val mask).2
            = log ++ [Op.rd reg 1, Op.wr reg [mask_merge val mask (bus_byte bus log reg)]]
          ∧ mask_merge val mask (bus_byte bus log reg)
            = (val &&& mask) ||| (bus_byte bus log reg &&& (0xff ^^^ mask))
          ∧ mask_merge val mask (bus_byte bus log reg) < 256
          ∧ ∀ i, i < 8 →
              (mask_merge val mask (bus_byte bus log reg)).testBit i
                = if mask.testBit i then val.testBit i
                  else (bus_byte bus log reg).testBit i)
      ∧ (mask = 0xff →
          af9033_wr_reg_mask bus log reg val mask = af9033_wr_regs bus log reg [val]
            ∧ (af9033_wr_reg_mask bus log reg val mask).2 = log ++ [Op.wr reg [val]])
      ∧ (mask ≠ 0xff → (bus.xfer_rd log reg 1).1 ≠ 2 →
          af9033_wr_reg_mask bus log reg val mask = (- EREMOTEIO, log ++ [Op.rd reg 1])
            ∧ (af9033_rd_regs bus log reg 1).1 = - EREMOTEIO) := by
  refine ⟨fun hm hrd => ?_, fun hm => ?_, fun hm hrd => ?_⟩
  · have hr : (af9033_rd_regs bus log reg 1).1 = 0 := by simp [af9033_rd_regs, hrd]
    have heq : af9033_wr_reg_mask bus log reg val mask
        = af9033_wr_regs bus (log ++ [Op.rd reg 1]) reg
            [mask_merge val mask (bus_byte bus log reg)] := by
      rw [wr_reg_mask_unfold, if_neg hm, if_pos hr]
    refine ⟨heq, ?_, rfl, mask_merge_lt _ _ _ hval (bus_byte_lt bus log reg),
      fun i hi => mask_merge_testBit _ _ _ i hi⟩
    rw [heq]
    simp [af9033_wr_regs, MAX_XFER_SIZE]
  · have heq : af9033_wr_reg_mask bus log reg val mask = af9033_wr_regs bus log reg [val] := by
      rw [wr_reg_mask_unfold, if_pos hm]
    refine ⟨heq, ?_⟩
    rw [heq]
    simp [af9033_wr_regs, MAX_XFER_SIZE]
  · have hr : (af9033_rd_regs bus log reg 1).1 = - EREMOTEIO := by
      simp [af9033_rd_regs, hrd]
    have hne : ¬ (af9033_rd_regs bus log reg 1).1 = 0 := by
      rw [hr]; decide
    refine ⟨?_, hr⟩
    rw [wr_reg_mask_unfold, if_neg hm, if_neg hne, hr]

/-- Witness for `wr_reg_mask_merges`: value `0x0a`, mask `0x0f`, on a bus that reads
`0x65`; the byte written is `0x6a`. -/
theorem wr_reg_mask_merges_witness :
    (af9033_wr_reg_mask (bus_const [0x65]) [] 0x80f904 0x0a 0x0f).2
      = [] ++ [Op.rd 0x80f904 1,
          Op.wr 0x80f904 [mask_merge 0x0a 0x0f (bus_byte (bus_const [0x65]) [] 0x80f904)]] :=
  ((wr_reg_mask_merges (bus_const [0x65]) [] 0x80f904 0x0a 0x0f (by decide)).1
    (by decide) rfl).2.1

set_option maxRecDepth 100000 in
/-- The loop of `af9033_rd_reg_mask` ends at the lowest set bit of a non-zero byte. -/
theorem first_bit_lowest :
    ∀ mask, mask < 256 → mask ≠ 0 →
      first_bit mask 8 < 8 ∧ mask.testBit (first_bit mask 8) = true
        ∧ ∀ j, j < first_bit mask 8 → mask.testBit j = false := by
  decide

/-- C12: for every byte `v` the register holds and every non-zero mask `m` (a byte),
`af9033_rd_reg_mask` returns `(v & m)` shifted right by the index of the lowest set
bit of `m`, and returns `0` for `m = 0`; `v = 0b01100101` with `m = 0b00110000`
gives `0b10`. -/
theorem rd_reg_mask_value (bus : Bus) (log : List Op) (reg mask : Nat) (hmask : mask < 256)
    (hrd : (bus.xfer_rd log reg 1).1 = 2) :
    (mask ≠ 0 →
        ∃ i, i < 8 ∧ mask.testBit i = true ∧ (∀ j, j < i → mask.testBit j = false)
          ∧ af9033_rd_reg_mask bus log reg mask
            = (0, (bus_byte bus log reg &&& mask) >>> i, log ++ [Op.rd reg 1]))
      ∧ (mask = 0 → af9033_rd_reg_mask bus log reg mask = (0, 0, log ++ [Op.rd reg 1]))
      ∧ (bus_byte bus log reg = 0b01100101 →
          af9033_rd_reg_mask bus log reg 0b00110000 = (0, 0b10, log ++ [Op.rd reg 1])) := by
  have hr : (af9033_rd_regs bus log reg 1).1 = 0 := by simp [af9033_rd_regs, hrd]
  have hval : ∀ m, af9033_rd_reg_mask bus log reg m
      = (0, (bus_byte bus log reg &&& m) >>> first_bit m 8, log ++ [Op.rd reg 1]) := by
    intro m
    simp only [af9033_rd_reg_mask, hr, ne_eq, not_true_eq_false, if_false]
    rfl
  refine ⟨fun hm => ?_, fun hm => ?_, fun hv => ?_⟩
  · obtain ⟨h1, h2, h3⟩ := first_bit_lowest mask hmask hm
    exact ⟨first_bit mask 8, h1, h2, h3, hval mask⟩
  · rw [hval, hm]
    simp
  · rw [hval, hv]
    rfl

/-- Witness for `rd_reg_mask_value`: the byte `0b01100101` read through the mask
`0b00110000`. -/
theorem rd_reg_mask_value_witness :
    af9033_rd_reg_mask (bus_const [0b01100101]) [] 0x80f5a9 0b00110000
      = (0, 0b10, [] ++ [Op.rd 0x80f5a9 1]) :=
  (rd_reg_mask_value (bus_const [0b01100101]) [] 0x80f5a9 0b00110000 (by decide) rfl).2.2 rfl

/-- C13 (as amended): `af9033_wr_regs(addr, bytes)` returns `-EINVAL`, without any bus
transaction, exactly when the payload is longer than 61 bytes (the three address
bytes and the payload share the 64-byte buffer); for every payload of at most 61
bytes it sends one message consisting of the three address bytes (bits 23..16,
15..8, 7..0 of `addr`) followed by the payload, and returns `0` if the bus reports
exactly one completed message and `-EREMOTEIO` otherwise. -/
theorem wr_regs_limit (bus : Bus) (log : List Op) (reg : Nat) (val : List Nat) :
    ((af9033_wr_regs bus log reg val).1 = - EINVAL ↔ 61 < val.length)
      ∧ (61 < val.length → af9033_wr_regs bus log reg val = (- EINVAL, log))
      ∧ (val.length ≤ 61 →
          (af9033_wr_regs bus log reg val).2 = log ++ [Op.wr reg val]
            ∧ (Op.wr reg val).msg
              = [(reg >>> 16) &&& 0xff, (reg >>> 8) &&& 0xff, (reg >>> 0) &&& 0xff] ++ val
            ∧ (Op.wr reg val).msg.length = 3 + val.length
            ∧ (bus.xfer_wr log reg val = 1 → (af9033_wr_regs bus log reg val).1 = 0)
            ∧ (bus.xfer_wr log reg val ≠ 1 →
                (af9033_wr_regs bus log reg val).1 = - EREMOTEIO)) := by
  have hbig : 61 < val.length → af9033_wr_regs bus log reg val = (- EINVAL, log) := by
    intro h
    have : 3 + val.length > MAX_XFER_SIZE := by unfold MAX_XFER_SIZE; omega
    simp [af9033_wr_regs, this]
  have hsmall : val.length ≤ 61 →
      af9033_wr_regs bus log reg val
        = (if bus.xfer_wr log reg val = 1 then 0 else - EREMOTEIO, log ++ [Op.wr reg val]) := by
    intro h
    have : ¬ 3 + val.length > MAX_XFER_SIZE := by unfold MAX_XFER_SIZE; omega
    simp [af9033_wr_regs, this]
  refine ⟨⟨fun h => ?_, fun h => by rw [hbig h]⟩, hbig, fun h => ?_⟩
  · by_contra hle
    rw [hsmall (by omega)] at h
    by_cases h1 : bus.xfer_wr log reg val = 1
    · simp [h1, EINVAL] at h
    · simp [h1, EINVAL, EREMOTEIO] at h
  · rw [hsmall h]
    refine ⟨rfl, rfl, ?_, fun h1 => by simp [h1], fun h1 => by simp [h1]⟩
    simp [Op.msg, wr_msg]
    omega

/-- Witness for `wr_regs_limit`: the four bytes of a clock control word. -/
theorem wr_regs_limit_witness :
    (af9033_wr_regs bus_zero [] 0x800025 [0, 0, 96, 0]).2
      = [] ++ [Op.wr 0x800025 [0, 0, 96, 0]] :=
  ((wr_regs_limit bus_zero [] 0x800025 [0, 0, 96, 0]).2.2 (by decide)).1

/-- C13 (counterexample): a payload of 62 bytes, not longer than 64, is refused with
`-EINVAL` and no bus transaction, on a bus that would complete the transfer. -/
theorem wr_regs_refuses_62 :
    (List.replicate 62 0).length ≤ 64
      ∧ bus_zero.xfer_wr [] 0x800001 (List.replicate 62 0) = 1
      ∧ af9033_wr_regs bus_zero [] 0x800001 (List.replicate 62 0) = (- EINVAL, []) := by
  decide

/-! ## Statistics: accumulation and throttle -/

/-- A remainder of a number below twice the modulus. -/
theorem mod_lt_two (x W : Nat) (h : x < 2 * W) : x % W = if x < W then x else x - W := by
  split_ifs with hx
  · exact Nat.mod_eq_of_lt hx
  · rw [Nat.mod_eq_sub_mod (by omega)]
    exact Nat.mod_eq_of_lt (by omega)

/-- The amount `ch_stat` adds to the uncorrected-block count is at most `65535`
when the abort count is a `u16`. -/
theorem ch_stat_added_le (abort err total : Nat) (ha : abort < 65536) :
    (ch_stat abort err total).2 ≤ 65535 := by
  unfold ch_stat
  by_cases h1 : total < abort
  · simp [h1]
  · by_cases h2 : u32_sub total abort = 0
    · simp only [h1, h2, if_true, if_false]; omega
    · simp only [h1, h2, if_false]; omega

/-- The body of `af9033_update_ch_stat` with its local variables written out. -/
theorem update_ch_stat_unfold (K : Kernel) (bus : Bus) (dev : af9033_dev) (log : List Op) :
    af9033_update_ch_stat K bus dev log
      = if K.time_after K.jiffies ((dev.last_stat_check + K.msecs_to_jiffies 500) % K.ULONG)
            = true then
          if (af9033_rd_regs bus log 0x800032 7).1 < 0 then
            ((af9033_rd_regs bus log 0x800032 7).1, dev, log ++ [Op.rd 0x800032 7])
          else
            (0, { dev with
                    ber := (ch_stat
                      ((((af9033_rd_regs bus log 0x800032 7).2.1.getD 1 0 <<< 8)
                        + (af9033_rd_regs bus log 0x800032 7).2.1.getD 0 0) % 65536)
                      (u32_add (u32_add ((af9033_rd_regs bus log 0x800032 7).2.1.getD 4 0 <<< 16)
                          ((af9033_rd_regs bus log 0x800032 7).2.1.getD 3 0 <<< 8))
                        ((af9033_rd_regs bus log 0x800032 7).2.1.getD 2 0))
                      (u32_add ((af9033_rd_regs bus log 0x800032 7).2.1.getD 6 0 <<< 8)
                        ((af9033_rd_regs bus log 0x800032 7).2.1.getD 5 0))).1
                    ucb := u32_add dev.ucb (ch_stat
                      ((((af9033_rd_regs bus log 0x800032 7).2.1.getD 1 0 <<< 8)
                        + (af9033_rd_regs bus log 0x800032 7).2.1.getD 0 0) % 65536)
                      (u32_add (u32_add ((af9033_rd_regs bus log 0x800032 7).2.1.getD 4 0 <<< 16)
                          ((af9033_rd_regs bus log 0x800032 7).2.1.getD 3 0 <<< 8))
                        ((af9033_rd_regs bus log 0x800032 7).2.1.getD 2 0))
                      (u32_add ((af9033_rd_regs bus log 0x800032 7).2.1.getD 6 0 <<< 8)
                        ((af9033_rd_regs bus log 0x800032 7).2.1.getD 5 0))).2
                    last_stat_check := K.jiffies },
              log ++ [Op.rd 0x800032 7])
        else (0, dev, log) := rfl

/-- The amount `ch_stat` adds to the uncorrected-block count: 1000 when the bit
count is below the abort count, else the abort count. -/
theorem ch_stat_added (abort err total : Nat) :
    (ch_stat abort err total).2 = if total < abort then 1000 else abort := by
  unfold ch_stat
  by_cases h1 : total < abort
  · simp [h1]
  · by_cases h2 : u32_sub total abort = 0
    · simp only [h1, h2, if_true, if_false]
    · simp only [h1, h2, if_false]

/-- C14 (as amended): the uncorrected-block counter is a 32-bit accumulator. With
`abort` and `total` the counters `abort_cnt` and `bit_cnt` decoded from the seven
bytes read at `0x800032`: a call of `af9033_update_ch_stat` that is not due returns
`0` and leaves the state and the bus untouched; a due call whose read fails returns
`-EREMOTEIO` and leaves the state unchanged; a due call whose read completes (a
refresh) returns `0` and replaces UCB by `(UCB + a) mod 2^32`, where the amount `a`
is `abort`, or 1000 when `total < abort`, and `a <= 65535`; for a 32-bit UCB the value
after a refresh is below the value before exactly when `UCB + a` reaches `2^32`. So
the value after any call is greater than or equal to the value before whenever
`UCB + 65535 < 2^32`, and `af9033_read_ucblocks` reports that value. -/
theorem ucb_accumulates (K : Kernel) (bus : Bus) (dev : af9033_dev) (log : List Op)
    (abort total : Nat)
    (habort : abort = (((af9033_rd_regs bus log 0x800032 7).2.1.getD 1 0 <<< 8)
        + (af9033_rd_regs bus log 0x800032 7).2.1.getD 0 0) % 65536)
    (htotal : total = u32_add ((af9033_rd_regs bus log 0x800032 7).2.1.getD 6 0 <<< 8)
        ((af9033_rd_regs bus log 0x800032 7).2.1.getD 5 0)) :
    (K.time_after K.jiffies ((dev.last_stat_check + K.msecs_to_jiffies 500) % K.ULONG) = false →
        af9033_update_ch_stat K bus dev log = (0, dev, log))
      ∧ (K.time_after K.jiffies ((dev.last_stat_check + K.msecs_to_jiffies 500) % K.ULONG)
            = true →
          (bus.xfer_rd log 0x800032 7).1 ≠ 2 →
          af9033_update_ch_stat K bus dev log = (- EREMOTEIO, dev, log ++ [Op.rd 0x800032 7]))
      ∧ (K.time_after K.jiffies ((dev.last_stat_check + K.msecs_to_jiffies 500) % K.ULONG)
            = true →
          (bus.xfer_rd log 0x800032 7).1 = 2 →
          (af9033_update_ch_stat K bus dev log).1 = 0
            ∧ (af9033_update_ch_stat K bus dev log).2.1.ucb
                = (dev.ucb + (if total < abort then 1000 else abort)) % 2 ^ 32
            ∧ (if total < abort then 1000 else abort) ≤ 65535
            ∧ (af9033_update_ch_stat K bus dev log).2.1.last_stat_check = K.jiffies
            ∧ (af9033_update_ch_stat K bus dev log).2.2 = log ++ [Op.rd 0x800032 7]
            ∧ (dev.ucb < 2 ^ 32 →
                ((af9033_update_ch_stat K bus dev log).2.1.ucb < dev.ucb
                  ↔ 2 ^ 32 ≤ dev.ucb + (if total < abort then 1000 else abort))))
      ∧ (dev.ucb + 65535 < 2 ^ 32 → dev.ucb ≤ (af9033_update_ch_stat K bus dev log).2.1.ucb)
      ∧ ((af9033_read_ucblocks K bus dev log).1 = 0 →
          (af9033_read_ucblocks K bus dev log).2.1
            = some (af9033_update_ch_stat K bus dev log).2.1.ucb) := by
  have hret : (af9033_rd_regs bus log 0x800032 7).1
      = if (bus.xfer_rd log 0x800032 7).1 = 2 then 0 else - EREMOTEIO := rfl
  have ha : (if total < abort then 1000 else abort) ≤ 65535 := by
    have : abort < 65536 := by rw [habort]; exact Nat.mod_lt _ (by norm_num)
    split_ifs <;> omega
  have hrefresh : K.time_after K.jiffies
        ((dev.last_stat_check + K.msecs_to_jiffies 500) % K.ULONG) = true →
      (bus.xfer_rd log 0x800032 7).1 = 2 →
      af9033_update_ch_stat K bus dev log
        = (0, { dev with
                  ber := (ch_stat abort
                    (u32_add (u32_add ((af9033_rd_regs bus log 0x800032 7).2.1.getD 4 0 <<< 16)
                        ((af9033_rd_regs bus log 0x800032 7).2.1.getD 3 0 <<< 8))
                      ((af9033_rd_regs bus log 0x800032 7).2.1.getD 2 0)) total).1
                  ucb := (dev.ucb + (if total < abort then 1000 else abort)) % 2 ^ 32
                  last_stat_check := K.jiffies },
            log ++ [Op.rd 0x800032 7]) := by
    intro hdue hok
    have hnn : ¬ (af9033_rd_regs bus log 0x800032 7).1 < 0 := by
      rw [hret, if_pos hok]; decide
    rw [update_ch_stat_unfold, if_pos hdue, if_neg hnn, ← habort, ← htotal, ch_stat_added]
    rfl
  refine ⟨fun hdue => ?_, fun hdue hbad => ?_, fun hdue hok => ?_, fun hfit => ?_, fun hz => ?_⟩
  · have hnd : ¬ K.time_after K.jiffies
        ((dev.last_stat_check + K.msecs_to_jiffies 500) % K.ULONG) = true := by
      rw [hdue]; decide
    rw [update_ch_stat_unfold, if_neg hnd]
  · have hneg : (af9033_rd_regs bus log 0x800032 7).1 < 0 := by
      rw [hret, if_neg hbad]; decide
    rw [update_ch_stat_unfold, if_pos hdue, if_pos hneg, hret, if_neg hbad]
  · rw [hrefresh hdue hok]
    refine ⟨rfl, rfl, ha, rfl, rfl, fun h32 => ?_⟩
    simp only
    generalize (if total < abort then 1000 else abort) = a at ha
    have hlt2 : dev.ucb + a < 2 * 2 ^ 32 := by omega
    rw [mod_lt_two _ _ hlt2]
    split_ifs with hw
    · constructor <;> intro h <;> omega
    · constructor <;> intro h <;> omega
  · by_cases hdue : K.time_after K.jiffies
        ((dev.last_stat_check + K.msecs_to_jiffies 500) % K.ULONG) = true
    · by_cases hok : (bus.xfer_rd log 0x800032 7).1 = 2
      · rw [hrefresh hdue hok]
        simp only
        rw [Nat.mod_eq_of_lt (by omega)]
        omega
      · have hneg : (af9033_rd_regs bus log 0x800032 7).1 < 0 := by
          rw [hret, if_neg hok]; decide
        rw [update_ch_stat_unfold, if_pos hdue, if_pos hneg]
    · rw [update_ch_stat_unfold, if_neg hdue]
  · unfold af9033_read_ucblocks at hz ⊢
    by_cases hneg : (af9033_update_ch_stat K bus dev log).1 < 0
    · simp only [hneg, if_true] at hz
      omega
    · simp only [hneg, if_false]

/-- Witness for `ucb_accumulates`: a refresh of the sample device, with the counter
at 5, on a sample with abort count 10 and bit count 20000 leaves the counter at 15. -/
theorem ucb_accumulates_witness :
    (10 = (((af9033_rd_regs (bus_const (stat_bytes 10 500 20000)) [] 0x800032 7).2.1.getD 1 0
              <<< 8)
            + (af9033_rd_regs (bus_const (stat_bytes 10 500 20000)) [] 0x800032 7).2.1.getD 0 0)
            % 65536
        ∧ 20000 = u32_add
            ((af9033_rd_regs (bus_const (stat_bytes 10 500 20000)) [] 0x800032 7).2.1.getD 6 0
              <<< 8)
            ((af9033_rd_regs (bus_const (stat_bytes 10 500 20000)) [] 0x800032 7).2.1.getD 5 0)
        ∧ kernel_due.time_after kernel_due.jiffies
            ((({ dev_sample with ucb := 5 } : af9033_dev).last_stat_check
              + kernel_due.msecs_to_jiffies 500) % kernel_due.ULONG) = true
        ∧ ((bus_const (stat_bytes 10 500 20000)).xfer_rd [] 0x800032 7).1 = 2)
      ∧ (af9033_update_ch_stat kernel_due (bus_const (stat_bytes 10 500 20000))
            { dev_sample with ucb := 5 } []).2.1.ucb
          = (5 + (if 20000 < 10 then 1000 else 10)) % 2 ^ 32 :=
  ⟨⟨by decide, by decide, by decide, by decide⟩,
    ((ucb_accumulates kernel_due (bus_const (stat_bytes 10 500 20000))
      { dev_sample with ucb := 5 } [] 10 20000 (by decide) (by decide)).2.2.1
      (by decide) (by decide)).2.1⟩

/-- C14 (counterexample): with the counter at `0xFFFFFFFF`, a refresh whose sample
has abort count 1 (total 2) leaves UCB at 0, below the value before, and
`af9033_read_ucblocks` reports 0. -/
theorem ucb_wraps :
    ({ dev_sample with ucb := 0xffffffff } : af9033_dev).ucb = 0xffffffff
      ∧ (af9033_update_ch_stat kernel_due (bus_const (stat_bytes 1 64 2))
          { dev_sample with ucb := 0xffffffff } []).2.1.ucb = 0
      ∧ (af9033_read_ucblocks kernel_due (bus_const (stat_bytes 1 64 2))
          { dev_sample with ucb := 0xffffffff } []).2.1 = some 0
      ∧ ¬ (({ dev_sample with ucb := 0xffffffff } : af9033_dev).ucb
            ≤ (af9033_update_ch_stat kernel_due (bus_const (stat_bytes 1 64 2))
                { dev_sample with ucb := 0xffffffff } []).2.1.ucb) := by
  decide

/-- With the kernel comparison, the refresh is not due while the jiffies elapsed
since the last one do not exceed the half second. -/
theorem not_due (W now last d : Nat) (hd : d < W / 2)
    (hel : (now % W + W - last % W) % W ≤ d) :
    jiffies_time_after W now ((last + d) % W) = false := by
  have hW : 0 < W := by omega
  have hL := Nat.mod_lt last hW
  have hN := Nat.mod_lt now hW
  have hdm : d % W = d := Nat.mod_eq_of_lt (by omega)
  have hb : (last + d) % W = (last % W + d) % W := by
    rw [Nat.add_mod, hdm]
  unfold jiffies_time_after
  rw [hb, Nat.mod_mod]
  generalize last % W = L at hL hel ⊢
  generalize now % W = N at hN hel ⊢
  rw [mod_lt_two (N + W - L) W (by omega)] at hel
  rw [mod_lt_two (L + d) W (by omega)]
  simp only [decide_eq_false_iff_not, not_le]
  by_cases h1 : N + W - L < W
  · rw [if_pos h1] at hel
    by_cases h2 : L + d < W
    · rw [if_pos h2, mod_lt_two (L + d + W - N) W (by omega)]
      split_ifs <;> omega
    · rw [if_neg h2, mod_lt_two (L + d - W + W - N) W (by omega)]
      split_ifs <;> omega
  · rw [if_neg h1] at hel
    by_cases h2 : L + d < W
    · rw [if_pos h2, mod_lt_two (L + d + W - N) W (by omega)]
      split_ifs <;> omega
    · rw [if_neg h2, mod_lt_two (L + d - W + W - N) W (by omega)]
      split_ifs <;> omega

/-- C15: when less than 500 ms (indeed, not more than 500 ms) of jiffies have
elapsed since the last statistics refresh, `af9033_update_ch_stat` performs no
register read and leaves BER, UCB and the time stamp unchanged, so that
`af9033_read_ber` and `af9033_read_ucblocks` return the stored values; and a refresh
that does happen sets the time stamp to the current time. -/
theorem update_ch_stat_throttled (K : Kernel) (bus : Bus) (dev : af9033_dev) (log : List Op)
    (hta : K.time_after = jiffies_time_after K.ULONG)
    (hd : K.msecs_to_jiffies 500 < K.ULONG / 2)
    (hel : elapsed_jiffies K dev ≤ K.msecs_to_jiffies 500) :
    af9033_update_ch_stat K bus dev log = (0, dev, log)
      ∧ af9033_read_ber K bus dev log = (0, some dev.ber, dev, log)
      ∧ af9033_read_ucblocks K bus dev log = (0, some dev.ucb, dev, log)
      ∧ ∀ (K2 : Kernel) (dev2 : af9033_dev) (log2 : List Op),
          K2.time_after K2.jiffies
              ((dev2.last_stat_check + K2.msecs_to_jiffies 500) % K2.ULONG) = true →
          (bus.xfer_rd log2 0x800032 7).1 = 2 →
          (af9033_update_ch_stat K2 bus dev2 log2).2.1.last_stat_check = K2.jiffies
            ∧ (af9033_update_ch_stat K2 bus dev2 log2).2.2 = log2 ++ [Op.rd 0x800032 7] := by
  have hgate : K.time_after K.jiffies
      ((dev.last_stat_check + K.msecs_to_jiffies 500) % K.ULONG) = false := by
    rw [hta]
    exact not_due K.ULONG K.jiffies dev.last_stat_check _ hd hel
  have hupd : af9033_update_ch_stat K bus dev log = (0, dev, log) := by
    rw [update_ch_stat_unfold, hgate]
    simp
  refine ⟨hupd, ?_, ?_, ?_⟩
  · simp [af9033_read_ber, hupd]
  · simp [af9033_read_ucblocks, hupd]
  · intro K2 dev2 log2 hdue hrd
    have hr : ¬ (af9033_rd_regs bus log2 0x800032 7).1 < 0 := by
      simp [af9033_rd_regs, hrd]
    rw [update_ch_stat_unfold, if_pos hdue, if_neg hr]
    exact ⟨rfl, rfl⟩

/-- Witness for `update_ch_stat_throttled`: 40 jiffies (400 ms at `HZ = 100`) after a
refresh at jiffy 1000. -/
theorem update_ch_stat_throttled_witness :
    af9033_update_ch_stat (kernel_at 1040) bus_zero
        { dev_sample with ber := 7, ucb := 3, last_stat_check := 1000 } []
      = (0, { dev_sample with ber := 7, ucb := 3, last_stat_check := 1000 }, []) :=
  (update_ch_stat_throttled (kernel_at 1040) bus_zero
    { dev_sample with ber := 7, ucb := 3, last_stat_check := 1000 } []
    rfl (by decide) (by decide)).1

/-! ## Status decode, field by field -/

theorem sw_transmission_mode_eq (b : Nat) (p : fe_transmit_mode) :
    sw_transmission_mode b p
      = if b &&& 3 = 0 then .TRANSMISSION_MODE_2K
        else if b &&& 3 = 1 then .TRANSMISSION_MODE_8K else p := by
  unfold sw_transmission_mode
  simp only [Nat.shiftRight_zero]
  generalize b &&& 3 = x
  match x with
  | 0 => rfl
  | 1 => rfl
  | _ + 2 => simp

theorem sw_guard_interval_eq (b : Nat) (p : fe_guard_interval) :
    sw_guard_interval b p
      = if b &&& 3 = 0 then .GUARD_INTERVAL_1_32
        else if b &&& 3 = 1 then .GUARD_INTERVAL_1_16
        else if b &&& 3 = 2 then .GUARD_INTERVAL_1_8
        else if b &&& 3 = 3 then .GUARD_INTERVAL_1_4 else p := by
  unfold sw_guard_interval
  simp only [Nat.shiftRight_zero]
  generalize b &&& 3 = x
  match x with
  | 0 => rfl
  | 1 => rfl
  | 2 => rfl
  | 3 => rfl
  | _ + 4 => simp

theorem sw_hierarchy_eq (b : Nat) (p : fe_hierarchy) :
    sw_hierarchy b p
      = if b &&& 7 = 0 then .HIERARCHY_NONE
        else if b &&& 7 = 1 then .HIERARCHY_1
        else if b &&& 7 = 2 then .HIERARCHY_2
        else if b &&& 7 = 3 then .HIERARCHY_4 else p := by
  unfold sw_hierarchy
  simp only [Nat.shiftRight_zero]
  generalize b &&& 7 = x
  match x with
  | 0 => rfl
  | 1 => rfl
  | 2 => rfl
  | 3 => rfl
  | _ + 4 => simp

theorem sw_modulation_eq (b : Nat) (p : fe_modulation) :
    sw_modulation b p
      = if b &&& 3 = 0 then .QPSK
        else if b &&& 3 = 1 then .QAM_16
        else if b &&& 3 = 2 then .QAM_64 else p := by
  unfold sw_modulation
  simp only [Nat.shiftRight_zero]
  generalize b &&& 3 = x
  match x with
  | 0 => rfl
  | 1 => rfl
  | 2 => rfl
  | _ + 3 => simp

theorem sw_bandwidth_hz_eq (b : Nat) (p : Nat) :
    sw_bandwidth_hz b p
      = if b &&& 3 = 0 then 6000000
        else if b &&& 3 = 1 then 7000000
        else if b &&& 3 = 2 then 8000000 else p := by
  unfold sw_bandwidth_hz
  simp only [Nat.shiftRight_zero]
  generalize b &&& 3 = x
  match x with
  | 0 => rfl
  | 1 => rfl
  | 2 => rfl
  | _ + 3 => simp

theorem sw_code_rate_eq (b : Nat) (p : fe_code_rate) :
    sw_code_rate b p
      = if b &&& 7 = 0 then .FEC_1_2
        else if b &&& 7 = 1 then .FEC_2_3
        else if b &&& 7 = 2 then .FEC_3_4
        else if b &&& 7 = 3 then .FEC_5_6
        else if b &&& 7 = 4 then .FEC_7_8
        else if b &&& 7 = 5 then .FEC_NONE else p := by
  unfold sw_code_rate
  simp only [Nat.shiftRight_zero]
  generalize b &&& 7 = x
  match x with
  | 0 => rfl
  | 1 => rfl
  | 2 => rfl
  | 3 => rfl
  | 4 => rfl
  | 5 => rfl
  | _ + 6 => simp

/-- C16: for every 8-byte status buffer read without error, `af9033_get_frontend`
returns success and decodes each field from its own byte only: transmission mode
from `buf[0] & 3` (0 2K, 1 8K), guard interval from `buf[1] & 3` (0..3: 1/32, 1/16,
1/8, 1/4), hierarchy from `buf[2] & 7` (0..3: none, 1, 2, 4), modulation from
`buf[3] & 3` (0..2: QPSK, 16-QAM, 64-QAM), bandwidth from `buf[4] & 3` (0..2: 6, 7,
8 MHz), HP and LP code rate from `buf[6] & 7` and `buf[7] & 7` (0..5: 1/2, 2/3, 3/4,
5/6, 7/8, none); any other bit pattern leaves the field at its previous value, and
`buf[5]` and all higher bits influence nothing. -/
theorem get_frontend_fields (bus : Bus) (c : dtv_frontend_properties) (log : List Op)
    (data : List Nat) (hrd : bus.xfer_rd log 0x80f900 8 = (2, data)) :
    (af9033_get_frontend bus c log).1 = 0
      ∧ (af9033_get_frontend bus c log).2.1
        = { frequency := c.frequency
            bandwidth_hz :=
              if status_byte data 4 &&& 3 = 0 then 6000000
              else if status_byte data 4 &&& 3 = 1 then 7000000
              else if status_byte data 4 &&& 3 = 2 then 8000000 else c.bandwidth_hz
            transmission_mode :=
              if status_byte data 0 &&& 3 = 0 then .TRANSMISSION_MODE_2K
              else if status_byte data 0 &&& 3 = 1 then .TRANSMISSION_MODE_8K
              else c.transmission_mode
            guard_interval :=
              if status_byte data 1 &&& 3 = 0 then .GUARD_INTERVAL_1_32
              else if status_byte data 1 &&& 3 = 1 then .GUARD_INTERVAL_1_16
              else if status_byte data 1 &&& 3 = 2 then .GUARD_INTERVAL_1_8
              else .GUARD_INTERVAL_1_4
            hierarchy :=
              if status_byte data 2 &&& 7 = 0 then .HIERARCHY_NONE
              else if status_byte data 2 &&& 7 = 1 then .HIERARCHY_1
              else if status_byte data 2 &&& 7 = 2 then .HIERARCHY_2
              else if status_byte data 2 &&& 7 = 3 then .HIERARCHY_4 else c.hierarchy
            modulation :=
              if status_byte data 3 &&& 3 = 0 then .QPSK
              else if status_byte data 3 &&& 3 = 1 then .QAM_16
              else if status_byte data 3 &&& 3 = 2 then .QAM_64 else c.modulation
            code_rate_HP :=
              if status_byte data 6 &&& 7 = 0 then .FEC_1_2
              else if status_byte data 6 &&& 7 = 1 then .FEC_2_3
              else if status_byte data 6 &&& 7 = 2 then .FEC_3_4
              else if status_byte data 6 &&& 7 = 3 then .FEC_5_6
              else if status_byte data 6 &&& 7 = 4 then .FEC_7_8
              else if status_byte data 6 &&& 7 = 5 then .FEC_NONE else c.code_rate_HP
            code_rate_LP :=
              if status_byte data 7 &&& 7 = 0 then .FEC_1_2
              else if status_byte data 7 &&& 7 = 1 then .FEC_2_3
              else if status_byte data 7 &&& 7 = 2 then .FEC_3_4
              else if status_byte data 7 &&& 7 = 3 then .FEC_5_6
              else if status_byte data 7 &&& 7 = 4 then .FEC_7_8
              else if status_byte data 7 &&& 7 = 5 then .FEC_NONE else c.code_rate_LP }
      ∧ ∀ (bus2 : Bus) (log2 : List Op) (data2 : List Nat),
          bus2.xfer_rd log2 0x80f900 8 = (2, data2) →
          status_byte data2 0 &&& 3 = status_byte data 0 &&& 3 →
          status_byte data2 1 &&& 3 = status_byte data 1 &&& 3 →
          status_byte data2 2 &&& 7 = status_byte data 2 &&& 7 →
          status_byte data2 3 &&& 3 = status_byte data 3 &&& 3 →
          status_byte data2 4 &&& 3 = status_byte data 4 &&& 3 →
          status_byte data2 6 &&& 7 = status_byte data 6 &&& 7 →
          status_byte data2 7 &&& 7 = status_byte data 7 &&& 7 →
          (af9033_get_frontend bus2 c log2).2.1 = (af9033_get_frontend bus c log).2.1 := by
  have hform : ∀ (bus1 : Bus) (log1 : List Op) (data1 : List Nat),
      bus1.xfer_rd log1 0x80f900 8 = (2, data1) →
      (af9033_get_frontend bus1 c log1).2.1
        = { frequency := c.frequency
            bandwidth_hz := sw_bandwidth_hz (status_byte data1 4) c.bandwidth_hz
            transmission_mode := sw_transmission_mode (status_byte data1 0) c.transmission_mode
            guard_interval := sw_guard_interval (status_byte data1 1) c.guard_interval
            hierarchy := sw_hierarchy (status_byte data1 2) c.hierarchy
            modulation := sw_modulation (status_byte data1 3) c.modulation
            code_rate_HP := sw_code_rate (status_byte data1 6) c.code_rate_HP
            code_rate_LP := sw_code_rate (status_byte data1 7) c.code_rate_LP } := by
    intro bus1 log1 data1 h
    rw [get_frontend_read bus1 c log1 data1 h]
    rfl
  refine ⟨by rw [get_frontend_read bus c log data hrd], ?_, ?_⟩
  · rw [hform bus log data hrd, sw_bandwidth_hz_eq, sw_transmission_mode_eq,
      sw_guard_interval_eq, sw_hierarchy_eq, sw_modulation_eq, sw_code_rate_eq,
      sw_code_rate_eq]
    have hg : status_byte data 1 &&& 3 ≤ 3 := Nat.and_le_right
    have hg3 : ¬ status_byte data 1 &&& 3 = 0 → ¬ status_byte data 1 &&& 3 = 1 →
        ¬ status_byte data 1 &&& 3 = 2 → status_byte data 1 &&& 3 = 3 := by omega
    congr 1
    split_ifs with h0 h1 h2 h3
    · rfl
    · rfl
    · rfl
    · rfl
    · exact absurd (hg3 h0 h1 h2) h3
  · intro bus2 log2 data2 h2 e0 e1 e2 e3 e4 e6 e7
    rw [hform bus log data hrd, hform bus2 log2 data2 h2, sw_bandwidth_hz_eq,
      sw_transmission_mode_eq, sw_guard_interval_eq, sw_hierarchy_eq, sw_modulation_eq,
      sw_code_rate_eq, sw_code_rate_eq, sw_bandwidth_hz_eq, sw_transmission_mode_eq,
      sw_guard_interval_eq, sw_hierarchy_eq, sw_modulation_eq, sw_code_rate_eq,
      sw_code_rate_eq, e0, e1, e2, e3, e4, e6, e7]

/-- Witness for `get_frontend_fields`: the buffer `[1, 2, 3, 2, 1, 0xff, 5, 4]`. -/
theorem get_frontend_fields_witness :
    (af9033_get_frontend (bus_const [1, 2, 3, 2, 1, 0xff, 5, 4]) props_sample []).1 = 0 :=
  (get_frontend_fields (bus_const [1, 2, 3, 2, 1, 0xff, 5, 4]) props_sample []
    [1, 2, 3, 2, 1, 0xff, 5, 4] rfl).1

/-! ## Lock status -/

/-- A masked read of bit 0 that completes returns bit 0 of the byte read. -/
theorem rd_reg_mask_bit0 (bus : Bus) (log : List Op) (reg : Nat)
    (hrd : (bus.xfer_rd log reg 1).1 = 2) :
    af9033_rd_reg_mask bus log reg 0x01
      = (0, bus_byte bus log reg &&& 1, log ++ [Op.rd reg 1]) := by
  have hr : (af9033_rd_regs bus log reg 1).1 = 0 := by simp [af9033_rd_regs, hrd]
  simp only [af9033_rd_reg_mask, hr, ne_eq, not_true_eq_false, if_false]
  rfl

/-- A one-byte read that completes. -/
theorem rd_reg_ok (bus : Bus) (log : List Op) (reg : Nat)
    (hrd : (bus.xfer_rd log reg 1).1 = 2) :
    af9033_rd_reg bus log reg = (0, bus_byte bus log reg, log ++ [Op.rd reg 1]) := by
  have hr : (af9033_rd_regs bus log reg 1).1 = 0 := by simp [af9033_rd_regs, hrd]
  simp only [af9033_rd_reg, hr]
  rfl

/-- The flag word of `af9033_read_status` from the three values read. -/
theorem read_status_value (bus : Bus) (log : List Op)
    (h1 : (bus.xfer_rd log 0x800047 1).1 = 2)
    (h2 : (bus.xfer_rd (log ++ [Op.rd 0x800047 1]) 0x80f5a9 1).1 = 2)
    (h3 : (bus.xfer_rd (log ++ [Op.rd 0x800047 1] ++ [Op.rd 0x80f5a9 1]) 0x80f999 1).1 = 2) :
    af9033_read_status bus log
      = if bus_byte bus log 0x800047 = 0x02 then (0, 0, log ++ [Op.rd 0x800047 1])
        else
          (0,
            ((if bus_byte bus log 0x800047 = 0x01 then FE_HAS_SIGNAL else 0)
              ||| (if bus_byte bus (log ++ [Op.rd 0x800047 1]) 0x80f5a9 &&& 1 = 1 then
                    FE_HAS_SIGNAL ||| FE_HAS_CARRIER ||| FE_HAS_VITERBI else 0))
              ||| (if bus_byte bus (log ++ [Op.rd 0x800047 1] ++ [Op.rd 0x80f5a9 1]) 0x80f999
                      &&& 1 = 1 then
                    FE_HAS_SIGNAL ||| FE_HAS_CARRIER ||| FE_HAS_VITERBI ||| FE_HAS_SYNC
                      ||| FE_HAS_LOCK else 0),
            log ++ [Op.rd 0x800047 1] ++ [Op.rd 0x80f5a9 1] ++ [Op.rd 0x80f999 1]) := by
  have ht : bus_byte bus (log ++ [Op.rd 0x800047 1]) 0x80f5a9 &&& 1 ≤ 1 := Nat.and_le_right
  have hl : bus_byte bus (log ++ [Op.rd 0x800047 1] ++ [Op.rd 0x80f5a9 1]) 0x80f999 &&& 1 ≤ 1 :=
    Nat.and_le_right
  unfold af9033_read_status
  simp only [rd_reg_ok bus log 0x800047 h1, rd_reg_mask_bit0 _ _ _ h2,
    rd_reg_mask_bit0 _ _ _ h3, Int.lt_irrefl, if_false, ne_eq, ite_not]
  by_cases hs : bus_byte bus log 0x800047 = 2
  · simp [hs]
  · simp only [hs, if_false]
    generalize bus_byte bus (log ++ [Op.rd 0x800047 1]) 0x80f5a9 &&& 1 = t at ht
    generalize bus_byte bus (log ++ [Op.rd 0x800047 1] ++ [Op.rd 0x80f5a9 1]) 0x80f999 &&& 1
      = l at hl
    interval_cases t <;> interval_cases l <;> simp

/-- When the channel status reads `0x02`, `af9033_read_status` stops after that read. -/
theorem read_status_no_signal (bus : Bus) (log : List Op)
    (h1 : (bus.xfer_rd log 0x800047 1).1 = 2) (hs : bus_byte bus log 0x800047 = 0x02) :
    af9033_read_status bus log = (0, 0, log ++ [Op.rd 0x800047 1]) := by
  unfold af9033_read_status
  simp only [rd_reg_ok bus log 0x800047 h1, hs, Int.lt_irrefl, if_false, ne_eq,
    not_true_eq_false]
  simp

/-- The flag word `af9033_read_status` leaves is one of four values, whatever the
bus answers. -/
theorem read_status_four (bus : Bus) (log : List Op) :
    (af9033_read_status bus log).2.1 = 0
      ∨ (af9033_read_status bus log).2.1 = FE_HAS_SIGNAL
      ∨ (af9033_read_status bus log).2.1 = FE_HAS_SIGNAL ||| FE_HAS_CARRIER ||| FE_HAS_VITERBI
      ∨ (af9033_read_status bus log).2.1
          = FE_HAS_SIGNAL ||| FE_HAS_CARRIER ||| FE_HAS_VITERBI ||| FE_HAS_SYNC
              ||| FE_HAS_LOCK := by
  unfold af9033_read_status
  simp only []
  split_ifs <;> simp [FE_HAS_SIGNAL, FE_HAS_CARRIER, FE_HAS_VITERBI, FE_HAS_SYNC, FE_HAS_LOCK]

/-- C17: for every radio-channel-status byte `s` and TPS-lock and full-lock bits `t`,
`l` read without bus error, `af9033_read_status` returns the empty flag set after a
single register read when `s = 0x02`; otherwise it returns the union of `{SIGNAL}`
if `s = 0x01`, `{SIGNAL, CARRIER, VITERBI}` if `t = 1` and
`{SIGNAL, CARRIER, VITERBI, SYNC, LOCK}` if `l = 1`. Every returned set is one of
exactly four values and satisfies LOCK => SYNC => VITERBI => CARRIER => SIGNAL. -/
theorem read_status_flags (bus : Bus) (log : List Op)
    (h1 : (bus.xfer_rd log 0x800047 1).1 = 2) :
    (bus_byte bus log 0x800047 = 0x02 →
        af9033_read_status bus log = (0, 0, log ++ [Op.rd 0x800047 1]))
      ∧ (bus_byte bus log 0x800047 ≠ 0x02 →
          (bus.xfer_rd (log ++ [Op.rd 0x800047 1]) 0x80f5a9 1).1 = 2 →
          (bus.xfer_rd (log ++ [Op.rd 0x800047 1] ++ [Op.rd 0x80f5a9 1]) 0x80f999 1).1 = 2 →
          af9033_read_status bus log
            = (0,
                ((if bus_byte bus log 0x800047 = 0x01 then FE_HAS_SIGNAL else 0)
                  ||| (if bus_byte bus (log ++ [Op.rd 0x800047 1]) 0x80f5a9 &&& 1 = 1 then
                        FE_HAS_SIGNAL ||| FE_HAS_CARRIER ||| FE_HAS_VITERBI else 0))
                  ||| (if bus_byte bus (log ++ [Op.rd 0x800047 1] ++ [Op.rd 0x80f5a9 1])
                          0x80f999 &&& 1 = 1 then
                        FE_HAS_SIGNAL ||| FE_HAS_CARRIER ||| FE_HAS_VITERBI ||| FE_HAS_SYNC
                          ||| FE_HAS_LOCK else 0),
                log ++ [Op.rd 0x800047 1] ++ [Op.rd 0x80f5a9 1] ++ [Op.rd 0x80f999 1]))
      ∧ ((af9033_read_status bus log).2.1 = 0
          ∨ (af9033_read_status bus log).2.1 = FE_HAS_SIGNAL
          ∨ (af9033_read_status bus log).2.1
              = FE_HAS_SIGNAL ||| FE_HAS_CARRIER ||| FE_HAS_VITERBI
          ∨ (af9033_read_status bus log).2.1
              = FE_HAS_SIGNAL ||| FE_HAS_CARRIER ||| FE_HAS_VITERBI ||| FE_HAS_SYNC
                  ||| FE_HAS_LOCK)
      ∧ ((af9033_read_status bus log).2.1 &&& FE_HAS_LOCK ≠ 0 →
          (af9033_read_status bus log).2.1 &&& FE_HAS_SYNC ≠ 0)
      ∧ ((af9033_read_status bus log).2.1 &&& FE_HAS_SYNC ≠ 0 →
          (af9033_read_status bus log).2.1 &&& FE_HAS_VITERBI ≠ 0)
      ∧ ((af9033_read_status bus log).2.1 &&& FE_HAS_VITERBI ≠ 0 →
          (af9033_read_status bus log).2.1 &&& FE_HAS_CARRIER ≠ 0)
      ∧ ((af9033_read_status bus log).2.1 &&& FE_HAS_CARRIER ≠ 0 →
          (af9033_read_status bus log).2.1 &&& FE_HAS_SIGNAL ≠ 0) := by
  have hfour := read_status_four bus log
  refine ⟨fun hs => read_status_no_signal bus log h1 hs, fun hs h2 h3 => ?_, hfour,
    ?_, ?_, ?_, ?_⟩
  · rw [read_status_value bus log h1 h2 h3, if_neg hs]
  all_goals
    rcases hfour with h | h | h | h <;> rw [h] <;> decide

/-- Witness for `read_status_flags`: channel status `0x01` with both lock bits set. -/
theorem read_status_flags_witness :
    af9033_read_status (bus_regs (fun _ => 1)) []
      = (0, FE_HAS_SIGNAL ||| FE_HAS_CARRIER ||| FE_HAS_VITERBI ||| FE_HAS_SYNC ||| FE_HAS_LOCK,
          [Op.rd 0x800047 1, Op.rd 0x80f5a9 1, Op.rd 0x80f999 1]) :=
  ((read_status_flags (bus_regs (fun _ => 1)) [] rfl).2.1 (by decide) rfl rfl).trans
    (by decide)

/-! ## Folding of the IF frequency and the frequency control word -/

theorem to_s32_small (n : Nat) (h : n < 2147483648) : to_s32 n = n := by
  unfold to_s32
  have : n % 4294967296 = n := by omega
  simp [this, h]

theorem to_u32_nat (n : Nat) (h : n < 4294967296) : to_u32 (n : Int) = n := by
  unfold to_u32
  omega

/-- A value at or below half the ADC frequency leaves the folding loop at once. -/
theorem fold_loop_stays (adc fuel : Nat) (x : Int) (h : to_u32 x ≤ adc / 2) :
    fold_loop adc (fuel + 1) x = some x := by
  have : ¬ to_u32 x > adc / 2 := by omega
  simp [fold_loop, this]

/-- The value of `to_s32` is an `int`. -/
theorem to_s32_range (n : Nat) : -2147483648 ≤ to_s32 n ∧ to_s32 n < 2147483648 := by
  unfold to_s32
  split_ifs <;> omega

/-- The folding loop never leaves a negative value: when it ends, `sampling_freq`
lies between `0` and half the ADC frequency. -/
theorem fold_loop_nonneg (adc : Nat) (hadc : adc < 4294967296) :
    ∀ (fuel : Nat) (x s : Int), -2147483648 ≤ x → x < 2147483648 →
      fold_loop adc fuel x = some s → 0 ≤ s ∧ s ≤ ((adc / 2 : Nat) : Int) := by
  intro fuel
  induction fuel with
  | zero => intro x s _ _ h; simp [fold_loop] at h
  | succ n ih =>
    intro x s hlo hhi h
    rw [fold_loop] at h
    by_cases hc : to_u32 x > adc / 2
    · simp only [hc, if_true] at h
      obtain ⟨h1, h2⟩ := to_s32_range (u32_sub (to_u32 x) adc)
      exact ih _ s h1 h2 h
    · simp only [hc, if_false, Option.some.injEq] at h
      subst h
      unfold to_u32 at hc
      omega

set_option maxRecDepth 1000000 in
/-- C18 (the code at the failing input): for `f = 36125000` and `adc = 20250000` the
loop, evaluated with the `u32` comparison of the C code, does not stop at
`-4375000`: it goes on subtracting through the `u32` range and ends after 638 passes
at `1526888`, which is not congruent to `f` modulo `adc`. -/
theorem fold_loop_misses_negative :
    fold_loop 20250000 638 (to_s32 36125000) = none
      ∧ fold_loop 20250000 639 (to_s32 36125000) = some 1526888
      ∧ (36125000 : Int) - 2 * 20250000 = -4375000
      ∧ to_u32 (-4375000) > 20250000 / 2
      ∧ ((1526888 : Int) - 36125000) % 20250000 ≠ 0 := by
  decide

/-- The folding loop does not end for `adc = 2^31` and `f = 2^30 + 1`: the value
alternates between `f` and `f - 2^31`. -/
theorem fold_loop_diverges :
    ∀ fuel, fold_loop 2147483648 fuel (to_s32 1073741825) = none
      ∧ fold_loop 2147483648 fuel (to_s32 3221225473) = none := by
  intro fuel
  induction fuel with
  | zero => exact ⟨rfl, rfl⟩
  | succ n ih =>
    have h1 : to_u32 (to_s32 1073741825) > 2147483648 / 2 := by decide
    have h2 : to_u32 (to_s32 3221225473) > 2147483648 / 2 := by decide
    have e1 : u32_sub (to_u32 (to_s32 1073741825)) 2147483648 = 3221225473 := by decide
    have e2 : u32_sub (to_u32 (to_s32 3221225473)) 2147483648 = 1073741825 := by decide
    constructor
    · rw [fold_loop, if_pos h1, e1]; exact ih.2
    · rw [fold_loop, if_pos h2, e2]; exact ih.1

/-- The divider loop started from `(0, 0)` stays there for a non-zero divisor. -/
theorem af9033_div_loop_zero (b : Nat) (hb : 0 < b) :
    ∀ x, af9033_div_loop b x (0, 0) = (0, 0) := by
  intro x
  induction x with
  | zero => rfl
  | succ n ih =>
    rw [af9033_div_loop, ih]
    have : ¬ (0 : Nat) ≥ b := by omega
    simp [af9033_div_step, this, u32_shl]

/-- Dividing zero gives zero. -/
theorem af9033_div_zero (b x : Nat) (hb : 0 < b) : af9033_div 0 b x = 0 := by
  have h0 : ¬ (0 : Nat) > b := by omega
  unfold af9033_div
  simp only [h0, if_false]
  rw [af9033_div_loop_zero b hb]
  simp [u32_shl, u32_add]

/-- The 23-bit quotient of a magnitude of at most half the ADC frequency is at most
`0x400000`. -/
theorem div23_le_half (s adc : Nat) (hpos : 0 < adc) (hadc : adc < 2 ^ 31)
    (hs : s ≤ adc / 2) : af9033_div s adc 23 ≤ 0x400000 := by
  have e : (2 : Nat) ^ (23 - 1) = 4194304 := by norm_num
  have hq : s * 4194304 / adc ≤ 2097152 := by
    apply Nat.div_le_of_le_mul
    have : 2 * s ≤ adc := by omega
    calc s * 4194304 = (2 * s) * 2097152 := by ring
      _ ≤ adc * 2097152 := Nat.mul_le_mul_right _ this
  have hfit : 2 * (s * 2 ^ (23 - 1) / adc) < 2 ^ 32 := by rw [e]; omega
  rw [af9033_div_value s adc 23 hpos hadc (by omega) (by norm_num) hfit, e]
  omega

/-- The bytes of the frequency control word for a folded value that is not
negative. -/
theorem freq_cw_buf_nonneg (H : Header) (cfg : af9033_config) (adc iff s : Nat)
    (hs : s < 4294967296) :
    freq_cw_buf H cfg adc iff (s : Int)
      = [spec_freq_cw cfg.spec_inv (decide (cfg.adc_multiplier = H.AF9033_ADC_MULTIPLIER_2X))
            (af9033_div s adc 23) >>> 0 &&& 0xff,
         spec_freq_cw cfg.spec_inv (decide (cfg.adc_multiplier = H.AF9033_ADC_MULTIPLIER_2X))
            (af9033_div s adc 23) >>> 8 &&& 0xff,
         if iff = 0 then 0
         else spec_freq_cw cfg.spec_inv
            (decide (cfg.adc_multiplier = H.AF9033_ADC_MULTIPLIER_2X))
            (af9033_div s adc 23) >>> 16 &&& 0x7f] := by
  have hnn : (s : Int) ≥ 0 := by omega
  unfold freq_cw_buf spec_freq_cw
  simp only [hnn, if_true, to_u32_nat s hs]
  cases cfg.spec_inv <;> by_cases h2 : cfg.adc_multiplier = H.AF9033_ADC_MULTIPLIER_2X <;>
    simp [h2]

/-- A tune call with a new bandwidth whose folding loop ends, with the local
variables written out. -/
theorem set_frontend_changed_unfold (H : Header) (bus : Bus) (tuner : tuner_ops)
    (c : dtv_frontend_properties) (fuel : Nat) (dev : af9033_dev) (log : List Op) (bw : Nat)
    (s : Int) (hbw : bandwidth_reg_val c.bandwidth_hz = some bw)
    (hne : c.bandwidth_hz ≠ dev.bandwidth_hz)
    (hfold : fold_loop (H.adc_freq dev) fuel (to_s32 (tuner.get_if_frequency.getD 0)) = some s) :
    af9033_set_frontend H bus tuner c fuel dev log
      = if (af9033_wr_regs bus
              (af9033_wr_regs bus log 0x800001
                (H.coeff_row (coeff_idx H.coeff_lut dev.cfg.clock c.bandwidth_hz)).val).2
              0x800029
              (freq_cw_buf H dev.cfg (H.adc_freq dev) (tuner.get_if_frequency.getD 0) s)).1 < 0
        then
          some ((af9033_wr_regs bus
              (af9033_wr_regs bus log 0x800001
                (H.coeff_row (coeff_idx H.coeff_lut dev.cfg.clock c.bandwidth_hz)).val).2
              0x800029
              (freq_cw_buf H dev.cfg (H.adc_freq dev) (tuner.get_if_frequency.getD 0) s)).1,
            dev,
            (af9033_wr_regs bus
              (af9033_wr_regs bus log 0x800001
                (H.coeff_row (coeff_idx H.coeff_lut dev.cfg.clock c.bandwidth_hz)).val).2
              0x800029
              (freq_cw_buf H dev.cfg (H.adc_freq dev) (tuner.get_if_frequency.getD 0) s)).2)
        else
          some ((set_frontend_common bus bw c.frequency
              (af9033_wr_regs bus
                (af9033_wr_regs bus log 0x800001
                  (H.coeff_row (coeff_idx H.coeff_lut dev.cfg.clock c.bandwidth_hz)).val).2
                0x800029
                (freq_cw_buf H dev.cfg (H.adc_freq dev)
                  (tuner.get_if_frequency.getD 0) s)).2).1,
            { dev with bandwidth_hz := c.bandwidth_hz },
            (set_frontend_common bus bw c.frequency
              (af9033_wr_regs bus
                (af9033_wr_regs bus log 0x800001
                  (H.coeff_row (coeff_idx H.coeff_lut dev.cfg.clock c.bandwidth_hz)).val).2
                0x800029
                (freq_cw_buf H dev.cfg (H.adc_freq dev)
                  (tuner.get_if_frequency.getD 0) s)).2).2) := by
  have hfold2 : fold_loop (H.clock_adc_row (clock_adc_idx H.clock_adc_lut dev.cfg.clock)).adc
      fuel (to_s32 (tuner.get_if_frequency.getD 0)) = some s := hfold
  simp only [af9033_set_frontend, hbw, ne_eq, hne, not_false_eq_true, if_true, hfold2]
  rfl

/-- A tune call with a new bandwidth whose folding loop ends: the frequency control
word is written to `0x800029` once, right after the coefficient write, whatever
the bus answers. -/
theorem set_frontend_changed (H : Header) (bus : Bus) (tuner : tuner_ops)
    (c : dtv_frontend_properties) (fuel : Nat) (dev : af9033_dev) (log : List Op) (bw : Nat)
    (s : Int) (hbw : bandwidth_reg_val c.bandwidth_hz = some bw)
    (hne : c.bandwidth_hz ≠ dev.bandwidth_hz)
    (hfold : fold_loop (H.adc_freq dev) fuel (to_s32 (tuner.get_if_frequency.getD 0)) = some s) :
    ∃ ret dev1 pre rest,
      af9033_set_frontend H bus tuner c fuel dev log
          = some (ret, dev1,
              pre ++ Op.wr 0x800029
                (freq_cw_buf H dev.cfg (H.adc_freq dev) (tuner.get_if_frequency.getD 0) s)
                :: rest)
        ∧ (pre = log
            ∨ pre = log ++ [Op.wr 0x800001
                (H.coeff_row (coeff_idx H.coeff_lut dev.cfg.clock c.bandwidth_hz)).val])
        ∧ ∀ o ∈ rest, o.reg ≠ 0x800029 := by
  rw [set_frontend_changed_unfold H bus tuner c fuel dev log bw s hbw hne hfold]
  have hlen : (freq_cw_buf H dev.cfg (H.adc_freq dev) (tuner.get_if_frequency.getD 0) s).length
      = 3 := by simp [freq_cw_buf]
  generalize freq_cw_buf H dev.cfg (H.adc_freq dev) (tuner.get_if_frequency.getD 0) s = B
    at hlen ⊢
  have hpre : (af9033_wr_regs bus log 0x800001
      (H.coeff_row (coeff_idx H.coeff_lut dev.cfg.clock c.bandwidth_hz)).val).2 = log
      ∨ (af9033_wr_regs bus log 0x800001
          (H.coeff_row (coeff_idx H.coeff_lut dev.cfg.clock c.bandwidth_hz)).val).2
        = log ++ [Op.wr 0x800001
            (H.coeff_row (coeff_idx H.coeff_lut dev.cfg.clock c.bandwidth_hz)).val] := by
    unfold af9033_wr_regs
    split_ifs
    · left; rfl
    · right; rfl
  generalize (af9033_wr_regs bus log 0x800001
      (H.coeff_row (coeff_idx H.coeff_lut dev.cfg.clock c.bandwidth_hz)).val).2 = L1 at hpre ⊢
  have hwr : (af9033_wr_regs bus L1 0x800029 B).2 = L1 ++ [Op.wr 0x800029 B] := by
    have : ¬ 3 + B.length > MAX_XFER_SIZE := by unfold MAX_XFER_SIZE; omega
    simp [af9033_wr_regs, this]
  by_cases hneg : (af9033_wr_regs bus L1 0x800029 B).1 < 0
  · rw [if_pos hneg, hwr]
    exact ⟨_, dev, L1, [], rfl, hpre, by simp⟩
  · rw [if_neg hneg]
    obtain ⟨ops, hops, hP⟩ := set_frontend_common_extends bus bw c.frequency
      (af9033_wr_regs bus L1 0x800029 B).2
    rw [hops, hwr]
    refine ⟨(set_frontend_common bus bw c.frequency (L1 ++ [Op.wr 0x800029 B])).1,
      { dev with bandwidth_hz := c.bandwidth_hz }, L1, ops, by simp, hpre, fun o ho => ?_⟩
    have := hP o ho
    simp only [List.mem_cons, List.mem_singleton, List.not_mem_nil, or_false] at this
    omega

/-- C19: for every supported bandwidth different from the cached one, every ADC
frequency `adc` and every tuner IF frequency `f` with `0 < f <= adc/2` (no folding
needed), the three bytes `af9033_set_frontend` writes to `0x800029` are the
little-endian bytes of `V` with the third byte masked by `0x7f`, where
`W = af9033_div(f, adc, 23)`, `V1 = W` if the spectral-inversion flag of the
configuration is set and `V1 = 0x800000 - W` if it is clear, and `V = V1 / 2` if the
ADC multiplier is 2x, else `V = V1`. For `adc < 2^31` the subtraction does not wrap. -/
theorem set_frontend_freq_cw (H : Header) (bus : Bus) (tuner : tuner_ops)
    (c : dtv_frontend_properties) (fuel : Nat) (dev : af9033_dev) (log : List Op)
    (bw f : Nat) (hbw : bandwidth_reg_val c.bandwidth_hz = some bw)
    (hne : c.bandwidth_hz ≠ dev.bandwidth_hz)
    (hif : tuner.get_if_frequency = some f) (hf0 : 0 < f)
    (hf : f ≤ H.adc_freq dev / 2) (hadc : H.adc_freq dev < 2 ^ 32) :
    (∃ ret dev1 pre rest,
        af9033_set_frontend H bus tuner c (fuel + 1) dev log
            = some (ret, dev1,
                pre ++ Op.wr 0x800029
                  [spec_freq_cw dev.cfg.spec_inv
                      (decide (dev.cfg.adc_multiplier = H.AF9033_ADC_MULTIPLIER_2X))
                      (af9033_div f (H.adc_freq dev) 23) >>> 0 &&& 0xff,
                   spec_freq_cw dev.cfg.spec_inv
                      (decide (dev.cfg.adc_multiplier = H.AF9033_ADC_MULTIPLIER_2X))
                      (af9033_div f (H.adc_freq dev) 23) >>> 8 &&& 0xff,
                   spec_freq_cw dev.cfg.spec_inv
                      (decide (dev.cfg.adc_multiplier = H.AF9033_ADC_MULTIPLIER_2X))
                      (af9033_div f (H.adc_freq dev) 23) >>> 16 &&& 0x7f] :: rest)
          ∧ (pre = log
              ∨ pre = log ++ [Op.wr 0x800001
                  (H.coeff_row (coeff_idx H.coeff_lut dev.cfg.clock c.bandwidth_hz)).val])
          ∧ ∀ o ∈ rest, o.reg ≠ 0x800029)
      ∧ (H.adc_freq dev < 2 ^ 31 →
          af9033_div f (H.adc_freq dev) 23 ≤ 0x400000
            ∧ u32_sub 0x800000 (af9033_div f (H.adc_freq dev) 23)
              = 0x800000 - af9033_div f (H.adc_freq dev) 23) := by
  have hf32 : f < 4294967296 := by omega
  have hf31 : f < 2147483648 := by omega
  have hget : tuner.get_if_frequency.getD 0 = f := by rw [hif]; rfl
  have hfold : fold_loop (H.adc_freq dev) (fuel + 1) (to_s32 (tuner.get_if_frequency.getD 0))
      = some (f : Int) := by
    rw [hget, to_s32_small f hf31]
    exact fold_loop_stays _ _ _ (by rw [to_u32_nat f hf32]; exact hf)
  constructor
  · obtain ⟨ret, dev1, pre, rest, h1, h2, h3⟩ :=
      set_frontend_changed H bus tuner c (fuel + 1) dev log bw f hbw hne hfold
    rw [hget, freq_cw_buf_nonneg H dev.cfg _ f f hf32, if_neg (by omega)] at h1
    exact ⟨ret, dev1, pre, rest, h1, h2, h3⟩
  · intro h31
    have hle := div23_le_half f (H.adc_freq dev) (by omega) h31 hf
    exact ⟨hle, u32_sub_small (by omega) (by norm_num)⟩

set_option maxRecDepth 100000 in
/-- Witness for `set_frontend_freq_cw`: the sample device tuned to 8 MHz with an IF
of 4.57 MHz; the bytes written are `[244, 28, 99]`. -/
theorem set_frontend_freq_cw_witness :
    af9033_div 4570000 (hdr_sample.adc_freq dev_sample) 23 ≤ 0x400000
      ∧ u32_sub 0x800000 (af9033_div 4570000 (hdr_sample.adc_freq dev_sample) 23)
        = 0x800000 - af9033_div 4570000 (hdr_sample.adc_freq dev_sample) 23 :=
  (set_frontend_freq_cw hdr_sample bus_zero tuner_sample props_sample 0 dev_sample [] 2
    4570000 rfl (by decide) rfl (by decide) (by decide) (by decide)).2 (by decide)

/-- C20: when the tuner IF frequency is exactly 0 (reported as 0, or the tuner has no
`get_if_frequency`), then for every spectral-inversion setting, every ADC
multiplier mode and every ADC frequency `adc > 0`, all three bytes of the frequency
control word written to `0x800029`, the top one included, are `0x00`. -/
theorem set_frontend_zero_if (H : Header) (bus : Bus) (tuner : tuner_ops)
    (c : dtv_frontend_properties) (fuel : Nat) (dev : af9033_dev) (log : List Op) (bw : Nat)
    (hbw : bandwidth_reg_val c.bandwidth_hz = some bw)
    (hne : c.bandwidth_hz ≠ dev.bandwidth_hz)
    (hif : tuner.get_if_frequency.getD 0 = 0) (hadc : 0 < H.adc_freq dev) :
    ∃ ret dev1 pre rest,
      af9033_set_frontend H bus tuner c (fuel + 1) dev log
          = some (ret, dev1, pre ++ Op.wr 0x800029 [0x00, 0x00, 0x00] :: rest)
        ∧ (pre = log
            ∨ pre = log ++ [Op.wr 0x800001
                (H.coeff_row (coeff_idx H.coeff_lut dev.cfg.clock c.bandwidth_hz)).val])
        ∧ ∀ o ∈ rest, o.reg ≠ 0x800029 := by
  have hfold : fold_loop (H.adc_freq dev) (fuel + 1) (to_s32 (tuner.get_if_frequency.getD 0))
      = some ((0 : Nat) : Int) := by
    rw [hif, to_s32_small 0 (by norm_num)]
    exact fold_loop_stays _ _ _ (by rw [to_u32_nat 0 (by norm_num)]; omega)
  obtain ⟨ret, dev1, pre, rest, h1, h2, h3⟩ :=
    set_frontend_changed H bus tuner c (fuel + 1) dev log bw _ hbw hne hfold
  have hbuf : freq_cw_buf H dev.cfg (H.adc_freq dev) (tuner.get_if_frequency.getD 0)
      ((0 : Nat) : Int) = [0x00, 0x00, 0x00] := by
    rw [hif, freq_cw_buf_nonneg H dev.cfg _ 0 0 (by norm_num), af9033_div_zero _ _ hadc]
    unfold spec_freq_cw
    cases dev.cfg.spec_inv <;>
      by_cases h2 : dev.cfg.adc_multiplier = H.AF9033_ADC_MULTIPLIER_2X <;>
      simp [h2] <;> decide
  rw [hbuf] at h1
  exact ⟨ret, dev1, pre, rest, h1, h2, h3⟩

set_option maxRecDepth 100000 in
/-- Witness for `set_frontend_zero_if`: the sample device with a tuner that has no
`get_if_frequency`, on a bus where every transfer completes. -/
theorem set_frontend_zero_if_witness :
    ∃ ret dev1 pre rest,
      af9033_set_frontend hdr_sample bus_zero ⟨true, none⟩ props_sample (0 + 1) dev_sample []
          = some (ret, dev1, pre ++ Op.wr 0x800029 [0x00, 0x00, 0x00] :: rest)
        ∧ (pre = []
            ∨ pre = [] ++ [Op.wr 0x800001
                (hdr_sample.coeff_row
                  (coeff_idx hdr_sample.coeff_lut dev_sample.cfg.clock
                    props_sample.bandwidth_hz)).val])
        ∧ ∀ o ∈ rest, o.reg ≠ 0x800029 :=
  set_frontend_zero_if hdr_sample bus_zero ⟨true, none⟩ props_sample 0 dev_sample [] 2
    rfl (by decide) rfl (by decide)

/-! ## The divider: exact characterisation -/

theorem quot_mono_le (a b : Nat) {j k : Nat} (h : j ≤ k) : a * 2 ^ j / b ≤ a * 2 ^ k / b := by
  apply Nat.div_le_div_right
  exact Nat.mul_le_mul_left a (Nat.pow_le_pow_right (by norm_num) h)

/-- The loop of `af9033_div` in unbounded arithmetic: the state after `k + 1` passes
started from `(a, 0)` with `a ≤ b`. -/
theorem div_loop_exact_inv (a b : Nat) (hb : 0 < b) (hab : a ≤ b) :
    ∀ k, div_loop_exact b (k + 1) (a, 0) = (2 * (a * 2 ^ k % b), 2 * (a * 2 ^ k / b)) := by
  intro k
  induction k with
  | zero =>
    simp only [div_loop_exact, div_step_exact, pow_zero, mul_one]
    by_cases h : a ≥ b
    · have : a = b := le_antisymm hab h
      subst this
      simp [Nat.div_self hb]
    · have hlt : a < b := by omega
      simp only [h, if_false, Nat.div_eq_of_lt hlt, Nat.mod_eq_of_lt hlt]
      simp [Nat.mul_comm]
  | succ k ih =>
    rw [div_loop_exact, ih]
    have h2 : a * 2 ^ (k + 1) = 2 * (a * 2 ^ k) := by rw [pow_succ]; ring
    obtain ⟨hq, hr⟩ := double_div_mod (a * 2 ^ k) b hb
    rw [← h2] at hq hr
    simp only [div_step_exact]
    rw [hq, hr]
    by_cases hc : b ≤ 2 * (a * 2 ^ k % b)
    · simp only [hc, if_true, ge_iff_le]
      simp [Nat.mul_comm]
    · simp only [hc, if_false, ge_iff_le]
      simp [Nat.mul_comm]

/-- The value with which the loop of `af9033_div` starts is the remainder when
`a > b`, computed without wrap-around, and is at most `b`. -/
theorem div_start_eq (a b : Nat) (hb : 0 < b) (ha : a < 2 ^ 32) :
    div_start a b = (if a > b then a % b else a) ∧ div_start a b ≤ b ∧ div_start a b ≤ a := by
  unfold div_start
  by_cases hgt : a > b
  · simp only [hgt, if_true]
    have hdm := Nat.div_add_mod a b
    have hcb : a / b * b ≤ a := Nat.div_mul_le_self a b
    have hlt := Nat.mod_lt a hb
    have hm : a / b * b < 2 ^ 32 := by omega
    rw [u32_mul_small hm, u32_sub_small hcb ha]
    have := Nat.mul_comm b (a / b)
    omega
  · rw [if_neg hgt, if_neg hgt]
    exact ⟨rfl, by omega, le_refl a⟩

/-- The quotient of a shifted dividend, split into the integer part of `a / b` and
the quotient of the remainder. -/
theorem quot_split (a b k : Nat) (hb : 0 < b) :
    a * 2 ^ k / b = (a / b) * 2 ^ k + (a % b) * 2 ^ k / b := by
  have hdm := Nat.div_add_mod a b
  have : a * 2 ^ k = (a % b) * 2 ^ k + b * ((a / b) * 2 ^ k) := by
    conv_lhs => rw [← hdm]
    ring
  rw [this, Nat.add_mul_div_left _ _ hb]; ring

/-- While the quotient fits, the passes of the loop of `af9033_div` compute in `u32`
what they compute in unbounded arithmetic, and both values stay below `2^32`. -/
theorem div_loop_no_wrap (a b : Nat) (hb : 0 < b) (hb31 : b < 2 ^ 31) (hab : a ≤ b) (x : Nat)
    (hx : 1 ≤ x) (hfit : a * 2 ^ x / b < 2 ^ 32) :
    ∀ k, k ≤ x →
      af9033_div_loop b k (a, 0) = div_loop_exact b k (a, 0) ∧
      (div_loop_exact b k (a, 0)).1 < 2 ^ 32 ∧ (div_loop_exact b k (a, 0)).2 < 2 ^ 32 := by
  intro k hk
  cases k with
  | zero =>
    simp only [af9033_div_loop, div_loop_exact]
    exact ⟨trivial, by omega, by norm_num⟩
  | succ j =>
    have hj : j ≤ x - 1 := by omega
    have h1 := quot_mono_le a b hj
    obtain ⟨h2, -⟩ := quot_double_bounds a b (x - 1) hb
    have e : x - 1 + 1 = x := by omega
    rw [e] at h2
    have hlt := Nat.mod_lt (a * 2 ^ j) hb
    have hq : 2 * (a * 2 ^ j / b) < 2 ^ 32 := by omega
    rw [af9033_div_loop_inv a b hb hb31 hab j hq, div_loop_exact_inv a b hb hab j]
    exact ⟨rfl, by simp only; omega, by simp only; omega⟩

/-- C23: for `0 < b < 2^31`, `a < 2^32` and `1 ≤ x ≤ 31` fractional bits with
`floor(a * 2^x / b) < 2^32`, `af9033_div a b x` is `2 * floor(a * 2^(x-1) / b)`; it
is even, does not exceed `floor(a * 2^x / b)` and is at most one below it. Nothing
in the computation wraps: the start value of the loop is the plain remainder, after
every number `k ≤ x` of passes the `u32` state equals the state computed in
unbounded arithmetic with both components below `2^32`, and the shifted integer
part plus the fraction is below `2^32`. -/
theorem af9033_div_exact (a b x : Nat) (hb : 0 < b) (hb31 : b < 2 ^ 31) (ha : a < 2 ^ 32)
    (hx : 1 ≤ x) (hx31 : x ≤ 31) (hfit : a * 2 ^ x / b < 2 ^ 32) :
    af9033_div a b x = 2 * (a * 2 ^ (x - 1) / b)
      ∧ af9033_div a b x % 2 = 0
      ∧ af9033_div a b x ≤ a * 2 ^ x / b
      ∧ a * 2 ^ x / b ≤ af9033_div a b x + 1
      ∧ div_start a b = (if a > b then a - a / b * b else a)
      ∧ (if a > b then a / b else 0) * b < 2 ^ 32
      ∧ (∀ k, k ≤ x →
          af9033_div_loop b k (div_start a b, 0) = div_loop_exact b k (div_start a b, 0)
          ∧ (div_loop_exact b k (div_start a b, 0)).1 < 2 ^ 32
          ∧ (div_loop_exact b k (div_start a b, 0)).2 < 2 ^ 32)
      ∧ (if a > b then a / b else 0) * 2 ^ x + (div_loop_exact b x (div_start a b, 0)).2
          = af9033_div a b x
      ∧ (if a > b then a / b else 0) * 2 ^ x + (div_loop_exact b x (div_start a b, 0)).2
          < 2 ^ 32 := by
  obtain ⟨hlo, hhi⟩ := quot_double_bounds a b (x - 1) hb
  have e : x - 1 + 1 = x := by omega
  rw [e] at hlo hhi
  have hval := af9033_div_value a b x hb hb31 ha hx (by omega)
  obtain ⟨hs1, hs2, hs3⟩ := div_start_eq a b hb ha
  have hfit0 : div_start a b * 2 ^ x / b < 2 ^ 32 :=
    lt_of_le_of_lt (Nat.div_le_div_right (Nat.mul_le_mul_right _ hs3)) hfit
  have hloop := div_loop_no_wrap (div_start a b) b hb hb31 hs2 x hx hfit0
  have hsum : (if a > b then a / b else 0) * 2 ^ x + (div_loop_exact b x (div_start a b, 0)).2
      = af9033_div a b x := by
    obtain ⟨k, rfl⟩ : ∃ k, x = k + 1 := ⟨x - 1, by omega⟩
    rw [hval, div_loop_exact_inv (div_start a b) b hb hs2 k, hs1]
    simp only [Nat.add_sub_cancel]
    by_cases hgt : a > b
    · simp only [hgt, if_true]
      rw [quot_split a b k hb, pow_succ]
      ring
    · simp only [hgt, if_false]
      omega
  refine ⟨hval, by rw [hval]; omega, by rw [hval]; exact hlo, by rw [hval]; exact hhi,
    ?_, ?_, hloop, hsum, by rw [hsum, hval]; omega⟩
  · rw [hs1]
    by_cases hgt : a > b
    · simp only [hgt, if_true]
      have hdm := Nat.div_add_mod a b
      have := Nat.mul_comm b (a / b)
      omega
    · simp only [hgt, if_false]
  · by_cases hgt : a > b
    · simp only [hgt, if_true]
      exact lt_of_le_of_lt (Nat.div_mul_le_self a b) ha
    · simp only [hgt, if_false]; omega

/-- C23 at `a = 20250000`, `b = 1000000`, `x = 19`: the ADC control word of the
12 MHz clock. -/
theorem af9033_div_exact_witness :
    (0 < 1000000 ∧ 1000000 < 2 ^ 31 ∧ 20250000 < 2 ^ 32 ∧ 1 ≤ 19 ∧ 19 ≤ 31
      ∧ 20250000 * 2 ^ 19 / 1000000 < 2 ^ 32)
    ∧ af9033_div 20250000 1000000 19 = 2 * (20250000 * 2 ^ (19 - 1) / 1000000) :=
  ⟨by norm_num,
    (af9033_div_exact 20250000 1000000 19 (by norm_num) (by norm_num) (by norm_num)
      (by norm_num) (by norm_num) (by norm_num)).1⟩

/-! ## The spectral-inversion complement -/

/-- C24: for `0 < adc < 2^31` and a magnitude `s ≤ floor(adc / 2)` the quotient
`W = af9033_div s adc 23` is at most `0x400000`, so the `u32` subtraction
`0x800000 - W` of `af9033_set_frontend` does not wrap (the difference plus `W` is
`0x800000` in unbounded arithmetic) and lies in `[0x400000, 0x800000]`. -/
theorem spec_inv_complement_in_range (s adc : Nat) (hpos : 0 < adc) (hadc : adc < 2 ^ 31)
    (hs : s ≤ adc / 2) :
    af9033_div s adc 23 ≤ 0x400000
      ∧ u32_sub 0x800000 (af9033_div s adc 23) + af9033_div s adc 23 = 0x800000
      ∧ 0x400000 ≤ u32_sub 0x800000 (af9033_div s adc 23)
      ∧ u32_sub 0x800000 (af9033_div s adc 23) ≤ 0x800000 := by
  have hW := div23_le_half s adc hpos hadc hs
  have hsub : u32_sub 0x800000 (af9033_div s adc 23) = 0x800000 - af9033_div s adc 23 :=
    u32_sub_small (by omega) (by norm_num)
  rw [hsub]
  omega

/-- C24 at `s = 4570000`, `adc = 20250000`: the intermediate frequency of the sample
tuner. -/
theorem spec_inv_complement_in_range_witness :
    (0 < 20250000 ∧ 20250000 < 2 ^ 31 ∧ 4570000 ≤ 20250000 / 2)
    ∧ af9033_div 4570000 20250000 23 ≤ 0x400000
    ∧ u32_sub 0x800000 (af9033_div 4570000 20250000 23) + af9033_div 4570000 20250000 23
        = 0x800000
    ∧ 0x400000 ≤ u32_sub 0x800000 (af9033_div 4570000 20250000 23)
    ∧ u32_sub 0x800000 (af9033_div 4570000 20250000 23) ≤ 0x800000 :=
  ⟨by norm_num,
    spec_inv_complement_in_range 4570000 20250000 (by norm_num) (by norm_num) (by norm_num)⟩

/-! ## The clock/ADC lookup -/

/-- When no row of the table has the configured clock, the lookup loop ends with the
index equal to the number of rows: one past the last row. -/
theorem clock_adc_idx_no_match (lut : List clock_adc) (clock : Nat)
    (h : ∀ row ∈ lut, row.clock ≠ clock) : clock_adc_idx lut clock = lut.length := by
  induction lut with
  | nil => rfl
  | cons row rest ih =>
    have h1 : row.clock ≠ clock := h row (List.mem_cons_self _ _)
    have h2 : ∀ r ∈ rest, r.clock ≠ clock := fun r hr => h r (List.mem_cons_of_mem _ hr)
    simp only [clock_adc_idx, if_neg h1, ih h2, List.length_cons]

/-- When some row of the table has the configured clock, the lookup loop ends inside
the table, at the first such row. -/
theorem clock_adc_idx_first_match (lut : List clock_adc) (clock : Nat) (past : clock_adc)
    (h : ∃ row ∈ lut, row.clock = clock) :
    clock_adc_idx lut clock < lut.length
      ∧ (lut.getD (clock_adc_idx lut clock) past).clock = clock
      ∧ ∀ j, j < clock_adc_idx lut clock → (lut.getD j past).clock ≠ clock := by
  induction lut with
  | nil => obtain ⟨row, hrow, -⟩ := h; cases hrow
  | cons row rest ih =>
    by_cases h1 : row.clock = clock
    · simp only [clock_adc_idx, if_pos h1, List.length_cons]
      exact ⟨by omega, by simpa using h1, fun j hj => by omega⟩
    · have h2 : ∃ r ∈ rest, r.clock = clock := by
        obtain ⟨r, hr, hc⟩ := h
        rcases List.mem_cons.mp hr with rfl | hr
        · exact absurd hc h1
        · exact ⟨r, hr, hc⟩
      obtain ⟨i1, i2, i3⟩ := ih h2
      simp only [clock_adc_idx, if_neg h1, List.length_cons]
      refine ⟨by omega, by simpa using i2, fun j hj => ?_⟩
      cases j with
      | zero => simpa using h1
      | succ j => simpa using i3 j (by omega)

/-- C21 (counterexample): a clock/ADC table of two rows, neither for the configured
clock of 12 MHz. The lookup loop ends with index `2`, the number of rows, not with
the last index `1`, and index `2` is not in the table. -/
theorem clock_adc_lookup_not_last :
    1 ≤ lut_no_row.length
      ∧ (∀ row ∈ lut_no_row, row.clock ≠ 12000000)
      ∧ clock_adc_idx lut_no_row 12000000 = 2
      ∧ clock_adc_idx lut_no_row 12000000 ≠ lut_no_row.length - 1
      ∧ ¬ clock_adc_idx lut_no_row 12000000 < lut_no_row.length
      ∧ lut_no_row.get? (clock_adc_idx lut_no_row 12000000) = none := by
  decide

/-- C21 (as amended): for every clock/ADC table and every configured clock, the
lookup loop of `af9033_init` and `af9033_set_frontend` ends inside the table exactly
when some row has the configured clock. When no row matches it ends with the index
equal to the number of rows `n`, one past the last row `n - 1`, where the table has
no element. When a row matches it ends at the first matching row: that row is the
one the ADC control word of `af9033_init` and the ADC frequency of
`af9033_set_frontend` are taken from. -/
theorem clock_adc_lookup_index (H : Header) (dev : af9033_dev) :
    (clock_adc_idx H.clock_adc_lut dev.cfg.clock < H.clock_adc_lut.length
        ↔ ∃ row ∈ H.clock_adc_lut, row.clock = dev.cfg.clock)
      ∧ ((∀ row ∈ H.clock_adc_lut, row.clock ≠ dev.cfg.clock) →
          clock_adc_idx H.clock_adc_lut dev.cfg.clock = H.clock_adc_lut.length
            ∧ H.clock_adc_lut.get? (clock_adc_idx H.clock_adc_lut dev.cfg.clock) = none)
      ∧ ((∃ row ∈ H.clock_adc_lut, row.clock = dev.cfg.clock) →
          ∃ row, H.clock_adc_lut.get? (clock_adc_idx H.clock_adc_lut dev.cfg.clock) = some row
            ∧ row.clock = dev.cfg.clock
            ∧ (∀ j r, j < clock_adc_idx H.clock_adc_lut dev.cfg.clock →
                H.clock_adc_lut.get? j = some r → r.clock ≠ dev.cfg.clock)
            ∧ H.adc_freq dev = row.adc
            ∧ adc_cw_buf H dev
                = [(af9033_div row.adc 1000000 19 >>> 0) &&& 0xff,
                   (af9033_div row.adc 1000000 19 >>> 8) &&& 0xff,
                   (af9033_div row.adc 1000000 19 >>> 16) &&& 0xff]) := by
  have hno : (∀ row ∈ H.clock_adc_lut, row.clock ≠ dev.cfg.clock) →
      clock_adc_idx H.clock_adc_lut dev.cfg.clock = H.clock_adc_lut.length :=
    clock_adc_idx_no_match H.clock_adc_lut dev.cfg.clock
  refine ⟨⟨fun hlt => ?_, fun hex =>
      (clock_adc_idx_first_match H.clock_adc_lut dev.cfg.clock H.clock_adc_past hex).1⟩,
    fun hall => ⟨hno hall, ?_⟩, fun hex => ?_⟩
  · by_contra hne
    have hall : ∀ row ∈ H.clock_adc_lut, row.clock ≠ dev.cfg.clock :=
      fun row hrow hc => hne ⟨row, hrow, hc⟩
    have := hno hall
    omega
  · rw [hno hall]
    exact List.get?_eq_none.mpr (le_refl _)
  · obtain ⟨h1, h2, h3⟩ :=
      clock_adc_idx_first_match H.clock_adc_lut dev.cfg.clock H.clock_adc_past hex
    have hget : H.clock_adc_lut.get? (clock_adc_idx H.clock_adc_lut dev.cfg.clock)
        = some (H.clock_adc_lut.getD (clock_adc_idx H.clock_adc_lut dev.cfg.clock)
            H.clock_adc_past) := by
      rw [List.getD_eq_getElem _ _ h1, List.get?_eq_get h1]
      rfl
    refine ⟨_, hget, h2, fun j r hj hr => ?_, rfl, rfl⟩
    have hjl : j < H.clock_adc_lut.length := by omega
    have := h3 j hj
    rw [List.getD_eq_getElem _ _ hjl] at this
    rw [List.get?_eq_get hjl] at hr
    cases hr
    exact this

/-- Witness for `clock_adc_lookup_index`: in the sample table the row of the 12 MHz
clock is the third one, and the ADC frequency is taken from it. -/
theorem clock_adc_lookup_index_witness :
    (∃ row ∈ hdr_sample.clock_adc_lut, row.clock = dev_sample.cfg.clock)
      ∧ clock_adc_idx hdr_sample.clock_adc_lut dev_sample.cfg.clock
          < hdr_sample.clock_adc_lut.length
      ∧ ∃ row, hdr_sample.clock_adc_lut.get?
            (clock_adc_idx hdr_sample.clock_adc_lut dev_sample.cfg.clock) = some row
          ∧ row.clock = dev_sample.cfg.clock
          ∧ hdr_sample.adc_freq dev_sample = row.adc :=
  ⟨⟨⟨12000000, 20250000⟩, by decide, rfl⟩,
    (clock_adc_lookup_index hdr_sample dev_sample).1.mpr ⟨⟨12000000, 20250000⟩, by decide, rfl⟩,
    by
      obtain ⟨row, h1, h2, -, h4, -⟩ :=
        (clock_adc_lookup_index hdr_sample dev_sample).2.2 ⟨⟨12000000, 20250000⟩, by decide, rfl⟩
      exact ⟨row, h1, h2, h4⟩⟩

/-! ## SNR -/

/-- Unfolding of `af9033_read_snr` in terms of the two bus reads. -/
theorem read_snr_unfold (T : snr_luts) (bus : Bus) (log : List Op) :
    af9033_read_snr T bus log
      = if (af9033_rd_regs bus log 0x80002c 3).1 < 0 then
          ((af9033_rd_regs bus log 0x80002c 3).1, none, (af9033_rd_regs bus log 0x80002c 3).2.2)
        else if (af9033_rd_reg bus (af9033_rd_regs bus log 0x80002c 3).2.2 0x80f903).1 < 0 then
          ((af9033_rd_reg bus (af9033_rd_regs bus log 0x80002c 3).2.2 0x80f903).1, none,
            (af9033_rd_reg bus (af9033_rd_regs bus log 0x80002c 3).2.2 0x80f903).2.2)
        else
          match snr_table T
              (af9033_rd_reg bus (af9033_rd_regs bus log 0x80002c 3).2.2 0x80f903).2.1 with
          | none =>
            ((af9033_rd_reg bus (af9033_rd_regs bus log 0x80002c 3).2.2 0x80f903).1, none,
              (af9033_rd_reg bus (af9033_rd_regs bus log 0x80002c 3).2.2 0x80f903).2.2)
          | some snr_lut =>
            (0,
              some ((snr_loop snr_lut
                  (((af9033_rd_regs bus log 0x80002c 3).2.1.getD 2 0 <<< 16)
                    ||| ((af9033_rd_regs bus log 0x80002c 3).2.1.getD 1 0 <<< 8)
                    ||| (af9033_rd_regs bus log 0x80002c 3).2.1.getD 0 0)
                  (af9033_rd_reg bus (af9033_rd_regs bus log 0x80002c 3).2.2 0x80f903).2.1
                  * 10) % 65536),
              (af9033_rd_reg bus (af9033_rd_regs bus log 0x80002c 3).2.2 0x80f903).2.2) := rfl

/-- When both reads succeed and the modulation code has both low bits set,
`af9033_read_snr` returns `0` without a value. -/
theorem read_snr_default (T : snr_luts) (bus : Bus) (log : List Op)
    (h1 : (bus.xfer_rd log 0x80002c 3).1 = 2)
    (h2 : (bus.xfer_rd (log ++ [Op.rd 0x80002c 3]) 0x80f903 1).1 = 2)
    (h3 : bus_byte bus (log ++ [Op.rd 0x80002c 3]) 0x80f903 &&& 3 = 3) :
    af9033_read_snr T bus log
      = (0, none, log ++ [Op.rd 0x80002c 3] ++ [Op.rd 0x80f903 1]) := by
  have e1 : (af9033_rd_regs bus log 0x80002c 3).1 = 0 := by
    simp only [af9033_rd_regs, h1, if_true]
  have e2 : (af9033_rd_regs bus log 0x80002c 3).2.2 = log ++ [Op.rd 0x80002c 3] := rfl
  have e3 : (af9033_rd_reg bus (log ++ [Op.rd 0x80002c 3]) 0x80f903).1 = 0 := by
    simp only [af9033_rd_reg, af9033_rd_regs, h2, if_true]
  have e4 : (af9033_rd_reg bus (log ++ [Op.rd 0x80002c 3]) 0x80f903).2.2
      = log ++ [Op.rd 0x80002c 3] ++ [Op.rd 0x80f903 1] := rfl
  have e5 : (af9033_rd_reg bus (log ++ [Op.rd 0x80002c 3]) 0x80f903).2.1
      = bus_byte bus (log ++ [Op.rd 0x80002c 3]) 0x80f903 := rfl
  have e6 : snr_table T (bus_byte bus (log ++ [Op.rd 0x80002c 3]) 0x80f903) = none := by
    unfold snr_table
    rw [Nat.shiftRight_zero, h3]
  rw [read_snr_unfold, e1, e2, e3, e4, e5, e6]
  rfl

/-- C22 (the code at the failing input): whatever the SNR tables and the raw SNR
bytes, when both reads succeed and `0x80f903` reads `3`, `af9033_read_snr` returns
`0` and leaves `*snr` unwritten. -/
theorem read_snr_unknown_modulation (T : snr_luts) (v : Nat) :
    af9033_read_snr T (bus_regs (fun reg => if reg = 0x80f903 then 3 else v)) []
      = (0, none, [Op.rd 0x80002c 3, Op.rd 0x80f903 1]) :=
  read_snr_default T _ [] rfl rfl (by simp [bus_byte, bus_regs, rd_buf])

/-- On a table with at least one row the loop of `af9033_read_snr` ends with the SNR
of one of the rows. -/
theorem snr_loop_mem (lut : List val_snr) (snr_val tmp : Nat) (h : lut ≠ []) :
    ∃ row ∈ lut, snr_loop lut snr_val tmp = row.snr := by
  induction lut generalizing tmp with
  | nil => exact absurd rfl h
  | cons row rest ih =>
    by_cases hc : snr_val < row.val
    · exact ⟨row, List.mem_cons_self _ _, by simp only [snr_loop, if_pos hc]⟩
    · by_cases hr : rest = []
      · subst hr
        exact ⟨row, List.mem_cons_self _ _, by simp only [snr_loop, if_neg hc]⟩
      · obtain ⟨r, hr1, hr2⟩ := ih row.snr hr
        exact ⟨r, List.mem_cons_of_mem _ hr1, by simp only [snr_loop, if_neg hc, hr2]⟩

/-- When both reads succeed and the modulation code selects a table with at least one
row, `af9033_read_snr` returns `0` and ten times the SNR of a row of that table. -/
theorem read_snr_value (T : snr_luts) (bus : Bus) (log : List Op) (lut : List val_snr)
    (h1 : (bus.xfer_rd log 0x80002c 3).1 = 2)
    (h2 : (bus.xfer_rd (log ++ [Op.rd 0x80002c 3]) 0x80f903 1).1 = 2)
    (h3 : snr_table T (bus_byte bus (log ++ [Op.rd 0x80002c 3]) 0x80f903) = some lut)
    (h4 : lut ≠ []) :
    ∃ row ∈ lut, af9033_read_snr T bus log
      = (0, some ((row.snr * 10) % 65536), log ++ [Op.rd 0x80002c 3] ++ [Op.rd 0x80f903 1]) := by
  have e1 : (af9033_rd_regs bus log 0x80002c 3).1 = 0 := by
    simp only [af9033_rd_regs, h1, if_true]
  have e2 : (af9033_rd_regs bus log 0x80002c 3).2.2 = log ++ [Op.rd 0x80002c 3] := rfl
  have e3 : (af9033_rd_reg bus (log ++ [Op.rd 0x80002c 3]) 0x80f903).1 = 0 := by
    simp only [af9033_rd_reg, af9033_rd_regs, h2, if_true]
  have e4 : (af9033_rd_reg bus (log ++ [Op.rd 0x80002c 3]) 0x80f903).2.2
      = log ++ [Op.rd 0x80002c 3] ++ [Op.rd 0x80f903 1] := rfl
  have e5 : (af9033_rd_reg bus (log ++ [Op.rd 0x80002c 3]) 0x80f903).2.1
      = bus_byte bus (log ++ [Op.rd 0x80002c 3]) 0x80f903 := rfl
  rw [read_snr_unfold, e1, e2, e3, e4, e5, h3]
  obtain ⟨row, hrow, hval⟩ := snr_loop_mem lut
    (((af9033_rd_regs bus log 0x80002c 3).2.1.getD 2 0 <<< 16)
      ||| ((af9033_rd_regs bus log 0x80002c 3).2.1.getD 1 0 <<< 8)
      ||| (af9033_rd_regs bus log 0x80002c 3).2.1.getD 0 0)
    (bus_byte bus (log ++ [Op.rd 0x80002c 3]) 0x80f903) h4
  refine ⟨row, hrow, ?_⟩
  simp only [lt_self_iff_false, if_false, hval]

end AF9033
